import Mathlib

set_option maxHeartbeats 1000000
set_option maxRecDepth 8192

/-!
Verification of the storage and indexing core of benkivuva/my-rdbms.

Pages are 4096-byte frames; we model page contents as total functions from
byte offset to byte value (`Bytes`), with every read reduced modulo 256 so
values behave as bytes.  All multi-byte fields are big-endian, matching
`encoding/binary.BigEndian` in the Go source.
-/

namespace RDBMS

/-- Page data: a total function from byte offset to byte value. -/
def Bytes : Type := Nat → Nat

/-- Read one byte (reduced mod 256 so arbitrary models still act like bytes). -/
def readByte (d : Bytes) (i : Nat) : Nat := d i % 256

/-- Write one byte. -/
def writeByte (d : Bytes) (i v : Nat) : Bytes := fun j => if j = i then v % 256 else d j

/-- The all-zero page, as produced by `DiskManager.AllocatePage` / `storage.NewPage`. -/
def zeroBytes : Bytes := fun _ => 0

/-- Big-endian read of `w` bytes starting at `off` (`binary.BigEndian.UintN`). -/
def readBE (d : Bytes) (off : Nat) : Nat → Nat
  | 0 => 0
  | w + 1 => readBE d off w * 256 + readByte d (off + w)

/-- Big-endian write of `w` bytes of `v` starting at `off` (`binary.BigEndian.PutUintN`). -/
def writeBE (d : Bytes) (off : Nat) : Nat → Nat → Bytes
  | 0, _ => d
  | w + 1, v => writeBE (writeByte d (off + w) v) off w (v / 256)

/-- Write a list of bytes starting at `off` (Go `copy(dst[off:], data)`). -/
def writeList (d : Bytes) (off : Nat) : List Nat → Bytes
  | [] => d
  | b :: bs => writeList (writeByte d off b) (off + 1) bs

/-- Read `len` bytes starting at `off` as a list (a Go byte-slice read). -/
def readList (d : Bytes) (off len : Nat) : List Nat :=
  (List.range len).map (fun k => readByte d (off + k))

/-- Copy `cnt` bytes from `src` (at `srcOff`) into `dst` (at `dstOff`); Go `copy`
between distinct slices, and also memmove semantics (source snapshot) for Go
`copy` on overlapping regions of one slice. -/
def copyFrom (dst : Bytes) (dstOff : Nat) (src : Bytes) (srcOff cnt : Nat) : Bytes :=
  fun j => if dstOff ≤ j ∧ j < dstOff + cnt then src (srcOff + (j - dstOff)) else dst j

/-- In-page overlapping copy (Go `copy(d[dstOff:dstOff+cnt], d[srcOff:srcOff+cnt])`). -/
def copyWithin (d : Bytes) (dstOff srcOff cnt : Nat) : Bytes :=
  copyFrom d dstOff d srcOff cnt

/-- Signed 64-bit big-endian read: `int64(binary.BigEndian.Uint64(...))`
(also Go `PageID(u64)` on a 64-bit platform). -/
def readI64 (d : Bytes) (off : Nat) : Int :=
  let u := readBE d off 8
  if u < 2 ^ 63 then (u : Int) else (u : Int) - 2 ^ 64

/-- Signed 64-bit big-endian write: `binary.BigEndian.PutUint64(..., uint64(v))`. -/
def writeI64 (d : Bytes) (off : Nat) (v : Int) : Bytes :=
  writeBE d off 8 (v % (2 ^ 64 : Int)).toNat

/-- Page size in bytes (`storage.PageSize`). -/
def PageSize : Nat := 4096

/-- Modelled from the spec: the sentinel `InvalidPageID = −1` is referenced
throughout `src` (its defining constant is in a storage file not present under
`src/`); §3 and §6 of the spec fix it as the two's complement i64 value −1. -/
def InvalidPageID : Int := -1

/-- Record identifier `storage.RID`: `(PageID : int, SlotID : uint32)`. -/
structure RID where
  pageID : Int
  slotID : Nat
deriving DecidableEq

/-- Go `SlottedPage.GetNumSlots`. -/
def spGetNumSlots (d : Bytes) : Nat := readBE d 8 2

/-- Go `SlottedPage.SetNumSlots`. -/
def spSetNumSlots (d : Bytes) (n : Nat) : Bytes := writeBE d 8 2 n

/-- Go `SlottedPage.GetFreeSpacePointer`. -/
def spGetFreeSpacePointer (d : Bytes) : Nat := readBE d 10 2

/-- Go `SlottedPage.SetFreeSpacePointer`. -/
def spSetFreeSpacePointer (d : Bytes) (p : Nat) : Bytes := writeBE d 10 2 p

/-- Go `SlottedPage.GetNextPageID` (8-byte big-endian i64 at offset 0). -/
def spGetNextPageID (d : Bytes) : Int := readI64 d 0

/-- Go `SlottedPage.SetNextPageID`. -/
def spSetNextPageID (d : Bytes) (pid : Int) : Bytes := writeI64 d 0 pid

/-- Go `NewSlottedPage`: wraps a page, initializing `FreeSpacePointer := 4096`
iff both `NumSlots` and the stored `FreeSpacePointer` are zero. -/
def newSlottedPage (d : Bytes) : Bytes :=
  if spGetNumSlots d = 0 ∧ spGetFreeSpacePointer d = 0
  then spSetFreeSpacePointer d PageSize else d

/-- Go `SlottedPage.GetSlot`: the `(offset, length)` directory entry. -/
def spGetSlot (d : Bytes) (idx : Nat) : Nat × Nat :=
  (readBE d (12 + idx * 4) 2, readBE d (12 + idx * 4 + 2) 2)

/-- Go `SlottedPage.SetSlot`. -/
def spSetSlot (d : Bytes) (idx off len : Nat) : Bytes :=
  writeBE (writeBE d (12 + idx * 4) 2 off) (12 + idx * 4 + 2) 2 len

/-- Result of `SlottedPage.InsertTuple`: the new slot id, the local
`ErrNoSpace`, or `ErrTupleTooLarge`. -/
inductive InsResult where
  | ok (slot : Nat)
  | noSpace
  | tooLarge
deriving DecidableEq

/-- The successful write sequence of Go `SlottedPage.InsertTuple`: copy `data`
at `[freePtr − needed, freePtr)`, update `FreeSpacePointer`, append the slot
entry `(newFreePtr, needed)`, increment `NumSlots`. -/
def spInsertWrite (d : Bytes) (data : List Nat) : Bytes :=
  spSetNumSlots
    (spSetSlot
      (spSetFreeSpacePointer
        (writeList d (spGetFreeSpacePointer d - data.length) data)
        (spGetFreeSpacePointer d - data.length))
      (spGetNumSlots d) (spGetFreeSpacePointer d - data.length) data.length)
    (spGetNumSlots d + 1)

/-- Go `SlottedPage.InsertTuple`.  Fails with `tooLarge` when the payload
exceeds the page size, with `noSpace` when `freePtr − usedHeader <
SizeOfSlot + needed` (computed over Go `int`s, hence over `Int`), and
otherwise performs `spInsertWrite` returning the old `NumSlots` as slot id. -/
def spInsertTuple (d : Bytes) (data : List Nat) : InsResult × Bytes :=
  if 4096 < data.length then (InsResult.tooLarge, d)
  else if (spGetFreeSpacePointer d : Int) - (12 + (spGetNumSlots d : Int) * 4)
      < 4 + (data.length : Int)
  then (InsResult.noSpace, d)
  else (InsResult.ok (spGetNumSlots d), spInsertWrite d data)

/-- Go `SlottedPage.GetTuple`: `none` when the slot index is past `NumSlots`
or the slot is a tombstone (`length = 0`); otherwise the byte slice
`[offset, offset+length)`. -/
def spGetTuple (d : Bytes) (idx : Nat) : Option (List Nat) :=
  if spGetNumSlots d ≤ idx then none
  else if (spGetSlot d idx).2 = 0 then none
  else some (readList d (spGetSlot d idx).1 (spGetSlot d idx).2)

/-- Go `SlottedPage.DeleteTuple`: tombstone the slot by zeroing its length;
`false` when the index is out of range. -/
def spDeleteTuple (d : Bytes) (idx : Nat) : Bool × Bytes :=
  if spGetNumSlots d ≤ idx then (false, d)
  else (true, spSetSlot d idx (spGetSlot d idx).1 0)

/-- The freshly constructed slotted page: an all-zero page wrapped by
`NewSlottedPage` (which initializes `FreeSpacePointer = 4096`). -/
def freshSP : Bytes := newSlottedPage zeroBytes

/-- Header invariant of a slotted page (spec §3 / §8). -/
def SPHeaderInv (d : Bytes) : Prop :=
  12 + 4 * spGetNumSlots d ≤ spGetFreeSpacePointer d ∧ spGetFreeSpacePointer d ≤ 4096

/-- Live-slot invariant of a slotted page (spec §8): every live slot's bytes
lie between the free-space pointer and the end of the page. -/
def SPSlotInv (d : Bytes) : Prop :=
  ∀ j, j < spGetNumSlots d → (spGetSlot d j).2 ≠ 0 →
    spGetFreeSpacePointer d ≤ (spGetSlot d j).1 ∧
    (spGetSlot d j).1 + (spGetSlot d j).2 ≤ 4096

/-- Pages reachable from a freshly initialized slotted page by any sequence of
`InsertTuple` and `DeleteTuple` operations. -/
inductive SPReachable : Bytes → Prop where
  | fresh : SPReachable freshSP
  | insert (d : Bytes) (data : List Nat) : SPReachable d → SPReachable (spInsertTuple d data).2
  | delete (d : Bytes) (idx : Nat) : SPReachable d → SPReachable (spDeleteTuple d idx).2

/-!
## TableHeap over a page store

`TableHeap` (src/internal/storage/table_heap.go) walks a linked list of
slotted pages through the buffer pool.  The claims about it hold "absent
buffer-pool or disk failures", so `FetchPage`/`NewPage` are modelled as
operations on a store in which every fetch succeeds and allocation hands out
sequential fresh page ids backed by all-zero pages (as `DiskManager.AllocatePage`
and `BufferPool.NewPage` do on the success path).
-/

/-- The visible page state: page contents per id, plus the next id the disk
manager would allocate (`fileSize / PageSize`). -/
structure Store where
  pages : Int → Bytes
  nextId : Int

/-- Replace one page's bytes (the effect of mutating a fetched page). -/
def Store.update (st : Store) (pid : Int) (d : Bytes) : Store :=
  ⟨fun q => if q = pid then d else st.pages q, st.nextId⟩

/-- `BufferPool.NewPage` on the success path: a fresh sequential id whose
frame starts all-zero. -/
def Store.allocPage (st : Store) : Int × Store :=
  (st.nextId, ⟨fun q => if q = st.nextId then zeroBytes else st.pages q, st.nextId + 1⟩)

/-- A store with no allocated pages. -/
def emptyStore : Store := ⟨fun _ => zeroBytes, 0⟩

/-- Result of `TableHeap.InsertTuple`: an RID plus the resulting page state,
a surfaced slotted-page error, or exhaustion of the recursion fuel. -/
inductive ThResult where
  | ok (rid : RID) (st : Store)
  | noSpace
  | tooLarge
  | noFuel

/-- Projection used by concrete counterexample evaluations. -/
def ThResult.isNoSpace : ThResult → Bool
  | ThResult.noSpace => true
  | _ => false

/-- Projection used by concrete evaluations: the returned RID, if any. -/
def ThResult.ridOf : ThResult → Option RID
  | ThResult.ok rid _ => some rid
  | _ => none

/-- Projection used by concrete evaluations: the resulting store, if any. -/
def ThResult.stOf : ThResult → Option Store
  | ThResult.ok _ st => some st
  | _ => none

/-- Go `TableHeap.InsertTuple` (src/internal/storage/table_heap.go lines
46-87), with explicit fuel for the chain walk.  At each page: view it
(`NewSlottedPage`), try the page-local insert; on success return the RID.  On
error read `NextPageID`; at the chain tail allocate and link a new page and
insert there, surfacing any error of that final insert; otherwise advance. -/
def thInsertTuple : Store → Int → List Nat → Nat → ThResult
  | _, _, _, 0 => ThResult.noFuel
  | st, curr, data, fuel + 1 =>
    let d0 := newSlottedPage (st.pages curr)
    match spInsertTuple d0 data with
    | (InsResult.ok slot, d1) => ThResult.ok ⟨curr, slot⟩ (st.update curr d1)
    | (_, _) =>
      let next := spGetNextPageID d0
      if next = InvalidPageID then
        let alloc := (st.update curr d0).allocPage
        let nd1 := spSetNextPageID (newSlottedPage zeroBytes) InvalidPageID
        let d2 := spSetNextPageID d0 alloc.1
        let st2 := (alloc.2.update curr d2).update alloc.1 nd1
        match spInsertTuple nd1 data with
        | (InsResult.ok slot, nd2) => ThResult.ok ⟨alloc.1, slot⟩ (st2.update alloc.1 nd2)
        | (InsResult.noSpace, _) => ThResult.noSpace
        | (InsResult.tooLarge, _) => ThResult.tooLarge
      else
        thInsertTuple (st.update curr d0) next data fuel

/-- Go `TableHeap.GetTuple`: fetch the page, view it, read the slot; `none`
models the `tuple not found` error. -/
def thGetTuple (st : Store) (rid : RID) : Option (List Nat) :=
  spGetTuple (newSlottedPage (st.pages rid.pageID)) rid.slotID

/-- Modelled from the spec: `TableHeap.DeleteTuple` is called by the executor
(src/unnamed/part_012) but its body is not among the files under src/; spec
§4.4 defines it as: fetch the page, call `SlottedPage.DeleteTuple`, unpin
dirty if the slot existed. -/
def thDeleteTuple (st : Store) (rid : RID) : Store :=
  st.update rid.pageID (spDeleteTuple (newSlottedPage (st.pages rid.pageID)) rid.slotID).2

/-- Go `NewTableHeap` with `InvalidPageID`: allocate one page, view it, and
terminate the chain (`SetNextPageID(InvalidPageID)`).  Returns the new store
and `firstPageID`. -/
def thNew (st : Store) : Store × Int :=
  let alloc := st.allocPage
  let d := spSetNextPageID (newSlottedPage zeroBytes) InvalidPageID
  (alloc.2.update alloc.1 d, alloc.1)

/-- The full drain of Go `TableIterator.Next` (src/internal/storage/table_heap.go
lines 125-158): repeated calls collecting every emitted `(bytes, rid)` pair in
order, with fuel bounding the number of loop iterations.  `none` means the
fuel ran out before the iterator reported exhaustion. -/
def thScan : Store → Int → Nat → Nat → Option (List (List Nat × RID))
  | _, _, _, 0 => none
  | st, pid, slot, fuel + 1 =>
    if pid = InvalidPageID then some []
    else
      let d := newSlottedPage (st.pages pid)
      if slot < spGetNumSlots d then
        match spGetTuple d slot with
        | some data =>
          (thScan st pid (slot + 1) fuel).map (fun rest => (data, (⟨pid, slot⟩ : RID)) :: rest)
        | none => thScan st pid (slot + 1) fuel
      else
        thScan st (spGetNextPageID d) 0 fuel

/-- The heap chain from `pid`: the page ids visited following `NextPageID`
links until `InvalidPageID`. -/
inductive Chain (st : Store) : Int → List Int → Prop where
  | last (pid : Int) : 0 ≤ pid → spGetNextPageID (st.pages pid) = InvalidPageID →
      Chain st pid [pid]
  | cons (pid q : Int) (ids : List Int) : 0 ≤ pid →
      spGetNextPageID (st.pages pid) = q → Chain st q ids →
      Chain st pid (pid :: ids)

/-- The pairs the iterator emits while on page `p`, starting at slot `s0`. -/
def pageEmitFrom (st : Store) (p : Int) (s0 : Nat) : List (List Nat × RID) :=
  (List.range' s0 (spGetNumSlots (newSlottedPage (st.pages p)) - s0)).filterMap
    (fun s => (spGetTuple (newSlottedPage (st.pages p)) s).map
      (fun data => (data, (⟨p, s⟩ : RID))))

/-- Iterated 0-byte inserts into a fresh slotted page (spec §8 boundary
behavior). -/
def spInsertN : Nat → Bytes
  | 0 => freshSP
  | k + 1 => (spInsertTuple (spInsertN k) ([] : List Nat)).2

/-- A concrete page satisfying the header invariant whose single live slot
points past the end of the page: NumSlots = 1, FreeSpacePointer = 4090, slot 0
= (offset 4090, length 100). -/
def badSlotPage : Bytes :=
  spSetSlot (spSetFreeSpacePointer (spSetNumSlots zeroBytes 1) 4090) 0 4090 100

/-!
## BTreeNode and BTreeIndex

Model of src/internal/index/btree_node.go and btree.go.  Header (24 bytes):
`[0,4)` NodeType (u32, 1 = internal, 2 = leaf), `[4,8)` NumKeys (u32),
`[8,16)` ParentPageID (i64), `[16,24)` NextPageID (i64); then contiguous
`(key, value)` pairs — pair size 20 for leaves (value = 12-byte RID) and 16
for internal nodes (value = 8-byte child page id).
-/

/-- Go `NodeTypeInternal`. -/
def NodeTypeInternal : Nat := 1

/-- Go `NodeTypeLeaf`. -/
def NodeTypeLeaf : Nat := 2

/-- Go `HeaderSize` of a B-tree node. -/
def NodeHeaderSize : Nat := 24

/-- Go `BTreeNode.GetNodeType`. -/
def nGetNodeType (d : Bytes) : Nat := readBE d 0 4

/-- Go `BTreeNode.SetNodeType`. -/
def nSetNodeType (d : Bytes) (t : Nat) : Bytes := writeBE d 0 4 t

/-- Go `BTreeNode.GetNumKeys`. -/
def nGetNumKeys (d : Bytes) : Nat := readBE d 4 4

/-- Go `BTreeNode.SetNumKeys`. -/
def nSetNumKeys (d : Bytes) (n : Nat) : Bytes := writeBE d 4 4 n

/-- Go `BTreeNode.GetParentPageID`. -/
def nGetParentPageID (d : Bytes) : Int := readI64 d 8

/-- Go `BTreeNode.SetParentPageID`. -/
def nSetParentPageID (d : Bytes) (p : Int) : Bytes := writeI64 d 8 p

/-- Go `BTreeNode.GetNextPageID`. -/
def nGetNextPageID (d : Bytes) : Int := readI64 d 16

/-- Go `BTreeNode.SetNextPageID`. -/
def nSetNextPageID (d : Bytes) (p : Int) : Bytes := writeI64 d 16 p

/-- Go `BTreeNode.IsLeaf`. -/
def nIsLeaf (d : Bytes) : Bool := nGetNodeType d == NodeTypeLeaf

/-- The pair size used by `getKeyOffset`/`MaxCapacity`: 20 for leaves, 16 for
internal nodes. -/
def nPairSize (d : Bytes) : Nat := if nIsLeaf d then 20 else 16

/-- Go `BTreeNode.getKeyOffset`. -/
def nKeyOffset (d : Bytes) (i : Nat) : Nat := NodeHeaderSize + i * nPairSize d

/-- Go `BTreeNode.getValueOffset`. -/
def nValueOffset (d : Bytes) (i : Nat) : Nat := nKeyOffset d i + 8

/-- Go `BTreeNode.GetKey`. -/
def nGetKey (d : Bytes) (i : Nat) : Int := readI64 d (nKeyOffset d i)

/-- Go `BTreeNode.SetKey`. -/
def nSetKey (d : Bytes) (i : Nat) (k : Int) : Bytes := writeI64 d (nKeyOffset d i) k

/-- Go `BTreeNode.GetValuePageID`. -/
def nGetValuePageID (d : Bytes) (i : Nat) : Int := readI64 d (nValueOffset d i)

/-- Go `BTreeNode.SetValuePageID`. -/
def nSetValuePageID (d : Bytes) (i : Nat) (v : Int) : Bytes :=
  writeI64 d (nValueOffset d i) v

/-- Go `BTreeNode.GetValueRID`: 8-byte page id followed by 4-byte slot id. -/
def nGetValueRID (d : Bytes) (i : Nat) : RID :=
  ⟨readI64 d (nValueOffset d i), readBE d (nValueOffset d i + 8) 4⟩

/-- Go `BTreeNode.SetValueRID`. -/
def nSetValueRID (d : Bytes) (i : Nat) (v : RID) : Bytes :=
  writeBE (writeI64 d (nValueOffset d i) v.pageID) (nValueOffset d i + 8) 4 v.slotID

/-- Go `BTreeNode.Init`: write the node type, zero `NumKeys`, set parent and
next pointers to `InvalidPageID`. -/
def nInit (d : Bytes) (t : Nat) : Bytes :=
  nSetNextPageID (nSetParentPageID (nSetNumKeys (nSetNodeType d t) 0) (-1)) (-1)

/-- Go `BTreeNode.MaxCapacity`: `(PageSize − HeaderSize) / pairSize`. -/
def nMaxCapacity (d : Bytes) : Nat := (PageSize - NodeHeaderSize) / nPairSize d

/-- Go `sort.Search`: binary search on `[i, j)` converging to the least index
satisfying `f` when `f` is monotone.  The loop is bounded by explicit fuel
(structural, so the kernel can evaluate it); `j − i` steps always suffice
because the window shrinks at every iteration. -/
def sortSearchAux (f : Nat → Bool) : Nat → Nat → Nat → Nat
  | 0, i, _ => i
  | fuel + 1, i, j =>
    if i < j then
      if f ((i + j) / 2) then sortSearchAux f fuel i ((i + j) / 2)
      else sortSearchAux f fuel ((i + j) / 2 + 1) j
    else i

/-- Go `sort.Search(n, f)`. -/
def sortSearch (n : Nat) (f : Nat → Bool) : Nat := sortSearchAux f n 0 n

/-- Go `BTreeNode.InsertLeaf`: false when full; otherwise find the sorted
position via `sort.Search`, shift the tail right by one 20-byte pair with an
overlapping copy, write the new pair, and increment `NumKeys`. -/
def insertLeaf (d : Bytes) (key : Int) (rid : RID) : Bool × Bytes :=
  if nGetNumKeys d ≥ nMaxCapacity d then (false, d)
  else
    (true,
      nSetNumKeys
        (nSetValueRID
          (nSetKey
            (copyWithin d
              (NodeHeaderSize + sortSearch (nGetNumKeys d)
                  (fun i => decide (nGetKey d i ≥ key)) * 20 + 20)
              (NodeHeaderSize + sortSearch (nGetNumKeys d)
                  (fun i => decide (nGetKey d i ≥ key)) * 20)
              ((nGetNumKeys d - sortSearch (nGetNumKeys d)
                  (fun i => decide (nGetKey d i ≥ key))) * 20))
            (sortSearch (nGetNumKeys d) (fun i => decide (nGetKey d i ≥ key))) key)
          (sortSearch (nGetNumKeys d) (fun i => decide (nGetKey d i ≥ key))) rid)
        (nGetNumKeys d + 1))

/-- Go `BTreeNode.InsertInternal`: the same algorithm with a 16-byte pair and
a page-id value. -/
def insertInternal (d : Bytes) (key : Int) (v : Int) : Bool × Bytes :=
  if nGetNumKeys d ≥ nMaxCapacity d then (false, d)
  else
    (true,
      nSetNumKeys
        (nSetValuePageID
          (nSetKey
            (copyWithin d
              (NodeHeaderSize + sortSearch (nGetNumKeys d)
                  (fun i => decide (nGetKey d i ≥ key)) * 16 + 16)
              (NodeHeaderSize + sortSearch (nGetNumKeys d)
                  (fun i => decide (nGetKey d i ≥ key)) * 16)
              ((nGetNumKeys d - sortSearch (nGetNumKeys d)
                  (fun i => decide (nGetKey d i ≥ key))) * 16))
            (sortSearch (nGetNumKeys d) (fun i => decide (nGetKey d i ≥ key))) key)
          (sortSearch (nGetNumKeys d) (fun i => decide (nGetKey d i ≥ key))) v)
        (nGetNumKeys d + 1))

/-- Go `BTreeNode.SplitLeaf`: let `total = NumKeys`, `splitIdx = total / 2`,
`moveCount = total − splitIdx`; init the recipient as a leaf, copy the right
half of the pair region into the recipient at offset 24, set the two NumKeys
fields, relink the sibling chain, and return the recipient's key 0.
Returns (this node's final bytes, recipient's final bytes, separator). -/
def splitLeaf (d recip : Bytes) (recipPid : Int) : Bytes × Bytes × Int :=
  (nSetNextPageID (nSetNumKeys d (nGetNumKeys d / 2)) recipPid,
    nSetNextPageID
      (nSetNumKeys
        (copyFrom (nInit recip NodeTypeLeaf) NodeHeaderSize d
          (nKeyOffset d (nGetNumKeys d / 2)) ((nGetNumKeys d - nGetNumKeys d / 2) * 20))
        (nGetNumKeys d - nGetNumKeys d / 2))
      (nGetNextPageID (nSetNumKeys d (nGetNumKeys d / 2))),
    nGetKey
      (nSetNextPageID
        (nSetNumKeys
          (copyFrom (nInit recip NodeTypeLeaf) NodeHeaderSize d
            (nKeyOffset d (nGetNumKeys d / 2)) ((nGetNumKeys d - nGetNumKeys d / 2) * 20))
          (nGetNumKeys d - nGetNumKeys d / 2))
        (nGetNextPageID (nSetNumKeys d (nGetNumKeys d / 2))))
      0)

/-- The leaf-split path of Go `BTreeIndex.Insert` (btree.go lines 132-149):
allocate a new page (zero bytes), `SplitLeaf` into it, then `InsertLeaf` the
pending pair into the new leaf iff `key ≥ separator`, else into the original.
Returns (original leaf bytes, new leaf bytes, separator). -/
def insertSplitPath (leafD : Bytes) (newPid : Int) (key : Int) (rid : RID) :
    Bytes × Bytes × Int :=
  if key ≥ (splitLeaf leafD zeroBytes newPid).2.2 then
    ((splitLeaf leafD zeroBytes newPid).1,
      (insertLeaf (splitLeaf leafD zeroBytes newPid).2.1 key rid).2,
      (splitLeaf leafD zeroBytes newPid).2.2)
  else
    ((insertLeaf (splitLeaf leafD zeroBytes newPid).1 key rid).2,
      (splitLeaf leafD zeroBytes newPid).2.1,
      (splitLeaf leafD zeroBytes newPid).2.2)

/-- The sentinel key `−2^63` written as the first key of a freshly grown
internal root (btree.go line 166: `minKey := int64(-1 << 63)`). -/
def MinKeySentinel : Int := -(2 ^ 63)

/-- Go `insertIntoParent` when the path has length 1 (the split leaf was the
root): allocate a new internal root page, `Init(Internal)`, insert
`(MinKeySentinel, oldRootID)` then `(key, childPageID)`, and update
`rootPageID` to the new page.  Returns the new store and new rootPageID. -/
def insertIntoParentRoot (st : Store) (oldRootID key childPid : Int) : Store × Int :=
  (st.allocPage.2.update st.allocPage.1
    (insertInternal
      (insertInternal (nInit zeroBytes NodeTypeInternal) MinKeySentinel oldRootID).2
      key childPid).2,
    st.allocPage.1)

/-- Result of Go `BTreeIndex.Search`. -/
inductive SearchResult where
  | found (rid : RID)
  | notFound
  | emptyInternal
  | noFuel
deriving DecidableEq

/-- The leaf linear scan of Go `Search`: the first index at or after `i` with
an exact key match, `rem` indices remaining. -/
def leafFindFrom (d : Bytes) (key : Int) : Nat → Nat → Option RID
  | _, 0 => none
  | i, rem + 1 =>
    if nGetKey d i = key then some (nGetValueRID d i)
    else leafFindFrom d key (i + 1) rem

/-- The descending child scan of Go `Search` at an internal node: the first
index from `count − 1` downward whose key is ≤ the search key, else −1. -/
def childScan (d : Bytes) (key : Int) : Nat → Int
  | 0 => -1
  | i + 1 => if key ≥ nGetKey d i then nGetValuePageID d i else childScan d key i

/-- The child chosen by Go `Search` at an internal node, including the
fall-back to child 0 when the scan found none and the node is non-empty. -/
def searchChild (d : Bytes) (key : Int) : Int :=
  if childScan d key (nGetNumKeys d) = -1 ∧ 0 < nGetNumKeys d
  then nGetValuePageID d 0
  else childScan d key (nGetNumKeys d)

/-- Go `BTreeIndex.Search` from page `pid`, with fuel bounding the descent. -/
def btSearch (st : Store) (key : Int) : Int → Nat → SearchResult
  | _, 0 => SearchResult.noFuel
  | pid, fuel + 1 =>
    if nIsLeaf (st.pages pid) then
      match leafFindFrom (st.pages pid) key 0 (nGetNumKeys (st.pages pid)) with
      | some rid => SearchResult.found rid
      | none => SearchResult.notFound
    else
      if searchChild (st.pages pid) key = -1 then SearchResult.emptyInternal
      else btSearch st key (searchChild (st.pages pid) key) fuel

/-- The list of keys stored in a node. -/
def nodeKeys (d : Bytes) : List Int := (List.range (nGetNumKeys d)).map (nGetKey d)

/-- A concrete one-key leaf (key 5 ↦ RID (3, 4)) built by `insertLeaf` on a
freshly initialized leaf node. -/
def c5Leaf : Bytes := (insertLeaf (nInit zeroBytes NodeTypeLeaf) 5 ⟨3, 4⟩).2

/-- A concrete one-key leaf holding key 2. -/
def c3LeafL : Bytes := (insertLeaf (nInit zeroBytes NodeTypeLeaf) 2 ⟨0, 0⟩).2

/-- A concrete one-key leaf holding key 9. -/
def c3LeafR : Bytes := (insertLeaf (nInit zeroBytes NodeTypeLeaf) 9 ⟨0, 1⟩).2

/-- A concrete store: page 0 is the leaf with key 2, page 1 the leaf with
key 9, and the next page id to allocate is 2. -/
def c3Store : Store :=
  ⟨fun q => if q = 0 then c3LeafL else if q = 1 then c3LeafR else zeroBytes, 2⟩

/-- A concrete store whose only page, page 0, is `c5Leaf`. -/
def c5Store : Store := ⟨fun q => if q = 0 then c5Leaf else zeroBytes, 1⟩

/-- A concrete full leaf: node type Leaf, NumKeys = 203, key j = j in pair j,
all RID values zero — written as an explicit byte map so the kernel can
evaluate reads cheaply. -/
def c1Leaf : Bytes := fun i =>
  if i = 3 then 2
  else if i = 7 then 203
  else if 24 ≤ i ∧ (i - 24) % 20 = 7 then (i - 24) / 20
  else 0

/-- A fresh single-page table heap (concrete store for evaluations). -/
def c6St : Store := (thNew emptyStore).1

/-- The store after inserting the two bytes `[7, 8]` into `c6St`. -/
def c6St2 : Store := ((thInsertTuple c6St 0 [7, 8] 1).stOf).getD emptyStore

theorem writeByte_apply (d : Bytes) (i v j : Nat) :
    writeByte d i v j = if j = i then v % 256 else d j := rfl

theorem readByte_lt (d : Bytes) (i : Nat) : readByte d i < 256 :=
  Nat.mod_lt _ (by norm_num)

theorem writeBE_apply_outside :
    ∀ (w : Nat) (d : Bytes) (off v j : Nat), j < off ∨ off + w ≤ j →
      writeBE d off w v j = d j := by
  intro w
  induction w with
  | zero => intro d off v j _; rfl
  | succ w ih =>
    intro d off v j hj
    show writeBE (writeByte d (off + w) v) off w (v / 256) j = d j
    rw [ih _ _ _ _ (by omega)]
    rw [writeByte_apply]
    rw [if_neg (by omega)]

theorem writeList_apply_outside :
    ∀ (l : List Nat) (d : Bytes) (off j : Nat), j < off ∨ off + l.length ≤ j →
      writeList d off l j = d j := by
  intro l
  induction l with
  | nil => intro d off j _; rfl
  | cons b bs ih =>
    intro d off j hj
    show writeList (writeByte d off b) (off + 1) bs j = d j
    rw [ih _ _ _ (by simp at hj ⊢; omega)]
    rw [writeByte_apply, if_neg (by simp at hj; omega)]

theorem readBE_agree :
    ∀ (w : Nat) (d1 d2 : Bytes) (off : Nat),
      (∀ j, off ≤ j → j < off + w → d1 j = d2 j) →
      readBE d1 off w = readBE d2 off w := by
  intro w
  induction w with
  | zero => intro _ _ _ _; rfl
  | succ w ih =>
    intro d1 d2 off h
    show readBE d1 off w * 256 + readByte d1 (off + w)
        = readBE d2 off w * 256 + readByte d2 (off + w)
    rw [ih d1 d2 off (fun j h1 h2 => h j h1 (by omega))]
    unfold readByte
    rw [h (off + w) (by omega) (by omega)]

theorem readBE_writeBE_disjoint (w1 : Nat) (d : Bytes) (off1 off2 w2 v : Nat)
    (h : off1 + w1 ≤ off2 ∨ off2 + w2 ≤ off1) :
    readBE (writeBE d off2 w2 v) off1 w1 = readBE d off1 w1 := by
  apply readBE_agree
  intro j h1 h2
  exact writeBE_apply_outside w2 d off2 v j (by omega)

theorem readBE_writeList_disjoint (w : Nat) (d : Bytes) (off1 off2 : Nat) (l : List Nat)
    (h : off1 + w ≤ off2 ∨ off2 + l.length ≤ off1) :
    readBE (writeList d off2 l) off1 w = readBE d off1 w := by
  apply readBE_agree
  intro j h1 h2
  exact writeList_apply_outside l d off2 j (by omega)

theorem readBE_writeBE_self :
    ∀ (w : Nat) (d : Bytes) (off v : Nat),
      readBE (writeBE d off w v) off w = v % 256 ^ w := by
  intro w
  induction w with
  | zero => intro d off v; simp [readBE, writeBE]; omega
  | succ w ih =>
    intro d off v
    show readBE (writeBE (writeByte d (off + w) v) off w (v / 256)) off w * 256
        + readByte (writeBE (writeByte d (off + w) v) off w (v / 256)) (off + w)
        = v % 256 ^ (w + 1)
    rw [ih]
    unfold readByte
    rw [writeBE_apply_outside w _ off (v / 256) (off + w) (by omega)]
    rw [writeByte_apply, if_pos rfl]
    rw [pow_succ, show (256 : Nat) ^ w * 256 = 256 * 256 ^ w from Nat.mul_comm _ _,
      Nat.mod_mul, Nat.mod_mod_of_dvd v dvd_rfl]
    ring

theorem readBE_lt : ∀ (w : Nat) (d : Bytes) (off : Nat), readBE d off w < 256 ^ w := by
  intro w
  induction w with
  | zero => intro d off; simp [readBE]
  | succ w ih =>
    intro d off
    have h1 := ih d off
    have h2 := readByte_lt d (off + w)
    show readBE d off w * 256 + readByte d (off + w) < 256 ^ (w + 1)
    rw [pow_succ]
    nlinarith

theorem readList_agree (d1 d2 : Bytes) (off len : Nat)
    (h : ∀ j, off ≤ j → j < off + len → d1 j = d2 j) :
    readList d1 off len = readList d2 off len := by
  unfold readList
  apply List.map_congr_left
  intro k hk
  rw [List.mem_range] at hk
  unfold readByte
  rw [h (off + k) (by omega) (by omega)]

theorem readList_writeList :
    ∀ (l : List Nat) (d : Bytes) (off : Nat),
      readList (writeList d off l) off l.length = l.map (fun b => b % 256) := by
  intro l
  induction l with
  | nil => intro d off; rfl
  | cons b bs ih =>
    intro d off
    show readList (writeList (writeByte d off b) (off + 1) bs) off (bs.length + 1)
        = b % 256 :: bs.map (fun x => x % 256)
    have hrange : List.range (bs.length + 1) = 0 :: (List.range bs.length).map Nat.succ :=
      List.range_succ_eq_map bs.length
    unfold readList
    rw [hrange]
    simp only [List.map_cons, List.map_map]
    congr 1
    · unfold readByte
      simp only [Nat.add_zero]
      rw [writeList_apply_outside bs (writeByte d off b) (off + 1) off (by omega),
        writeByte_apply, if_pos rfl]
      exact Nat.mod_mod_of_dvd b dvd_rfl
    · have := ih (writeByte d off b) (off + 1)
      unfold readList at this
      rw [← this]
      apply List.map_congr_left
      intro k hk
      simp only [Function.comp_apply]
      unfold readByte
      have harg : off + k.succ = off + 1 + k := by omega
      rw [harg]

theorem copyFrom_apply_outside (dst src : Bytes) (dstOff srcOff cnt j : Nat)
    (h : j < dstOff ∨ dstOff + cnt ≤ j) :
    copyFrom dst dstOff src srcOff cnt j = dst j := by
  unfold copyFrom
  rw [if_neg (by omega)]

/-- Reading a big-endian field wholly inside the copied region of `copyFrom`
sees the corresponding source bytes. -/
theorem readBE_copyFrom_inside :
    ∀ (w : Nat) (dst src : Bytes) (dstOff srcOff cnt off : Nat),
      dstOff ≤ off → off + w ≤ dstOff + cnt →
      readBE (copyFrom dst dstOff src srcOff cnt) off w
        = readBE src (srcOff + (off - dstOff)) w := by
  intro w
  induction w with
  | zero => intro _ _ _ _ _ _ _ _; rfl
  | succ w ih =>
    intro dst src dstOff srcOff cnt off h1 h2
    show readBE (copyFrom dst dstOff src srcOff cnt) off w * 256
        + readByte (copyFrom dst dstOff src srcOff cnt) (off + w)
        = readBE src (srcOff + (off - dstOff)) w * 256
        + readByte src (srcOff + (off - dstOff) + w)
    rw [ih dst src dstOff srcOff cnt off h1 (by omega)]
    have hb : copyFrom dst dstOff src srcOff cnt (off + w)
        = src (srcOff + (off + w - dstOff)) := by
      unfold copyFrom
      rw [if_pos (by omega)]
    unfold readByte
    rw [hb, show srcOff + (off + w - dstOff) = srcOff + (off - dstOff) + w by omega]

theorem readBE_copyFrom_disjoint (w : Nat) (dst src : Bytes) (dstOff srcOff cnt off : Nat)
    (h : off + w ≤ dstOff ∨ dstOff + cnt ≤ off) :
    readBE (copyFrom dst dstOff src srcOff cnt) off w = readBE dst off w := by
  apply readBE_agree
  intro j h1 h2
  exact copyFrom_apply_outside dst src dstOff srcOff cnt j (by omega)

theorem readList_writeBE_disjoint (d : Bytes) (off1 len off2 w v : Nat)
    (h : off1 + len ≤ off2 ∨ off2 + w ≤ off1) :
    readList (writeBE d off2 w v) off1 len = readList d off1 len :=
  readList_agree _ _ _ _ (fun j hj1 hj2 => writeBE_apply_outside w d off2 v j (by omega))

theorem readBE_writeBE_self_lt (w : Nat) (d : Bytes) (off v : Nat) (h : v < 256 ^ w) :
    readBE (writeBE d off w v) off w = v := by
  rw [readBE_writeBE_self]
  exact Nat.mod_eq_of_lt h

theorem readI64_writeI64 (d : Bytes) (off : Nat) (v : Int)
    (h1 : -(2 ^ 63) ≤ v) (h2 : v < 2 ^ 63) :
    readI64 (writeI64 d off v) off = v := by
  unfold readI64 writeI64
  have hmod : (0 : Int) ≤ v % 2 ^ 64 ∧ v % 2 ^ 64 < 2 ^ 64 :=
    ⟨Int.emod_nonneg v (by norm_num), Int.emod_lt_of_pos v (by norm_num)⟩
  have hlt : (v % (2 ^ 64 : Int)).toNat < 256 ^ 8 := by
    have h256 : (256 : Nat) ^ 8 = 2 ^ 64 := by norm_num
    rw [h256]
    omega
  rw [readBE_writeBE_self_lt 8 d off _ hlt]
  rcases le_or_lt 0 v with hv | hv
  · have : v % 2 ^ 64 = v := Int.emod_eq_of_lt hv (by nlinarith)
    rw [this]
    rw [if_pos (by omega)]
    omega
  · have hself : (v + 2 ^ 64) % 2 ^ 64 = v % 2 ^ 64 := by
      have h1 := Int.add_mul_emod_self_left (a := v) (b := 2 ^ 64) (c := 1)
      rw [mul_one] at h1
      exact h1
    have : v % 2 ^ 64 = v + 2 ^ 64 := by
      rw [← hself]
      exact Int.emod_eq_of_lt (by omega) (by omega)
    rw [this]
    rw [if_neg (by omega)]
    omega

theorem readBE_zeroBytes (w off : Nat) : readBE zeroBytes off w = 0 := by
  induction w with
  | zero => rfl
  | succ w ih => show readBE zeroBytes off w * 256 + readByte zeroBytes (off + w) = 0
                 rw [ih]; rfl

theorem readI64_agree (d1 d2 : Bytes) (off : Nat)
    (h : ∀ j, off ≤ j → j < off + 8 → d1 j = d2 j) :
    readI64 d1 off = readI64 d2 off := by
  unfold readI64
  rw [readBE_agree 8 d1 d2 off h]

theorem spGetNumSlots_lt (d : Bytes) : spGetNumSlots d < 65536 := by
  have := readBE_lt 2 d 8
  norm_num at this
  exact this

theorem spGetFreeSpacePointer_lt (d : Bytes) : spGetFreeSpacePointer d < 65536 := by
  have := readBE_lt 2 d 10
  norm_num at this
  exact this

theorem spInsertTuple_tooLarge (d : Bytes) (data : List Nat) (h : 4096 < data.length) :
    spInsertTuple d data = (InsResult.tooLarge, d) := by
  unfold spInsertTuple
  rw [if_pos h]

theorem spInsertTuple_noSpace (d : Bytes) (data : List Nat)
    (h1 : data.length ≤ 4096)
    (h2 : spGetFreeSpacePointer d < 16 + spGetNumSlots d * 4 + data.length) :
    spInsertTuple d data = (InsResult.noSpace, d) := by
  unfold spInsertTuple
  rw [if_neg (by omega), if_pos (by omega)]

theorem spInsertTuple_ok (d : Bytes) (data : List Nat)
    (h1 : data.length ≤ 4096)
    (h2 : 16 + spGetNumSlots d * 4 + data.length ≤ spGetFreeSpacePointer d) :
    spInsertTuple d data = (InsResult.ok (spGetNumSlots d), spInsertWrite d data) := by
  unfold spInsertTuple
  rw [if_neg (by omega), if_neg (by omega)]

theorem spInsertWrite_numSlots (d : Bytes) (data : List Nat)
    (h2 : 16 + spGetNumSlots d * 4 + data.length ≤ spGetFreeSpacePointer d) :
    spGetNumSlots (spInsertWrite d data) = spGetNumSlots d + 1 := by
  have hfp : readBE d 10 2 < 65536 := spGetFreeSpacePointer_lt d
  have h2R : 16 + readBE d 8 2 * 4 + data.length ≤ readBE d 10 2 := h2
  unfold spInsertWrite spSetNumSlots spGetNumSlots
  rw [readBE_writeBE_self_lt 2 _ 8 _ (by norm_num; omega)]

theorem spInsertWrite_fsp (d : Bytes) (data : List Nat)
    (h2 : 16 + spGetNumSlots d * 4 + data.length ≤ spGetFreeSpacePointer d) :
    spGetFreeSpacePointer (spInsertWrite d data)
      = spGetFreeSpacePointer d - data.length := by
  have hfp : readBE d 10 2 < 65536 := spGetFreeSpacePointer_lt d
  have h2R : 16 + readBE d 8 2 * 4 + data.length ≤ readBE d 10 2 := h2
  unfold spInsertWrite spSetNumSlots spSetSlot spGetFreeSpacePointer spSetFreeSpacePointer
    spGetNumSlots
  rw [readBE_writeBE_disjoint 2 _ 10 8 2 _ (by omega),
    readBE_writeBE_disjoint 2 _ 10 (12 + readBE d 8 2 * 4 + 2) 2 _ (by omega),
    readBE_writeBE_disjoint 2 _ 10 (12 + readBE d 8 2 * 4) 2 _ (by omega),
    readBE_writeBE_self_lt 2 _ 10 _ (by norm_num; omega)]

theorem spInsertWrite_slot_self (d : Bytes) (data : List Nat)
    (h1 : data.length ≤ 4096)
    (h2 : 16 + spGetNumSlots d * 4 + data.length ≤ spGetFreeSpacePointer d) :
    spGetSlot (spInsertWrite d data) (spGetNumSlots d)
      = (spGetFreeSpacePointer d - data.length, data.length) := by
  have hfp : readBE d 10 2 < 65536 := spGetFreeSpacePointer_lt d
  have h2R : 16 + readBE d 8 2 * 4 + data.length ≤ readBE d 10 2 := h2
  unfold spInsertWrite spSetNumSlots spSetSlot spGetSlot spSetFreeSpacePointer spGetNumSlots
    spGetFreeSpacePointer
  rw [Prod.mk.injEq]
  constructor
  · rw [readBE_writeBE_disjoint 2 _ (12 + readBE d 8 2 * 4) 8 2 _ (by omega),
      readBE_writeBE_disjoint 2 _ (12 + readBE d 8 2 * 4)
        (12 + readBE d 8 2 * 4 + 2) 2 _ (by omega),
      readBE_writeBE_self_lt 2 _ (12 + readBE d 8 2 * 4) _ (by norm_num; omega)]
  · rw [readBE_writeBE_disjoint 2 _ (12 + readBE d 8 2 * 4 + 2) 8 2 _ (by omega),
      readBE_writeBE_self_lt 2 _ (12 + readBE d 8 2 * 4 + 2) _ (by norm_num; omega)]

/-- Bytes untouched by the successful insert: everything below the header
fields, the old slot directory, the gap between the new slot entry and the
new data, and everything at or above the old free-space pointer. -/
theorem spInsertWrite_apply_outside (d : Bytes) (data : List Nat) (j : Nat)
    (h2 : 16 + spGetNumSlots d * 4 + data.length ≤ spGetFreeSpacePointer d)
    (hj : j < 8 ∨ (12 ≤ j ∧ j < 12 + spGetNumSlots d * 4)
      ∨ (16 + spGetNumSlots d * 4 ≤ j ∧ j < spGetFreeSpacePointer d - data.length)
      ∨ spGetFreeSpacePointer d ≤ j) :
    spInsertWrite d data j = d j := by
  have h2R : 16 + readBE d 8 2 * 4 + data.length ≤ readBE d 10 2 := h2
  have hjR : j < 8 ∨ (12 ≤ j ∧ j < 12 + readBE d 8 2 * 4)
      ∨ (16 + readBE d 8 2 * 4 ≤ j ∧ j < readBE d 10 2 - data.length)
      ∨ readBE d 10 2 ≤ j := hj
  unfold spInsertWrite spSetNumSlots spSetSlot spSetFreeSpacePointer spGetNumSlots
    spGetFreeSpacePointer
  rw [writeBE_apply_outside 2 _ 8 _ j (by omega),
    writeBE_apply_outside 2 _ (12 + readBE d 8 2 * 4 + 2) _ j (by omega),
    writeBE_apply_outside 2 _ (12 + readBE d 8 2 * 4) _ j (by omega),
    writeBE_apply_outside 2 _ 10 _ j (by omega),
    writeList_apply_outside data d (readBE d 10 2 - data.length) j (by omega)]

theorem spInsertWrite_slot_old (d : Bytes) (data : List Nat) (j : Nat)
    (h2 : 16 + spGetNumSlots d * 4 + data.length ≤ spGetFreeSpacePointer d)
    (hj : j < spGetNumSlots d) :
    spGetSlot (spInsertWrite d data) j = spGetSlot d j := by
  have hjR : j < readBE d 8 2 := hj
  unfold spGetSlot
  rw [Prod.mk.injEq]
  constructor
  · apply readBE_agree
    intro i hi1 hi2
    exact spInsertWrite_apply_outside d data i h2 (by
      show i < 8 ∨ (12 ≤ i ∧ i < 12 + readBE d 8 2 * 4) ∨ _
      omega)
  · apply readBE_agree
    intro i hi1 hi2
    exact spInsertWrite_apply_outside d data i h2 (by
      show i < 8 ∨ (12 ≤ i ∧ i < 12 + readBE d 8 2 * 4) ∨ _
      omega)

theorem spInsertWrite_next (d : Bytes) (data : List Nat)
    (h2 : 16 + spGetNumSlots d * 4 + data.length ≤ spGetFreeSpacePointer d) :
    spGetNextPageID (spInsertWrite d data) = spGetNextPageID d := by
  apply readI64_agree
  intro i hi1 hi2
  exact spInsertWrite_apply_outside d data i h2 (by omega)

theorem spInsertWrite_data (d : Bytes) (data : List Nat)
    (h2 : 16 + spGetNumSlots d * 4 + data.length ≤ spGetFreeSpacePointer d) :
    readList (spInsertWrite d data) (spGetFreeSpacePointer d - data.length) data.length
      = data.map (fun b => b % 256) := by
  have h2R : 16 + readBE d 8 2 * 4 + data.length ≤ readBE d 10 2 := h2
  have hstep : readList (spInsertWrite d data)
        (spGetFreeSpacePointer d - data.length) data.length
      = readList (writeList d (spGetFreeSpacePointer d - data.length) data)
        (spGetFreeSpacePointer d - data.length) data.length := by
    apply readList_agree
    intro i hi1 hi2
    have hi1R : readBE d 10 2 - data.length ≤ i := hi1
    have hi2R : i < readBE d 10 2 - data.length + data.length := hi2
    unfold spInsertWrite spSetNumSlots spSetSlot spSetFreeSpacePointer spGetNumSlots
      spGetFreeSpacePointer
    rw [writeBE_apply_outside 2 _ 8 _ i (by omega),
      writeBE_apply_outside 2 _ (12 + readBE d 8 2 * 4 + 2) _ i (by omega),
      writeBE_apply_outside 2 _ (12 + readBE d 8 2 * 4) _ i (by omega),
      writeBE_apply_outside 2 _ 10 _ i (by omega)]
  rw [hstep, readList_writeList]

theorem spGetTuple_insertWrite_self (d : Bytes) (data : List Nat)
    (h1 : data.length ≤ 4096)
    (h2 : 16 + spGetNumSlots d * 4 + data.length ≤ spGetFreeSpacePointer d)
    (h0 : data.length ≠ 0) :
    spGetTuple (spInsertWrite d data) (spGetNumSlots d)
      = some (data.map (fun b => b % 256)) := by
  unfold spGetTuple
  rw [spInsertWrite_numSlots d data h2, spInsertWrite_slot_self d data h1 h2]
  rw [if_neg (by omega)]
  simp only [Prod.snd, Prod.fst]
  rw [if_neg h0, spInsertWrite_data d data h2]

theorem spGetTuple_insertWrite_nil (d : Bytes)
    (h2 : 16 + spGetNumSlots d * 4 ≤ spGetFreeSpacePointer d) :
    spGetTuple (spInsertWrite d ([] : List Nat)) (spGetNumSlots d) = none := by
  have h2n : 16 + spGetNumSlots d * 4 + ([] : List Nat).length ≤ spGetFreeSpacePointer d := by
    simpa using h2
  unfold spGetTuple
  rw [spInsertWrite_numSlots d _ h2n, spInsertWrite_slot_self d _ (by simp) h2n]
  rw [if_neg (by omega)]
  simp

theorem spGetTuple_insertWrite_old (d : Bytes) (data : List Nat) (j : Nat)
    (h2 : 16 + spGetNumSlots d * 4 + data.length ≤ spGetFreeSpacePointer d)
    (hj : j < spGetNumSlots d)
    (hoff : spGetFreeSpacePointer d ≤ (spGetSlot d j).1) :
    spGetTuple (spInsertWrite d data) j = spGetTuple d j := by
  unfold spGetTuple
  rw [spInsertWrite_numSlots d data h2, spInsertWrite_slot_old d data j h2 hj]
  rw [if_neg (show ¬ (spGetNumSlots d + 1 ≤ j) by omega),
    if_neg (show ¬ (spGetNumSlots d ≤ j) by omega)]
  by_cases hz : (spGetSlot d j).2 = 0
  · rw [if_pos hz, if_pos hz]
  · rw [if_neg hz, if_neg hz]
    congr 1
    apply readList_agree
    intro i hi1 hi2
    exact spInsertWrite_apply_outside d data i h2 (by omega)

theorem spSetSlot_apply_outside (d : Bytes) (idx off len j : Nat)
    (h : j < 12 + idx * 4 ∨ 12 + idx * 4 + 4 ≤ j) :
    spSetSlot d idx off len j = d j := by
  unfold spSetSlot
  rw [writeBE_apply_outside 2 _ (12 + idx * 4 + 2) _ j (by omega),
    writeBE_apply_outside 2 _ (12 + idx * 4) _ j (by omega)]

theorem spSetSlot_numSlots (d : Bytes) (idx off len : Nat) :
    spGetNumSlots (spSetSlot d idx off len) = spGetNumSlots d := by
  apply readBE_agree
  intro i hi1 hi2
  exact spSetSlot_apply_outside d idx off len i (by omega)

theorem spSetSlot_fsp (d : Bytes) (idx off len : Nat) :
    spGetFreeSpacePointer (spSetSlot d idx off len) = spGetFreeSpacePointer d := by
  apply readBE_agree
  intro i hi1 hi2
  exact spSetSlot_apply_outside d idx off len i (by omega)

theorem spSetSlot_next (d : Bytes) (idx off len : Nat) :
    spGetNextPageID (spSetSlot d idx off len) = spGetNextPageID d := by
  apply readI64_agree
  intro i hi1 hi2
  exact spSetSlot_apply_outside d idx off len i (by omega)

theorem spSetSlot_self (d : Bytes) (idx off len : Nat)
    (h1 : off < 65536) (h2 : len < 65536) :
    spGetSlot (spSetSlot d idx off len) idx = (off, len) := by
  unfold spGetSlot spSetSlot
  rw [Prod.mk.injEq]
  constructor
  · rw [readBE_writeBE_disjoint 2 _ (12 + idx * 4) (12 + idx * 4 + 2) 2 _ (by omega),
      readBE_writeBE_self_lt 2 _ (12 + idx * 4) _ (by norm_num; omega)]
  · rw [readBE_writeBE_self_lt 2 _ (12 + idx * 4 + 2) _ (by norm_num; omega)]

theorem spSetSlot_other (d : Bytes) (idx off len j : Nat) (h : j ≠ idx) :
    spGetSlot (spSetSlot d idx off len) j = spGetSlot d j := by
  unfold spGetSlot
  rw [Prod.mk.injEq]
  constructor
  · apply readBE_agree
    intro i hi1 hi2
    exact spSetSlot_apply_outside d idx off len i (by omega)
  · apply readBE_agree
    intro i hi1 hi2
    exact spSetSlot_apply_outside d idx off len i (by omega)

theorem spDeleteTuple_out (d : Bytes) (idx : Nat) (h : spGetNumSlots d ≤ idx) :
    spDeleteTuple d idx = (false, d) := by
  unfold spDeleteTuple
  rw [if_pos h]

theorem spDeleteTuple_ok (d : Bytes) (idx : Nat) (h : idx < spGetNumSlots d) :
    spDeleteTuple d idx = (true, spSetSlot d idx (spGetSlot d idx).1 0) := by
  unfold spDeleteTuple
  rw [if_neg (by omega)]

theorem spGetTuple_deleted (d : Bytes) (idx : Nat) (h : idx < spGetNumSlots d) :
    spGetTuple (spSetSlot d idx (spGetSlot d idx).1 0) idx = none := by
  have hoff : (spGetSlot d idx).1 < 65536 := by
    have := readBE_lt 2 d (12 + idx * 4)
    norm_num at this
    exact this
  unfold spGetTuple
  rw [spSetSlot_numSlots, spSetSlot_self d idx _ 0 hoff (by norm_num)]
  rw [if_neg (by omega)]
  simp

theorem newSlottedPage_apply_outside (d : Bytes) (j : Nat) (h : j < 10 ∨ 12 ≤ j) :
    newSlottedPage d j = d j := by
  unfold newSlottedPage spSetFreeSpacePointer
  split
  · exact writeBE_apply_outside 2 d 10 PageSize j (by omega)
  · rfl

theorem newSlottedPage_numSlots (d : Bytes) :
    spGetNumSlots (newSlottedPage d) = spGetNumSlots d := by
  apply readBE_agree
  intro i hi1 hi2
  exact newSlottedPage_apply_outside d i (by omega)

theorem newSlottedPage_next (d : Bytes) :
    spGetNextPageID (newSlottedPage d) = spGetNextPageID d := by
  apply readI64_agree
  intro i hi1 hi2
  exact newSlottedPage_apply_outside d i (by omega)

theorem newSlottedPage_slot (d : Bytes) (j : Nat) :
    spGetSlot (newSlottedPage d) j = spGetSlot d j := by
  unfold spGetSlot
  rw [Prod.mk.injEq]
  constructor
  · exact readBE_agree 2 _ d _ (fun i hi1 hi2 => newSlottedPage_apply_outside d i (by omega))
  · exact readBE_agree 2 _ d _ (fun i hi1 hi2 => newSlottedPage_apply_outside d i (by omega))

theorem newSlottedPage_eq_of_ne (d : Bytes)
    (h : ¬ (spGetNumSlots d = 0 ∧ spGetFreeSpacePointer d = 0)) :
    newSlottedPage d = d := by
  unfold newSlottedPage
  rw [if_neg h]

theorem newSlottedPage_init (d : Bytes)
    (h1 : spGetNumSlots d = 0) (h2 : spGetFreeSpacePointer d = 0) :
    newSlottedPage d = spSetFreeSpacePointer d PageSize := by
  unfold newSlottedPage
  rw [if_pos ⟨h1, h2⟩]

theorem newSlottedPage_fsp_init (d : Bytes)
    (h1 : spGetNumSlots d = 0) (h2 : spGetFreeSpacePointer d = 0) :
    spGetFreeSpacePointer (newSlottedPage d) = 4096 := by
  rw [newSlottedPage_init d h1 h2]
  unfold spGetFreeSpacePointer spSetFreeSpacePointer PageSize
  rw [readBE_writeBE_self_lt 2 _ 10 _ (by norm_num)]

theorem newSlottedPage_getTuple (d : Bytes) (j : Nat) :
    spGetTuple (newSlottedPage d) j = spGetTuple d j := by
  by_cases h : spGetNumSlots d = 0 ∧ spGetFreeSpacePointer d = 0
  · unfold spGetTuple
    rw [newSlottedPage_numSlots, h.1]
    rw [if_pos (by omega), if_pos (by omega)]
  · rw [newSlottedPage_eq_of_ne d h]

theorem newSlottedPage_idem (d : Bytes) :
    newSlottedPage (newSlottedPage d) = newSlottedPage d := by
  by_cases h : spGetNumSlots d = 0 ∧ spGetFreeSpacePointer d = 0
  · apply newSlottedPage_eq_of_ne
    rw [newSlottedPage_fsp_init d h.1 h.2]
    intro hc
    exact absurd hc.2 (by norm_num)
  · rw [newSlottedPage_eq_of_ne d h, newSlottedPage_eq_of_ne d h]

theorem freshSP_numSlots : spGetNumSlots freshSP = 0 := by
  unfold freshSP
  rw [newSlottedPage_numSlots]
  unfold spGetNumSlots
  exact readBE_zeroBytes 2 8

theorem freshSP_fsp : spGetFreeSpacePointer freshSP = 4096 := by
  unfold freshSP
  exact newSlottedPage_fsp_init zeroBytes (readBE_zeroBytes 2 8) (readBE_zeroBytes 2 10)

theorem spReachable_wf (d : Bytes) (h : SPReachable d) : SPHeaderInv d ∧ SPSlotInv d := by
  induction h with
  | fresh =>
    constructor
    · constructor
      · rw [freshSP_numSlots, freshSP_fsp]
        norm_num
      · rw [freshSP_fsp]
    · intro j hj _
      rw [freshSP_numSlots] at hj
      omega
  | insert d data _ ih =>
    obtain ⟨⟨ihh1, ihh2⟩, ihs⟩ := ih
    by_cases hbig : 4096 < data.length
    · rw [spInsertTuple_tooLarge d data hbig]
      exact ⟨⟨ihh1, ihh2⟩, ihs⟩
    by_cases hroom : 16 + spGetNumSlots d * 4 + data.length ≤ spGetFreeSpacePointer d
    · rw [spInsertTuple_ok d data (by omega) hroom]
      constructor
      · constructor
        · rw [spInsertWrite_numSlots d data hroom, spInsertWrite_fsp d data hroom]
          omega
        · rw [spInsertWrite_fsp d data hroom]
          omega
      · intro j hj hz
        rw [spInsertWrite_numSlots d data hroom] at hj
        rw [spInsertWrite_fsp d data hroom]
        by_cases hjn : j = spGetNumSlots d
        · subst hjn
          rw [spInsertWrite_slot_self d data (by omega) hroom] at hz ⊢
          constructor
          · omega
          · show spGetFreeSpacePointer d - data.length + data.length ≤ 4096
            omega
        · have hjlt : j < spGetNumSlots d := by omega
          rw [spInsertWrite_slot_old d data j hroom hjlt] at hz ⊢
          have := ihs j hjlt hz
          omega
    · rw [spInsertTuple_noSpace d data (by omega) (by omega)]
      exact ⟨⟨ihh1, ihh2⟩, ihs⟩
  | delete d idx _ ih =>
    obtain ⟨⟨ihh1, ihh2⟩, ihs⟩ := ih
    by_cases hidx : spGetNumSlots d ≤ idx
    · rw [spDeleteTuple_out d idx hidx]
      exact ⟨⟨ihh1, ihh2⟩, ihs⟩
    · rw [spDeleteTuple_ok d idx (by omega)]
      have hoff : (spGetSlot d idx).1 < 65536 := by
        have := readBE_lt 2 d (12 + idx * 4)
        norm_num at this
        exact this
      constructor
      · constructor
        · rw [spSetSlot_numSlots, spSetSlot_fsp]
          exact ihh1
        · rw [spSetSlot_fsp]
          exact ihh2
      · intro j hj hz
        rw [spSetSlot_numSlots] at hj
        rw [spSetSlot_fsp]
        by_cases hji : j = idx
        · subst hji
          rw [spSetSlot_self d j _ 0 hoff (by norm_num)] at hz
          exact absurd rfl hz
        · rw [spSetSlot_other d idx _ 0 j hji] at hz ⊢
          exact ihs j hj hz

theorem spSetNextPageID_apply_outside (d : Bytes) (pid : Int) (j : Nat) (h : 8 ≤ j) :
    spSetNextPageID d pid j = d j := by
  unfold spSetNextPageID writeI64
  exact writeBE_apply_outside 8 d 0 _ j (by omega)

theorem spSetNextPageID_numSlots (d : Bytes) (pid : Int) :
    spGetNumSlots (spSetNextPageID d pid) = spGetNumSlots d :=
  readBE_agree 2 _ d 8 (fun j hj1 _ => spSetNextPageID_apply_outside d pid j (by omega))

theorem spSetNextPageID_fsp (d : Bytes) (pid : Int) :
    spGetFreeSpacePointer (spSetNextPageID d pid) = spGetFreeSpacePointer d :=
  readBE_agree 2 _ d 10 (fun j hj1 _ => spSetNextPageID_apply_outside d pid j (by omega))

theorem spSetNextPageID_slot (d : Bytes) (pid : Int) (j : Nat) :
    spGetSlot (spSetNextPageID d pid) j = spGetSlot d j := by
  unfold spGetSlot
  rw [Prod.mk.injEq]
  constructor
  · exact readBE_agree 2 _ d _ (fun i hi1 _ => spSetNextPageID_apply_outside d pid i (by omega))
  · exact readBE_agree 2 _ d _ (fun i hi1 _ => spSetNextPageID_apply_outside d pid i (by omega))

theorem spGetNextPageID_set (d : Bytes) (pid : Int)
    (h1 : -(2 ^ 63) ≤ pid) (h2 : pid < 2 ^ 63) :
    spGetNextPageID (spSetNextPageID d pid) = pid :=
  readI64_writeI64 d 0 pid h1 h2

/-- The page produced for a fresh chain tail: a zero page viewed (free-space
pointer initialized) with its next pointer set to `InvalidPageID`. -/
theorem freshTail_numSlots :
    spGetNumSlots (spSetNextPageID (newSlottedPage zeroBytes) InvalidPageID) = 0 := by
  rw [spSetNextPageID_numSlots]
  exact freshSP_numSlots

theorem freshTail_fsp :
    spGetFreeSpacePointer (spSetNextPageID (newSlottedPage zeroBytes) InvalidPageID) = 4096 := by
  rw [spSetNextPageID_fsp]
  exact freshSP_fsp

theorem freshTail_insert_ok (data : List Nat) (hlen : data.length ≤ 4080) :
    spInsertTuple (spSetNextPageID (newSlottedPage zeroBytes) InvalidPageID) data
      = (InsResult.ok 0,
        spInsertWrite (spSetNextPageID (newSlottedPage zeroBytes) InvalidPageID) data) := by
  have h := spInsertTuple_ok (spSetNextPageID (newSlottedPage zeroBytes) InvalidPageID) data
    (by omega) (by rw [freshTail_numSlots, freshTail_fsp]; omega)
  rw [freshTail_numSlots] at h
  exact h

theorem chain_head_nonneg (st : Store) (p : Int) (ids : List Int) (h : Chain st p ids) :
    0 ≤ p := by
  cases h with
  | last _ hp _ => exact hp
  | cons _ _ _ hp _ _ => exact hp

theorem chain_congr (st st' : Store) (pid : Int) (ids : List Int)
    (h : ∀ p, spGetNextPageID (st'.pages p) = spGetNextPageID (st.pages p))
    (hc : Chain st pid ids) : Chain st' pid ids := by
  induction hc with
  | last p hp hn => exact Chain.last p hp (by rw [h]; exact hn)
  | cons p q ids hp hn _ ih => exact Chain.cons p q ids hp (by rw [h]; exact hn) ih

/-- Walking updates a page to its viewed bytes; this preserves every page's
next pointer, hence the chain. -/
theorem chain_update_view (st : Store) (curr pid : Int) (ids : List Int)
    (hc : Chain st pid ids) :
    Chain (st.update curr (newSlottedPage (st.pages curr))) pid ids := by
  apply chain_congr st _ pid ids _ hc
  intro p
  show spGetNextPageID (if p = curr then newSlottedPage (st.pages curr) else st.pages p)
      = spGetNextPageID (st.pages p)
  by_cases hp : p = curr
  · rw [if_pos hp, hp, newSlottedPage_next]
  · rw [if_neg hp]

theorem thInsertTuple_succ_ok (st : Store) (curr : Int) (data : List Nat) (fuel : Nat)
    (slot : Nat) (d1 : Bytes)
    (h : spInsertTuple (newSlottedPage (st.pages curr)) data = (InsResult.ok slot, d1)) :
    thInsertTuple st curr data (fuel + 1)
      = ThResult.ok ⟨curr, slot⟩ (st.update curr d1) := by
  unfold thInsertTuple
  dsimp only
  rw [h]

theorem thInsertTuple_succ_err_walk (st : Store) (curr : Int) (data : List Nat) (fuel : Nat)
    (r : InsResult) (d1 : Bytes)
    (h : spInsertTuple (newSlottedPage (st.pages curr)) data = (r, d1))
    (hr : ∀ s, r ≠ InsResult.ok s)
    (hq : spGetNextPageID (newSlottedPage (st.pages curr)) ≠ InvalidPageID) :
    thInsertTuple st curr data (fuel + 1)
      = thInsertTuple (st.update curr (newSlottedPage (st.pages curr)))
          (spGetNextPageID (newSlottedPage (st.pages curr))) data fuel := by
  conv_lhs => unfold thInsertTuple
  dsimp only
  rw [h]
  cases r with
  | ok s => exact absurd rfl (hr s)
  | noSpace => rw [if_neg hq]
  | tooLarge => rw [if_neg hq]

theorem thInsertTuple_succ_err_alloc (st : Store) (curr : Int) (data : List Nat) (fuel : Nat)
    (r : InsResult) (d1 : Bytes)
    (h : spInsertTuple (newSlottedPage (st.pages curr)) data = (r, d1))
    (hr : ∀ s, r ≠ InsResult.ok s)
    (hq : spGetNextPageID (newSlottedPage (st.pages curr)) = InvalidPageID)
    (slot : Nat) (nd2 : Bytes)
    (h2 : spInsertTuple (spSetNextPageID (newSlottedPage zeroBytes) InvalidPageID) data
        = (InsResult.ok slot, nd2)) :
    thInsertTuple st curr data (fuel + 1)
      = ThResult.ok ⟨st.nextId, slot⟩
          (((((st.update curr (newSlottedPage (st.pages curr))).allocPage.2).update curr
              (spSetNextPageID (newSlottedPage (st.pages curr)) st.nextId)).update st.nextId
              (spSetNextPageID (newSlottedPage zeroBytes) InvalidPageID)).update
            st.nextId nd2) := by
  conv_lhs => unfold thInsertTuple
  dsimp only
  rw [h]
  cases r with
  | ok s => exact absurd rfl (hr s)
  | noSpace =>
    rw [if_pos hq, h2]
    dsimp only [Store.update, Store.allocPage]
  | tooLarge =>
    rw [if_pos hq, h2]
    dsimp only [Store.update, Store.allocPage]

theorem thInsertTuple_succ_noSpace_alloc (st : Store) (curr : Int) (data : List Nat)
    (fuel : Nat) (r : InsResult) (d1 : Bytes)
    (h : spInsertTuple (newSlottedPage (st.pages curr)) data = (r, d1))
    (hr : ∀ s, r ≠ InsResult.ok s)
    (hq : spGetNextPageID (newSlottedPage (st.pages curr)) = InvalidPageID)
    (nd2 : Bytes)
    (h2 : spInsertTuple (spSetNextPageID (newSlottedPage zeroBytes) InvalidPageID) data
        = (InsResult.noSpace, nd2)) :
    thInsertTuple st curr data (fuel + 1) = ThResult.noSpace := by
  conv_lhs => unfold thInsertTuple
  dsimp only
  rw [h]
  cases r with
  | ok s => exact absurd rfl (hr s)
  | noSpace => rw [if_pos hq, h2]
  | tooLarge => rw [if_pos hq, h2]

theorem chain_cons_inv (st : Store) (curr p : Int) (rest : List Int)
    (h : Chain st curr (p :: rest)) :
    curr = p ∧ 0 ≤ p ∧
      ((rest = [] ∧ spGetNextPageID (st.pages p) = InvalidPageID) ∨
        Chain st (spGetNextPageID (st.pages p)) rest) := by
  cases h
  case last =>
    rename_i hp hn
    exact ⟨rfl, hp, Or.inl ⟨rfl, hn⟩⟩
  case cons =>
    rename_i q hp hn htail
    refine ⟨rfl, hp, Or.inr ?_⟩
    rw [hn]
    exact htail

theorem thInsert_not_noSpace (data : List Nat) (hlen : data.length ≤ 4080) :
    ∀ (fuel : Nat) (st : Store) (curr : Int),
      (thInsertTuple st curr data fuel).isNoSpace = false := by
  intro fuel
  induction fuel with
  | zero => intro st curr; rfl
  | succ fuel ih =>
    intro st curr
    rcases hres : spInsertTuple (newSlottedPage (st.pages curr)) data with ⟨r, d1⟩
    have hfresh := freshTail_insert_ok data hlen
    cases r with
    | ok slot =>
      rw [thInsertTuple_succ_ok st curr data fuel slot d1 hres]
      rfl
    | noSpace =>
      by_cases hq : spGetNextPageID (newSlottedPage (st.pages curr)) = InvalidPageID
      · rw [thInsertTuple_succ_err_alloc st curr data fuel _ d1 hres
          (fun s hs => InsResult.noConfusion hs) hq 0 _ hfresh]
        rfl
      · rw [thInsertTuple_succ_err_walk st curr data fuel _ d1 hres
          (fun s hs => InsResult.noConfusion hs) hq]
        exact ih _ _
    | tooLarge =>
      by_cases hq : spGetNextPageID (newSlottedPage (st.pages curr)) = InvalidPageID
      · rw [thInsertTuple_succ_err_alloc st curr data fuel _ d1 hres
          (fun s hs => InsResult.noConfusion hs) hq 0 _ hfresh]
        rfl
      · rw [thInsertTuple_succ_err_walk st curr data fuel _ d1 hres
          (fun s hs => InsResult.noConfusion hs) hq]
        exact ih _ _

theorem thInsert_ok_of_chain (data : List Nat) (hlen : data.length ≤ 4080) :
    ∀ (ids : List Int) (st : Store) (curr : Int), Chain st curr ids →
      ∀ (fuel : Nat), ids.length ≤ fuel →
      ∃ rid st', thInsertTuple st curr data fuel = ThResult.ok rid st' := by
  intro ids
  induction ids with
  | nil =>
    intro st curr hchain
    cases hchain
  | cons p rest ih =>
    intro st curr hchain fuel hfuel
    obtain ⟨rfl, hp, hrest⟩ := chain_cons_inv st curr p rest hchain
    have hfuel1 : 1 ≤ fuel := by simp at hfuel; omega
    obtain ⟨f, rfl⟩ : ∃ f, fuel = f + 1 := ⟨fuel - 1, by omega⟩
    rcases hres : spInsertTuple (newSlottedPage (st.pages curr)) data with ⟨r, d1⟩
    by_cases hok : ∃ slot, r = InsResult.ok slot
    · obtain ⟨slot, rfl⟩ := hok
      exact ⟨⟨curr, slot⟩, st.update curr d1, thInsertTuple_succ_ok st curr data f slot d1 hres⟩
    · have hr : ∀ s, r ≠ InsResult.ok s := fun s hs => hok ⟨s, hs⟩
      rcases hrest with ⟨hnil, hn⟩ | htail
      · have hq : spGetNextPageID (newSlottedPage (st.pages curr)) = InvalidPageID := by
          rw [newSlottedPage_next]
          exact hn
        exact ⟨⟨st.nextId, 0⟩, _,
          thInsertTuple_succ_err_alloc st curr data f r d1 hres hr hq 0 _
            (freshTail_insert_ok data hlen)⟩
      · have hqn : 0 ≤ spGetNextPageID (st.pages curr) :=
          chain_head_nonneg st _ rest htail
        have hqv : spGetNextPageID (newSlottedPage (st.pages curr)) ≠ InvalidPageID := by
          rw [newSlottedPage_next]
          unfold InvalidPageID
          omega
        rw [thInsertTuple_succ_err_walk st curr data f r d1 hres hr hqv, newSlottedPage_next]
        exact ih (st.update curr (newSlottedPage (st.pages curr))) _
          (chain_update_view st curr _ rest htail) f (by simp at hfuel; omega)

theorem spInsertN_state : ∀ k, k ≤ 1021 →
    spGetNumSlots (spInsertN k) = k ∧ spGetFreeSpacePointer (spInsertN k) = 4096 := by
  intro k
  induction k with
  | zero => intro _; exact ⟨freshSP_numSlots, freshSP_fsp⟩
  | succ k ih =>
    intro hk
    obtain ⟨ihn, ihf⟩ := ih (by omega)
    have hroom : 16 + spGetNumSlots (spInsertN k) * 4 + ([] : List Nat).length
        ≤ spGetFreeSpacePointer (spInsertN k) := by
      rw [ihn, ihf]
      simp only [List.length_nil]
      omega
    show spGetNumSlots (spInsertTuple (spInsertN k) ([] : List Nat)).2 = k + 1 ∧
      spGetFreeSpacePointer (spInsertTuple (spInsertN k) ([] : List Nat)).2 = 4096
    rw [spInsertTuple_ok _ _ (by simp) hroom]
    dsimp only
    constructor
    · rw [spInsertWrite_numSlots _ _ hroom, ihn]
    · rw [spInsertWrite_fsp _ _ hroom, ihf]
      simp

theorem spInsertN_step_ok (k : Nat) (hk : k ≤ 1020) :
    spInsertTuple (spInsertN k) ([] : List Nat)
      = (InsResult.ok k, spInsertWrite (spInsertN k) ([] : List Nat)) := by
  obtain ⟨hn, hf⟩ := spInsertN_state k (by omega)
  have h := spInsertTuple_ok (spInsertN k) ([] : List Nat) (by simp)
    (by rw [hn, hf]; simp only [List.length_nil]; omega)
  rw [hn] at h
  exact h

theorem spInsertN_step_noSpace :
    spInsertTuple (spInsertN 1021) ([] : List Nat) = (InsResult.noSpace, spInsertN 1021) := by
  obtain ⟨hn, hf⟩ := spInsertN_state 1021 (by omega)
  exact spInsertTuple_noSpace _ _ (by simp)
    (by rw [hn, hf]; simp only [List.length_nil]; omega)

theorem thScan_emit_live :
    ∀ (fuel : Nat) (st : Store) (pid : Int) (s0 : Nat) (l : List (List Nat × RID)),
      thScan st pid s0 fuel = some l →
      ∀ b r, (b, r) ∈ l →
        spGetTuple (newSlottedPage (st.pages r.pageID)) r.slotID = some b := by
  intro fuel
  induction fuel with
  | zero =>
    intro st pid s0 l h
    exact absurd h (by unfold thScan; simp)
  | succ fuel ih =>
    intro st pid s0 l h b r hmem
    unfold thScan at h
    by_cases hpid : pid = InvalidPageID
    · rw [if_pos hpid] at h
      injection h with h1
      subst h1
      simp at hmem
    · rw [if_neg hpid] at h
      dsimp only at h
      by_cases hslot : s0 < spGetNumSlots (newSlottedPage (st.pages pid))
      · rw [if_pos hslot] at h
        rcases hget : spGetTuple (newSlottedPage (st.pages pid)) s0 with _ | data
        · rw [hget] at h
          exact ih st pid (s0 + 1) l h b r hmem
        · rw [hget] at h
          dsimp only at h
          rcases hrec : thScan st pid (s0 + 1) fuel with _ | rest
          · rw [hrec] at h
            exact absurd h (by simp)
          · rw [hrec] at h
            rw [Option.map_some'] at h
            injection h with h1
            subst h1
            rcases List.mem_cons.mp hmem with hhead | htail
            · rw [Prod.mk.injEq] at hhead
              obtain ⟨hb, hr⟩ := hhead
              subst hb
              subst hr
              exact hget
            · exact ih st pid (s0 + 1) rest hrec b r htail
      · rw [if_neg hslot] at h
        exact ih st _ 0 l h b r hmem

/-- C2 (counterexample): a 4081-byte tuple does not exceed the 4096-byte page
size, yet on a fresh heap `TableHeap.InsertTuple` surfaces the slotted page's
no-space error to the caller: every page, including a freshly allocated one,
rejects it because a page can hold at most 4096 − 12 − 4 = 4080 payload bytes. -/
theorem C2_counterexample :
    (List.replicate 4081 0).length ≤ 4096 ∧
    (thInsertTuple (thNew emptyStore).1 (thNew emptyStore).2
      (List.replicate 4081 0) 2).isNoSpace = true := by
  have hlen : (List.replicate 4081 (0 : Nat)).length = 4081 := List.length_replicate 4081 0
  refine ⟨by omega, ?_⟩
  have hpg : (thNew emptyStore).1.pages (thNew emptyStore).2
      = spSetNextPageID (newSlottedPage zeroBytes) InvalidPageID := rfl
  have hview : newSlottedPage ((thNew emptyStore).1.pages (thNew emptyStore).2)
      = spSetNextPageID (newSlottedPage zeroBytes) InvalidPageID := by
    rw [hpg]
    apply newSlottedPage_eq_of_ne
    intro hc
    have h2 := hc.2
    rw [freshTail_fsp] at h2
    norm_num at h2
  have hns : spInsertTuple (spSetNextPageID (newSlottedPage zeroBytes) InvalidPageID)
        (List.replicate 4081 0)
      = (InsResult.noSpace, spSetNextPageID (newSlottedPage zeroBytes) InvalidPageID) :=
    spInsertTuple_noSpace _ _ (by omega)
      (by rw [freshTail_numSlots, freshTail_fsp]; omega)
  have hq : spGetNextPageID (newSlottedPage
        ((thNew emptyStore).1.pages (thNew emptyStore).2)) = InvalidPageID := by
    rw [hview]
    exact spGetNextPageID_set _ _ (by unfold InvalidPageID; norm_num)
      (by unfold InvalidPageID; norm_num)
  have hres : spInsertTuple (newSlottedPage
        ((thNew emptyStore).1.pages (thNew emptyStore).2)) (List.replicate 4081 0)
      = (InsResult.noSpace, spSetNextPageID (newSlottedPage zeroBytes) InvalidPageID) := by
    rw [hview]
    exact hns
  rw [show (2 : Nat) = 1 + 1 from rfl,
    thInsertTuple_succ_noSpace_alloc (thNew emptyStore).1 (thNew emptyStore).2
      (List.replicate 4081 0) 1 InsResult.noSpace _ hres
      (fun s hs => InsResult.noConfusion hs) hq _ hns]
  rfl

/-- C2 (amended): for every input data of length at most 4080 bytes
(page size 4096 minus the 12-byte header and one 4-byte slot entry),
`TableHeap.InsertTuple` never surfaces the slotted page's no-space error:
whenever a page reports ErrNoSpace it advances to the next page or allocates
and links a new one, and with fuel covering the chain it returns an RID
(buffer-pool and disk failures are absent in the model). -/
theorem C2_insertTuple_recovers (data : List Nat) (hlen : data.length ≤ 4080) :
    (∀ (fuel : Nat) (st : Store) (curr : Int),
      (thInsertTuple st curr data fuel).isNoSpace = false) ∧
    (∀ (st : Store) (curr : Int) (ids : List Int) (fuel : Nat),
      Chain st curr ids → ids.length ≤ fuel →
      ∃ rid st', thInsertTuple st curr data fuel = ThResult.ok rid st') :=
  ⟨thInsert_not_noSpace data hlen,
    fun st curr ids fuel hc hf => thInsert_ok_of_chain data hlen ids st curr hc fuel hf⟩

theorem C2_insertTuple_recovers_witness :
    ∃ rid st', thInsertTuple (thNew emptyStore).1 (thNew emptyStore).2
      ([42] : List Nat) 1 = ThResult.ok rid st' := by
  apply (C2_insertTuple_recovers [42] (by norm_num)).2 _ _ [(0 : Int)] 1 ?_ (by norm_num)
  exact Chain.last 0 (by norm_num) (by decide)

/-- C7 (counterexample): the 256th consecutive 0-byte insert into a fresh
slotted page does not return ErrNoSpace; it succeeds with slot id 255 (each
0-byte tuple costs only a 4-byte slot entry, so 1021 of them fit). -/
theorem C7_counterexample :
    (spInsertTuple (spInsertN 255) ([] : List Nat)).1 = InsResult.ok 255 ∧
    (spInsertTuple (spInsertN 255) ([] : List Nat)).1 ≠ InsResult.noSpace := by
  rw [spInsertN_step_ok 255 (by omega)]
  exact ⟨rfl, by decide⟩

/-- C7 (amended): on a freshly constructed slotted page, 1021 consecutive
0-byte `InsertTuple` calls all succeed (inserts k = 0 … 1020), and the 1022nd
returns ErrNoSpace: the free region is 4096 − 12 = 4084 bytes and each 0-byte
insert consumes exactly one 4-byte slot entry. -/
theorem C7_zero_byte_capacity :
    (∀ k, k ≤ 1020 → (spInsertTuple (spInsertN k) ([] : List Nat)).1 = InsResult.ok k) ∧
    (spInsertTuple (spInsertN 1021) ([] : List Nat)).1 = InsResult.noSpace := by
  constructor
  · intro k hk
    rw [spInsertN_step_ok k hk]
  · rw [spInsertN_step_noSpace]

theorem C7_zero_byte_capacity_witness :
    (spInsertTuple (spInsertN 0) ([] : List Nat)).1 = InsResult.ok 0 :=
  C7_zero_byte_capacity.1 0 (by decide)

/-- C8: for every slotted page reachable from a freshly initialized page by
any sequence of InsertTuple and DeleteTuple operations, the header invariant
12 + 4·NumSlots ≤ FreeSpacePointer ≤ 4096 holds — every operation preserves it. -/
theorem C8_header_invariant (d : Bytes) (h : SPReachable d) :
    12 + 4 * spGetNumSlots d ≤ spGetFreeSpacePointer d ∧
    spGetFreeSpacePointer d ≤ 4096 :=
  (spReachable_wf d h).1

theorem C8_header_invariant_witness :
    12 + 4 * spGetNumSlots (spInsertTuple freshSP [7, 7, 7]).2
      ≤ spGetFreeSpacePointer (spInsertTuple freshSP [7, 7, 7]).2 ∧
    spGetFreeSpacePointer (spInsertTuple freshSP [7, 7, 7]).2 ≤ 4096 :=
  C8_header_invariant _ (SPReachable.insert freshSP [7, 7, 7] SPReachable.fresh)

/-- C10 (counterexample): the header invariant alone does not keep GetTuple's
byte accesses inside the page: `badSlotPage` satisfies 12 + 4·NumSlots ≤
FreeSpacePointer ≤ 4096 yet its live slot 0 = (4090, 100) makes the tuple
slice end at 4190 > 4096. -/
theorem C10_counterexample :
    (12 + 4 * spGetNumSlots badSlotPage ≤ spGetFreeSpacePointer badSlotPage ∧
      spGetFreeSpacePointer badSlotPage ≤ 4096) ∧
    0 < spGetNumSlots badSlotPage ∧
    (spGetSlot badSlotPage 0).2 ≠ 0 ∧
    4096 < (spGetSlot badSlotPage 0).1 + (spGetSlot badSlotPage 0).2 := by
  decide

/-- C10 (amended): GetTuple and DeleteTuple guard only the upper bound; for
0 ≤ slotIdx < NumSlots the 4-byte slot-directory access at 12 + 4·slotIdx
stays within the page by the header invariant, and the tuple slice
[offset, offset+length) stays within the page given additionally the
live-slot invariant, which holds on every page reachable by
InsertTuple/DeleteTuple from a fresh page. -/
theorem C10_access_bounds (d : Bytes) (h : SPReachable d) (idx : Nat)
    (hidx : idx < spGetNumSlots d) :
    12 + idx * 4 + 4 ≤ 4096 ∧
    ((spGetSlot d idx).2 ≠ 0 → (spGetSlot d idx).1 + (spGetSlot d idx).2 ≤ 4096) := by
  obtain ⟨⟨hh1, hh2⟩, hs⟩ := spReachable_wf d h
  refine ⟨by omega, fun hz => (hs idx hidx hz).2⟩

theorem C10_access_bounds_witness :
    12 + 0 * 4 + 4 ≤ 4096 ∧
    ((spGetSlot (spInsertTuple freshSP [7]).2 0).2 ≠ 0 →
      (spGetSlot (spInsertTuple freshSP [7]).2 0).1
        + (spGetSlot (spInsertTuple freshSP [7]).2 0).2 ≤ 4096) :=
  C10_access_bounds _ (SPReachable.insert freshSP [7] SPReachable.fresh) 0 (by decide)

/-- C9: inserting a zero-length tuple into a slotted page with room succeeds,
but the resulting slot is indistinguishable from a tombstone: the directory
entry has length 0, `SlottedPage.GetTuple` returns absent, `TableHeap.GetTuple`
on the corresponding RID reports not-found, and the iterator never emits that
tuple. -/
theorem C9_zero_length_tombstone (d : Bytes)
    (hroom : 16 + spGetNumSlots d * 4 ≤ spGetFreeSpacePointer d) :
    (spInsertTuple d ([] : List Nat)).1 = InsResult.ok (spGetNumSlots d) ∧
    (spGetSlot (spInsertTuple d ([] : List Nat)).2 (spGetNumSlots d)).2 = 0 ∧
    spGetTuple (spInsertTuple d ([] : List Nat)).2 (spGetNumSlots d) = none ∧
    (∀ (st : Store) (pid : Int), st.pages pid = (spInsertTuple d ([] : List Nat)).2 →
      thGetTuple st ⟨pid, spGetNumSlots d⟩ = none) ∧
    (∀ (st : Store) (first : Int) (pid : Int) (s0 fuel : Nat)
        (l : List (List Nat × RID)),
      st.pages pid = (spInsertTuple d ([] : List Nat)).2 →
      thScan st first s0 fuel = some l →
      ∀ b, (b, (⟨pid, spGetNumSlots d⟩ : RID)) ∉ l) := by
  have hroom0 : 16 + spGetNumSlots d * 4 + ([] : List Nat).length
      ≤ spGetFreeSpacePointer d := by simpa using hroom
  have heq := spInsertTuple_ok d ([] : List Nat) (by simp) hroom0
  refine ⟨?_, ?_, ?_, ?_, ?_⟩
  · rw [heq]
  · rw [heq]
    dsimp only
    rw [spInsertWrite_slot_self d _ (by simp) hroom0]
    rfl
  · rw [heq]
    dsimp only
    exact spGetTuple_insertWrite_nil d hroom
  · intro st pid hpg
    unfold thGetTuple
    dsimp only
    rw [hpg, heq]
    dsimp only
    rw [newSlottedPage_getTuple]
    exact spGetTuple_insertWrite_nil d hroom
  · intro st first pid s0 fuel l hpg hscan b hmem
    have hlive := thScan_emit_live fuel st first s0 l hscan b _ hmem
    dsimp only at hlive
    rw [hpg, heq] at hlive
    dsimp only at hlive
    rw [newSlottedPage_getTuple, spGetTuple_insertWrite_nil d hroom] at hlive
    exact Option.noConfusion hlive

theorem C9_zero_length_tombstone_witness :
    (spInsertTuple freshSP ([] : List Nat)).1 = InsResult.ok (spGetNumSlots freshSP) ∧
    (spGetSlot (spInsertTuple freshSP ([] : List Nat)).2 (spGetNumSlots freshSP)).2 = 0 ∧
    spGetTuple (spInsertTuple freshSP ([] : List Nat)).2 (spGetNumSlots freshSP) = none ∧
    (∀ (st : Store) (pid : Int),
      st.pages pid = (spInsertTuple freshSP ([] : List Nat)).2 →
      thGetTuple st ⟨pid, spGetNumSlots freshSP⟩ = none) ∧
    (∀ (st : Store) (first : Int) (pid : Int) (s0 fuel : Nat)
        (l : List (List Nat × RID)),
      st.pages pid = (spInsertTuple freshSP ([] : List Nat)).2 →
      thScan st first s0 fuel = some l →
      ∀ b, (b, (⟨pid, spGetNumSlots freshSP⟩ : RID)) ∉ l) :=
  C9_zero_length_tombstone freshSP (by decide)

theorem nSetNodeType_apply_outside (d : Bytes) (t : Nat) (j : Nat) (h : 4 ≤ j) :
    nSetNodeType d t j = d j := by
  unfold nSetNodeType
  exact writeBE_apply_outside 4 d 0 t j (by omega)

theorem nSetNumKeys_apply_outside (d : Bytes) (n : Nat) (j : Nat) (h : j < 4 ∨ 8 ≤ j) :
    nSetNumKeys d n j = d j := by
  unfold nSetNumKeys
  exact writeBE_apply_outside 4 d 4 n j (by omega)

theorem nSetParentPageID_apply_outside (d : Bytes) (p : Int) (j : Nat)
    (h : j < 8 ∨ 16 ≤ j) : nSetParentPageID d p j = d j := by
  unfold nSetParentPageID writeI64
  exact writeBE_apply_outside 8 d 8 _ j (by omega)

theorem nSetNextPageID_apply_outside (d : Bytes) (p : Int) (j : Nat)
    (h : j < 16 ∨ 24 ≤ j) : nSetNextPageID d p j = d j := by
  unfold nSetNextPageID writeI64
  exact writeBE_apply_outside 8 d 16 _ j (by omega)

theorem nSetKey_apply_outside (d : Bytes) (i : Nat) (k : Int) (j : Nat)
    (h : j < nKeyOffset d i ∨ nKeyOffset d i + 8 ≤ j) :
    nSetKey d i k j = d j := by
  unfold nSetKey writeI64
  exact writeBE_apply_outside 8 d _ _ j (by omega)

theorem nSetValueRID_apply_outside (d : Bytes) (i : Nat) (v : RID) (j : Nat)
    (h : j < nValueOffset d i ∨ nValueOffset d i + 12 ≤ j) :
    nSetValueRID d i v j = d j := by
  unfold nSetValueRID writeI64
  rw [writeBE_apply_outside 4 _ (nValueOffset d i + 8) _ j (by omega),
    writeBE_apply_outside 8 d (nValueOffset d i) _ j (by omega)]

theorem nSetValuePageID_apply_outside (d : Bytes) (i : Nat) (v : Int) (j : Nat)
    (h : j < nValueOffset d i ∨ nValueOffset d i + 8 ≤ j) :
    nSetValuePageID d i v j = d j := by
  unfold nSetValuePageID writeI64
  exact writeBE_apply_outside 8 d _ _ j (by omega)

theorem nInit_apply_outside (d : Bytes) (t : Nat) (j : Nat) (h : 24 ≤ j) :
    nInit d t j = d j := by
  unfold nInit
  rw [nSetNextPageID_apply_outside _ _ j (by omega),
    nSetParentPageID_apply_outside _ _ j (by omega),
    nSetNumKeys_apply_outside _ _ j (by omega),
    nSetNodeType_apply_outside _ _ j (by omega)]

theorem nGetNumKeys_lt (d : Bytes) : nGetNumKeys d < 4294967296 := by
  have := readBE_lt 4 d 4
  norm_num at this
  exact this

theorem nGetNumKeys_set (d : Bytes) (n : Nat) (h : n < 4294967296) :
    nGetNumKeys (nSetNumKeys d n) = n := by
  unfold nGetNumKeys nSetNumKeys
  rw [readBE_writeBE_self_lt 4 d 4 n (by norm_num; omega)]

theorem nGetNodeType_set (d : Bytes) (t : Nat) (h : t < 4294967296) :
    nGetNodeType (nSetNodeType d t) = t := by
  unfold nGetNodeType nSetNodeType
  rw [readBE_writeBE_self_lt 4 d 0 t (by norm_num; omega)]

theorem nInit_nodeType (d : Bytes) (t : Nat) (h : t < 4294967296) :
    nGetNodeType (nInit d t) = t := by
  unfold nInit
  have hagree : nGetNodeType
      (nSetNextPageID (nSetParentPageID (nSetNumKeys (nSetNodeType d t) 0) (-1)) (-1))
      = nGetNodeType (nSetNodeType d t) := by
    apply readBE_agree
    intro j hj1 hj2
    rw [nSetNextPageID_apply_outside _ _ j (by omega),
      nSetParentPageID_apply_outside _ _ j (by omega),
      nSetNumKeys_apply_outside _ _ j (by omega)]
  rw [hagree, nGetNodeType_set d t h]

theorem nInit_numKeys (d : Bytes) (t : Nat) : nGetNumKeys (nInit d t) = 0 := by
  unfold nInit
  have hagree : nGetNumKeys
      (nSetNextPageID (nSetParentPageID (nSetNumKeys (nSetNodeType d t) 0) (-1)) (-1))
      = nGetNumKeys (nSetNumKeys (nSetNodeType d t) 0) := by
    apply readBE_agree
    intro j hj1 hj2
    rw [nSetNextPageID_apply_outside _ _ j (by omega),
      nSetParentPageID_apply_outside _ _ j (by omega)]
  rw [hagree, nGetNumKeys_set _ 0 (by norm_num)]

theorem nInit_leaf_isLeaf (d : Bytes) : nIsLeaf (nInit d NodeTypeLeaf) = true := by
  unfold nIsLeaf
  rw [nInit_nodeType d NodeTypeLeaf (by unfold NodeTypeLeaf; norm_num)]
  rfl

theorem nInit_internal_not_leaf (d : Bytes) : nIsLeaf (nInit d NodeTypeInternal) = false := by
  unfold nIsLeaf
  rw [nInit_nodeType d NodeTypeInternal (by unfold NodeTypeInternal; norm_num)]
  rfl

theorem readI64_range (d : Bytes) (off : Nat) :
    -(2 ^ 63) ≤ readI64 d off ∧ readI64 d off < 2 ^ 63 := by
  unfold readI64
  have h := readBE_lt 8 d off
  have h64 : (256 : Nat) ^ 8 = 18446744073709551616 := by norm_num
  rw [h64] at h
  by_cases hc : readBE d off 8 < 2 ^ 63
  · rw [if_pos hc]
    constructor
    · have : (0 : Int) ≤ (readBE d off 8 : Int) := Int.ofNat_nonneg _
      omega
    · exact_mod_cast hc
  · rw [if_neg hc]
    push_neg at hc
    constructor
    · have : (2 ^ 63 : Int) ≤ (readBE d off 8 : Int) := by exact_mod_cast hc
      norm_num
      omega
    · have : (readBE d off 8 : Int) < 18446744073709551616 := by exact_mod_cast h
      norm_num
      omega

theorem nKeyOffset_of_leaf (d : Bytes) (h : nIsLeaf d = true) (i : Nat) :
    nKeyOffset d i = 24 + i * 20 := by
  unfold nKeyOffset nPairSize NodeHeaderSize
  rw [h, if_pos rfl]

theorem nKeyOffset_of_internal (d : Bytes) (h : nIsLeaf d = false) (i : Nat) :
    nKeyOffset d i = 24 + i * 16 := by
  unfold nKeyOffset nPairSize NodeHeaderSize
  rw [h, if_neg (by simp)]

theorem splitLeaf_left_nodeType (d recip : Bytes) (pid : Int) :
    nGetNodeType (splitLeaf d recip pid).1 = nGetNodeType d := by
  show nGetNodeType (nSetNextPageID (nSetNumKeys d (nGetNumKeys d / 2)) pid)
      = nGetNodeType d
  apply readBE_agree
  intro j hj1 hj2
  rw [nSetNextPageID_apply_outside _ _ j (by omega),
    nSetNumKeys_apply_outside _ _ j (by omega)]

theorem splitLeaf_left_isLeaf (d recip : Bytes) (pid : Int) (h : nIsLeaf d = true) :
    nIsLeaf (splitLeaf d recip pid).1 = true := by
  unfold nIsLeaf
  rw [splitLeaf_left_nodeType d recip pid]
  exact h

theorem splitLeaf_left_numKeys (d recip : Bytes) (pid : Int) :
    nGetNumKeys (splitLeaf d recip pid).1 = nGetNumKeys d / 2 := by
  have hn := nGetNumKeys_lt d
  show nGetNumKeys (nSetNextPageID (nSetNumKeys d (nGetNumKeys d / 2)) pid)
      = nGetNumKeys d / 2
  have hagree : nGetNumKeys (nSetNextPageID (nSetNumKeys d (nGetNumKeys d / 2)) pid)
      = nGetNumKeys (nSetNumKeys d (nGetNumKeys d / 2)) := by
    apply readBE_agree
    intro j hj1 hj2
    rw [nSetNextPageID_apply_outside _ _ j (by omega)]
  rw [hagree, nGetNumKeys_set _ _ (by omega)]

theorem splitLeaf_left_next (d recip : Bytes) (pid : Int)
    (h1 : -(2 ^ 63) ≤ pid) (h2 : pid < 2 ^ 63) :
    nGetNextPageID (splitLeaf d recip pid).1 = pid := by
  show nGetNextPageID (nSetNextPageID (nSetNumKeys d (nGetNumKeys d / 2)) pid) = pid
  exact readI64_writeI64 _ 16 pid h1 h2

theorem splitLeaf_left_body (d recip : Bytes) (pid : Int) (j : Nat) (hj : 24 ≤ j) :
    (splitLeaf d recip pid).1 j = d j := by
  show nSetNextPageID (nSetNumKeys d (nGetNumKeys d / 2)) pid j = d j
  rw [nSetNextPageID_apply_outside _ _ j (by omega),
    nSetNumKeys_apply_outside _ _ j (by omega)]

theorem splitLeaf_left_key (d recip : Bytes) (pid : Int) (h : nIsLeaf d = true) (j : Nat) :
    nGetKey (splitLeaf d recip pid).1 j = nGetKey d j := by
  unfold nGetKey
  rw [nKeyOffset_of_leaf _ (splitLeaf_left_isLeaf d recip pid h) j,
    nKeyOffset_of_leaf d h j]
  apply readI64_agree
  intro i hi1 hi2
  exact splitLeaf_left_body d recip pid i (by omega)

theorem splitLeaf_left_value (d recip : Bytes) (pid : Int) (h : nIsLeaf d = true) (j : Nat) :
    nGetValueRID (splitLeaf d recip pid).1 j = nGetValueRID d j := by
  unfold nGetValueRID nValueOffset
  rw [nKeyOffset_of_leaf _ (splitLeaf_left_isLeaf d recip pid h) j,
    nKeyOffset_of_leaf d h j, RID.mk.injEq]
  constructor
  · apply readI64_agree
    intro i hi1 hi2
    exact splitLeaf_left_body d recip pid i (by omega)
  · apply readBE_agree
    intro i hi1 hi2
    exact splitLeaf_left_body d recip pid i (by omega)

theorem splitLeaf_right_nodeType (d recip : Bytes) (pid : Int) :
    nGetNodeType (splitLeaf d recip pid).2.1 = NodeTypeLeaf := by
  show nGetNodeType (nSetNextPageID (nSetNumKeys
      (copyFrom (nInit recip NodeTypeLeaf) NodeHeaderSize d
        (nKeyOffset d (nGetNumKeys d / 2)) ((nGetNumKeys d - nGetNumKeys d / 2) * 20))
      (nGetNumKeys d - nGetNumKeys d / 2))
      (nGetNextPageID (nSetNumKeys d (nGetNumKeys d / 2)))) = NodeTypeLeaf
  have hagree : ∀ j, j < 4 →
      nSetNextPageID (nSetNumKeys
        (copyFrom (nInit recip NodeTypeLeaf) NodeHeaderSize d
          (nKeyOffset d (nGetNumKeys d / 2)) ((nGetNumKeys d - nGetNumKeys d / 2) * 20))
        (nGetNumKeys d - nGetNumKeys d / 2))
        (nGetNextPageID (nSetNumKeys d (nGetNumKeys d / 2))) j
      = nInit recip NodeTypeLeaf j := by
    intro j hj
    rw [nSetNextPageID_apply_outside _ _ j (by omega),
      nSetNumKeys_apply_outside _ _ j (by omega),
      copyFrom_apply_outside _ _ _ _ _ j (by unfold NodeHeaderSize; omega)]
  have h1 : nGetNodeType (nSetNextPageID (nSetNumKeys
      (copyFrom (nInit recip NodeTypeLeaf) NodeHeaderSize d
        (nKeyOffset d (nGetNumKeys d / 2)) ((nGetNumKeys d - nGetNumKeys d / 2) * 20))
      (nGetNumKeys d - nGetNumKeys d / 2))
      (nGetNextPageID (nSetNumKeys d (nGetNumKeys d / 2))))
      = nGetNodeType (nInit recip NodeTypeLeaf) :=
    readBE_agree 4 _ _ 0 (fun j hj1 hj2 => hagree j (by omega))
  rw [h1, nInit_nodeType recip NodeTypeLeaf (by unfold NodeTypeLeaf; norm_num)]

theorem splitLeaf_right_isLeaf (d recip : Bytes) (pid : Int) :
    nIsLeaf (splitLeaf d recip pid).2.1 = true := by
  unfold nIsLeaf
  rw [splitLeaf_right_nodeType d recip pid]
  rfl

theorem splitLeaf_right_numKeys (d recip : Bytes) (pid : Int) :
    nGetNumKeys (splitLeaf d recip pid).2.1 = nGetNumKeys d - nGetNumKeys d / 2 := by
  have hn := nGetNumKeys_lt d
  show nGetNumKeys (nSetNextPageID (nSetNumKeys
      (copyFrom (nInit recip NodeTypeLeaf) NodeHeaderSize d
        (nKeyOffset d (nGetNumKeys d / 2)) ((nGetNumKeys d - nGetNumKeys d / 2) * 20))
      (nGetNumKeys d - nGetNumKeys d / 2))
      (nGetNextPageID (nSetNumKeys d (nGetNumKeys d / 2))))
      = nGetNumKeys d - nGetNumKeys d / 2
  have hagree : nGetNumKeys (nSetNextPageID (nSetNumKeys
      (copyFrom (nInit recip NodeTypeLeaf) NodeHeaderSize d
        (nKeyOffset d (nGetNumKeys d / 2)) ((nGetNumKeys d - nGetNumKeys d / 2) * 20))
      (nGetNumKeys d - nGetNumKeys d / 2))
      (nGetNextPageID (nSetNumKeys d (nGetNumKeys d / 2))))
      = nGetNumKeys (nSetNumKeys
        (copyFrom (nInit recip NodeTypeLeaf) NodeHeaderSize d
          (nKeyOffset d (nGetNumKeys d / 2)) ((nGetNumKeys d - nGetNumKeys d / 2) * 20))
        (nGetNumKeys d - nGetNumKeys d / 2)) := by
    apply readBE_agree
    intro j hj1 hj2
    rw [nSetNextPageID_apply_outside _ _ j (by omega)]
  rw [hagree, nGetNumKeys_set _ _ (by omega)]

theorem splitLeaf_right_next (d recip : Bytes) (pid : Int) :
    nGetNextPageID (splitLeaf d recip pid).2.1 = nGetNextPageID d := by
  have hrange := readI64_range (nSetNumKeys d (nGetNumKeys d / 2)) 16
  show nGetNextPageID (nSetNextPageID (nSetNumKeys
      (copyFrom (nInit recip NodeTypeLeaf) NodeHeaderSize d
        (nKeyOffset d (nGetNumKeys d / 2)) ((nGetNumKeys d - nGetNumKeys d / 2) * 20))
      (nGetNumKeys d - nGetNumKeys d / 2))
      (nGetNextPageID (nSetNumKeys d (nGetNumKeys d / 2))))
      = nGetNextPageID d
  rw [show nGetNextPageID (nSetNextPageID (nSetNumKeys
      (copyFrom (nInit recip NodeTypeLeaf) NodeHeaderSize d
        (nKeyOffset d (nGetNumKeys d / 2)) ((nGetNumKeys d - nGetNumKeys d / 2) * 20))
      (nGetNumKeys d - nGetNumKeys d / 2))
      (nGetNextPageID (nSetNumKeys d (nGetNumKeys d / 2))))
      = nGetNextPageID (nSetNumKeys d (nGetNumKeys d / 2)) from
    readI64_writeI64 _ 16 _ hrange.1 hrange.2]
  apply readI64_agree
  intro j hj1 hj2
  rw [nSetNumKeys_apply_outside _ _ j (by omega)]

theorem splitLeaf_right_key (d recip : Bytes) (pid : Int) (hleaf : nIsLeaf d = true)
    (j : Nat) (hj : j < nGetNumKeys d - nGetNumKeys d / 2) :
    nGetKey (splitLeaf d recip pid).2.1 j = nGetKey d (nGetNumKeys d / 2 + j) := by
  unfold nGetKey
  rw [nKeyOffset_of_leaf _ (splitLeaf_right_isLeaf d recip pid) j,
    nKeyOffset_of_leaf d hleaf (nGetNumKeys d / 2 + j)]
  unfold readI64
  have hagree : readBE ((splitLeaf d recip pid).2.1) (24 + j * 20) 8
      = readBE (copyFrom (nInit recip NodeTypeLeaf) NodeHeaderSize d
        (nKeyOffset d (nGetNumKeys d / 2)) ((nGetNumKeys d - nGetNumKeys d / 2) * 20))
        (24 + j * 20) 8 := by
    apply readBE_agree
    intro i hi1 hi2
    show nSetNextPageID (nSetNumKeys _ _) _ i = _
    rw [nSetNextPageID_apply_outside _ _ i (by omega),
      nSetNumKeys_apply_outside _ _ i (by omega)]
  rw [hagree, readBE_copyFrom_inside 8 _ d NodeHeaderSize _ _ (24 + j * 20)
    (by unfold NodeHeaderSize; omega) (by unfold NodeHeaderSize; omega),
    nKeyOffset_of_leaf d hleaf (nGetNumKeys d / 2)]
  rw [show 24 + (nGetNumKeys d / 2) * 20 + (24 + j * 20 - NodeHeaderSize)
      = 24 + (nGetNumKeys d / 2 + j) * 20 by unfold NodeHeaderSize; ring_nf; omega]

theorem splitLeaf_right_value (d recip : Bytes) (pid : Int) (hleaf : nIsLeaf d = true)
    (j : Nat) (hj : j < nGetNumKeys d - nGetNumKeys d / 2) :
    nGetValueRID (splitLeaf d recip pid).2.1 j
      = nGetValueRID d (nGetNumKeys d / 2 + j) := by
  unfold nGetValueRID nValueOffset
  rw [nKeyOffset_of_leaf _ (splitLeaf_right_isLeaf d recip pid) j,
    nKeyOffset_of_leaf d hleaf (nGetNumKeys d / 2 + j), RID.mk.injEq]
  have hagree : ∀ (off w : Nat), 24 ≤ off → off + w ≤ 24 + j * 20 + 20 →
      readBE ((splitLeaf d recip pid).2.1) off w
      = readBE (copyFrom (nInit recip NodeTypeLeaf) NodeHeaderSize d
        (nKeyOffset d (nGetNumKeys d / 2)) ((nGetNumKeys d - nGetNumKeys d / 2) * 20))
        off w := by
    intro off w hoff hw
    apply readBE_agree
    intro i hi1 hi2
    show nSetNextPageID (nSetNumKeys _ _) _ i = _
    rw [nSetNextPageID_apply_outside _ _ i (by omega),
      nSetNumKeys_apply_outside _ _ i (by omega)]
  constructor
  · unfold readI64
    rw [hagree (24 + j * 20 + 8) 8 (by omega) (by omega),
      readBE_copyFrom_inside 8 _ d NodeHeaderSize _ _ (24 + j * 20 + 8)
        (by unfold NodeHeaderSize; omega) (by unfold NodeHeaderSize; omega),
      nKeyOffset_of_leaf d hleaf (nGetNumKeys d / 2)]
    rw [show 24 + (nGetNumKeys d / 2) * 20 + (24 + j * 20 + 8 - NodeHeaderSize)
        = 24 + (nGetNumKeys d / 2 + j) * 20 + 8 by unfold NodeHeaderSize; ring_nf; omega]
  · rw [hagree (24 + j * 20 + 8 + 8) 4 (by omega) (by omega),
      readBE_copyFrom_inside 4 _ d NodeHeaderSize _ _ (24 + j * 20 + 8 + 8)
        (by unfold NodeHeaderSize; omega) (by unfold NodeHeaderSize; omega),
      nKeyOffset_of_leaf d hleaf (nGetNumKeys d / 2)]
    rw [show 24 + (nGetNumKeys d / 2) * 20 + (24 + j * 20 + 8 + 8 - NodeHeaderSize)
        = 24 + (nGetNumKeys d / 2 + j) * 20 + 8 + 8 by unfold NodeHeaderSize; ring_nf; omega]

theorem splitLeaf_sep (d recip : Bytes) (pid : Int) :
    (splitLeaf d recip pid).2.2 = nGetKey (splitLeaf d recip pid).2.1 0 := by
  unfold splitLeaf
  dsimp only

/-- C4: for every leaf node with `total = NumKeys` entries, `SplitLeaf` moves
exactly the right half to the recipient: `splitIdx = total / 2` pairs remain
in the original node (its pairs are untouched below `splitIdx`, which the
halved `NumKeys` exposes), `moveCount = total − splitIdx` pairs are copied
into the recipient starting at byte offset 24, the two `NumKeys` fields
become `splitIdx` and `moveCount`, the sibling chain is relinked
(`recipient.NextPageID` takes the original's old `NextPageID` and the
original's `NextPageID` becomes the recipient's page id), and the returned
separator equals the recipient's key at index 0. -/
theorem C4_splitLeaf_moves_right_half (d recip : Bytes) (pid : Int)
    (hleaf : nIsLeaf d = true) (h1 : -(2 ^ 63) ≤ pid) (h2 : pid < 2 ^ 63) :
    nGetNumKeys (splitLeaf d recip pid).1 = nGetNumKeys d / 2 ∧
    nGetNumKeys (splitLeaf d recip pid).2.1 = nGetNumKeys d - nGetNumKeys d / 2 ∧
    (∀ j, nGetKey (splitLeaf d recip pid).1 j = nGetKey d j ∧
      nGetValueRID (splitLeaf d recip pid).1 j = nGetValueRID d j) ∧
    (∀ j, j < nGetNumKeys d - nGetNumKeys d / 2 →
      nGetKey (splitLeaf d recip pid).2.1 j = nGetKey d (nGetNumKeys d / 2 + j) ∧
      nGetValueRID (splitLeaf d recip pid).2.1 j
        = nGetValueRID d (nGetNumKeys d / 2 + j)) ∧
    nGetNextPageID (splitLeaf d recip pid).2.1 = nGetNextPageID d ∧
    nGetNextPageID (splitLeaf d recip pid).1 = pid ∧
    (splitLeaf d recip pid).2.2 = nGetKey (splitLeaf d recip pid).2.1 0 :=
  ⟨splitLeaf_left_numKeys d recip pid,
   splitLeaf_right_numKeys d recip pid,
   fun j => ⟨splitLeaf_left_key d recip pid hleaf j,
     splitLeaf_left_value d recip pid hleaf j⟩,
   fun j hj => ⟨splitLeaf_right_key d recip pid hleaf j hj,
     splitLeaf_right_value d recip pid hleaf j hj⟩,
   splitLeaf_right_next d recip pid,
   splitLeaf_left_next d recip pid h1 h2,
   splitLeaf_sep d recip pid⟩

theorem C4_splitLeaf_moves_right_half_witness :
    nGetNumKeys (splitLeaf (nInit zeroBytes NodeTypeLeaf) zeroBytes 7).1
      = nGetNumKeys (nInit zeroBytes NodeTypeLeaf) / 2 ∧
    nGetNumKeys (splitLeaf (nInit zeroBytes NodeTypeLeaf) zeroBytes 7).2.1
      = nGetNumKeys (nInit zeroBytes NodeTypeLeaf)
        - nGetNumKeys (nInit zeroBytes NodeTypeLeaf) / 2 ∧
    (∀ j, nGetKey (splitLeaf (nInit zeroBytes NodeTypeLeaf) zeroBytes 7).1 j
        = nGetKey (nInit zeroBytes NodeTypeLeaf) j ∧
      nGetValueRID (splitLeaf (nInit zeroBytes NodeTypeLeaf) zeroBytes 7).1 j
        = nGetValueRID (nInit zeroBytes NodeTypeLeaf) j) ∧
    (∀ j, j < nGetNumKeys (nInit zeroBytes NodeTypeLeaf)
        - nGetNumKeys (nInit zeroBytes NodeTypeLeaf) / 2 →
      nGetKey (splitLeaf (nInit zeroBytes NodeTypeLeaf) zeroBytes 7).2.1 j
        = nGetKey (nInit zeroBytes NodeTypeLeaf)
            (nGetNumKeys (nInit zeroBytes NodeTypeLeaf) / 2 + j) ∧
      nGetValueRID (splitLeaf (nInit zeroBytes NodeTypeLeaf) zeroBytes 7).2.1 j
        = nGetValueRID (nInit zeroBytes NodeTypeLeaf)
            (nGetNumKeys (nInit zeroBytes NodeTypeLeaf) / 2 + j)) ∧
    nGetNextPageID (splitLeaf (nInit zeroBytes NodeTypeLeaf) zeroBytes 7).2.1
      = nGetNextPageID (nInit zeroBytes NodeTypeLeaf) ∧
    nGetNextPageID (splitLeaf (nInit zeroBytes NodeTypeLeaf) zeroBytes 7).1 = 7 ∧
    (splitLeaf (nInit zeroBytes NodeTypeLeaf) zeroBytes 7).2.2
      = nGetKey (splitLeaf (nInit zeroBytes NodeTypeLeaf) zeroBytes 7).2.1 0 :=
  C4_splitLeaf_moves_right_half (nInit zeroBytes NodeTypeLeaf) zeroBytes 7
    (by decide) (by decide) (by decide)

theorem sortSearchAux_bounds :
    ∀ (fuel : Nat) (f : Nat → Bool) (i j : Nat), i ≤ j →
      i ≤ sortSearchAux f fuel i j ∧ sortSearchAux f fuel i j ≤ j := by
  intro fuel
  induction fuel with
  | zero =>
    intro f i j hij
    have hz : sortSearchAux f 0 i j = i := rfl
    rw [hz]
    omega
  | succ fuel ih =>
    intro f i j hij
    have hs : sortSearchAux f (fuel + 1) i j = if i < j then
        (if f ((i + j) / 2) then sortSearchAux f fuel i ((i + j) / 2)
          else sortSearchAux f fuel ((i + j) / 2 + 1) j) else i := rfl
    rw [hs]
    by_cases hij2 : i < j
    · rw [if_pos hij2]
      by_cases hm : f ((i + j) / 2) = true
      · rw [if_pos hm]
        have := ih f i ((i + j) / 2) (by omega)
        omega
      · rw [if_neg hm]
        have := ih f ((i + j) / 2 + 1) j (by omega)
        omega
    · rw [if_neg hij2]
      omega

theorem sortSearch_le (n : Nat) (f : Nat → Bool) : sortSearch n f ≤ n :=
  (sortSearchAux_bounds n f 0 n (by omega)).2

theorem sortSearchAux_spec (f : Nat → Bool) (n : Nat)
    (hmono : ∀ a b, a ≤ b → b < n → f a = true → f b = true) :
    ∀ (fuel i j : Nat), j - i ≤ fuel → i ≤ j → j ≤ n →
      (∀ k, k < i → f k = false) →
      (∀ k, j ≤ k → k < n → f k = true) →
      i ≤ sortSearchAux f fuel i j ∧ sortSearchAux f fuel i j ≤ j ∧
      (∀ k, k < sortSearchAux f fuel i j → f k = false) ∧
      (∀ k, sortSearchAux f fuel i j ≤ k → k < n → f k = true) := by
  intro fuel
  induction fuel with
  | zero =>
    intro i j hf hij hjn hlo hhi
    have hz : sortSearchAux f 0 i j = i := rfl
    rw [hz]
    exact ⟨le_refl i, hij, hlo, fun k hk1 hk2 => hhi k (by omega) hk2⟩
  | succ fuel ih =>
    intro i j hf hij hjn hlo hhi
    have hs : sortSearchAux f (fuel + 1) i j = if i < j then
        (if f ((i + j) / 2) then sortSearchAux f fuel i ((i + j) / 2)
          else sortSearchAux f fuel ((i + j) / 2 + 1) j) else i := rfl
    rw [hs]
    by_cases hij2 : i < j
    · rw [if_pos hij2]
      by_cases hm : f ((i + j) / 2) = true
      · rw [if_pos hm]
        obtain ⟨c1, c2, c3, c4⟩ := ih i ((i + j) / 2) (by omega) (by omega) (by omega) hlo
          (fun k hk1 hk2 => hmono ((i + j) / 2) k hk1 hk2 hm)
        exact ⟨c1, by omega, c3, c4⟩
      · rw [if_neg hm]
        have hlo2 : ∀ k, k < (i + j) / 2 + 1 → f k = false := by
          intro k hk
          by_cases hki : k < i
          · exact hlo k hki
          · cases hfk : f k with
            | false => rfl
            | true =>
              exact absurd (hmono k ((i + j) / 2) (by omega) (by omega) hfk) hm
        obtain ⟨c1, c2, c3, c4⟩ := ih ((i + j) / 2 + 1) j (by omega) (by omega) hjn hlo2 hhi
        exact ⟨by omega, c2, c3, c4⟩
    · rw [if_neg hij2]
      exact ⟨le_refl i, hij, hlo, fun k hk1 hk2 => hhi k (by omega) hk2⟩

theorem sortSearch_spec (n : Nat) (f : Nat → Bool)
    (hmono : ∀ a b, a ≤ b → b < n → f a = true → f b = true) :
    sortSearch n f ≤ n ∧ (∀ k, k < sortSearch n f → f k = false) ∧
    (∀ k, sortSearch n f ≤ k → k < n → f k = true) := by
  obtain ⟨c1, c2, c3, c4⟩ := sortSearchAux_spec f n hmono n 0 n (by omega) (by omega)
    (le_refl n) (fun k hk => absurd hk (by omega)) (fun k hk1 hk2 => absurd hk1 (by omega))
  exact ⟨c2, c3, c4⟩

theorem nMaxCapacity_leaf (d : Bytes) (h : nIsLeaf d = true) : nMaxCapacity d = 203 := by
  unfold nMaxCapacity nPairSize PageSize NodeHeaderSize
  rw [h, if_pos rfl]

theorem nMaxCapacity_internal (d : Bytes) (h : nIsLeaf d = false) :
    nMaxCapacity d = 254 := by
  unfold nMaxCapacity nPairSize PageSize NodeHeaderSize
  rw [h, if_neg (by simp)]

theorem nIsLeaf_eq_of_agree (d1 d2 : Bytes) (h : ∀ j, j < 4 → d1 j = d2 j) :
    nIsLeaf d1 = nIsLeaf d2 := by
  unfold nIsLeaf nGetNodeType
  rw [readBE_agree 4 d1 d2 0 (fun j hj1 hj2 => h j (by omega))]

theorem insertLeaf_full (d : Bytes) (key : Int) (rid : RID)
    (h : nMaxCapacity d ≤ nGetNumKeys d) :
    insertLeaf d key rid = (false, d) := by
  unfold insertLeaf
  rw [if_pos (by omega)]

theorem insertLeaf_spec (d : Bytes) (key : Int) (rid : RID)
    (hleaf : nIsLeaf d = true)
    (hfull : nGetNumKeys d < nMaxCapacity d)
    (hk1 : -(2 ^ 63) ≤ key) (hk2 : key < 2 ^ 63) :
    (insertLeaf d key rid).1 = true ∧
    nIsLeaf (insertLeaf d key rid).2 = true ∧
    nGetNumKeys (insertLeaf d key rid).2 = nGetNumKeys d + 1 ∧
    (∀ j, j < sortSearch (nGetNumKeys d) (fun i => decide (nGetKey d i ≥ key)) →
      nGetKey (insertLeaf d key rid).2 j = nGetKey d j) ∧
    nGetKey (insertLeaf d key rid).2
      (sortSearch (nGetNumKeys d) (fun i => decide (nGetKey d i ≥ key))) = key ∧
    (∀ j, sortSearch (nGetNumKeys d) (fun i => decide (nGetKey d i ≥ key)) < j →
      j ≤ nGetNumKeys d → nGetKey (insertLeaf d key rid).2 j = nGetKey d (j - 1)) := by
  have hcap : nMaxCapacity d = 203 := nMaxCapacity_leaf d hleaf
  have hn203 : nGetNumKeys d < 203 := by omega
  have hidxle : sortSearch (nGetNumKeys d) (fun i => decide (nGetKey d i ≥ key))
      ≤ nGetNumKeys d := sortSearch_le _ _
  unfold insertLeaf copyWithin NodeHeaderSize
  rw [if_neg (by omega)]
  dsimp only
  set n := nGetNumKeys d with hndef
  set idx := sortSearch n (fun i => decide (nGetKey d i ≥ key)) with hidxdef
  set d1 := copyFrom d (24 + idx * 20 + 20) d (24 + idx * 20) ((n - idx) * 20) with hd1def
  set d2 := nSetKey d1 idx key with hd2def
  set d3 := nSetValueRID d2 idx rid with hd3def
  have hLd1 : nIsLeaf d1 = true := by
    rw [hd1def, nIsLeaf_eq_of_agree _ d
      (fun j hj => copyFrom_apply_outside d d _ _ _ j (by omega))]
    exact hleaf
  have hKd1 : nKeyOffset d1 idx = 24 + idx * 20 := nKeyOffset_of_leaf d1 hLd1 idx
  have hLd2 : nIsLeaf d2 = true := by
    rw [hd2def, nIsLeaf_eq_of_agree _ d1
      (fun j hj => nSetKey_apply_outside d1 idx key j (by rw [hKd1]; omega))]
    exact hLd1
  have hVd2 : nValueOffset d2 idx = 24 + idx * 20 + 8 := by
    unfold nValueOffset
    rw [nKeyOffset_of_leaf d2 hLd2 idx]
  have hLd3 : nIsLeaf d3 = true := by
    rw [hd3def, nIsLeaf_eq_of_agree _ d2
      (fun j hj => nSetValueRID_apply_outside d2 idx rid j (by rw [hVd2]; omega))]
    exact hLd2
  have hLB : nIsLeaf (nSetNumKeys d3 (n + 1)) = true := by
    rw [nIsLeaf_eq_of_agree _ d3
      (fun j hj => nSetNumKeys_apply_outside d3 (n + 1) j (by omega))]
    exact hLd3
  have hbody : ∀ i, 24 ≤ i → i < 24 + idx * 20 → nSetNumKeys d3 (n + 1) i = d i := by
    intro i hi1 hi2
    rw [nSetNumKeys_apply_outside d3 (n + 1) i (by omega),
      hd3def, nSetValueRID_apply_outside d2 idx rid i (by rw [hVd2]; omega),
      hd2def, nSetKey_apply_outside d1 idx key i (by rw [hKd1]; omega),
      hd1def, copyFrom_apply_outside d d _ _ _ i (by omega)]
  refine ⟨rfl, hLB, ?_, ?_, ?_, ?_⟩
  · have hagree : nGetNumKeys (nSetNumKeys d3 (n + 1)) = n + 1 :=
      nGetNumKeys_set d3 (n + 1) (by omega)
    exact hagree
  · intro j hj
    unfold nGetKey
    rw [nKeyOffset_of_leaf _ hLB j, nKeyOffset_of_leaf d hleaf j]
    apply readI64_agree
    intro i hi1 hi2
    exact hbody i (by omega) (by omega)
  · unfold nGetKey
    rw [nKeyOffset_of_leaf _ hLB idx]
    have hstep : readI64 (nSetNumKeys d3 (n + 1)) (24 + idx * 20)
        = readI64 d2 (24 + idx * 20) := by
      apply readI64_agree
      intro i hi1 hi2
      rw [nSetNumKeys_apply_outside d3 (n + 1) i (by omega),
        hd3def, nSetValueRID_apply_outside d2 idx rid i (by rw [hVd2]; omega)]
    rw [hstep, hd2def]
    unfold nSetKey
    rw [hKd1]
    exact readI64_writeI64 d1 (24 + idx * 20) key hk1 hk2
  · intro j hj1 hj2
    unfold nGetKey
    rw [nKeyOffset_of_leaf _ hLB j, nKeyOffset_of_leaf d hleaf (j - 1)]
    have hstep : readI64 (nSetNumKeys d3 (n + 1)) (24 + j * 20)
        = readI64 d1 (24 + j * 20) := by
      apply readI64_agree
      intro i hi1 hi2
      rw [nSetNumKeys_apply_outside d3 (n + 1) i (by omega),
        hd3def, nSetValueRID_apply_outside d2 idx rid i (by rw [hVd2]; omega),
        hd2def, nSetKey_apply_outside d1 idx key i (by rw [hKd1]; omega)]
    rw [hstep, hd1def]
    unfold readI64
    rw [readBE_copyFrom_inside 8 d d (24 + idx * 20 + 20) (24 + idx * 20)
      ((n - idx) * 20) (24 + j * 20) (by omega) (by omega)]
    rw [show 24 + idx * 20 + (24 + j * 20 - (24 + idx * 20 + 20)) = 24 + (j - 1) * 20 by
      have h20 : 24 + j * 20 - (24 + idx * 20 + 20) = (j - idx - 1) * 20 := by
        have : j * 20 ≥ idx * 20 + 20 := by
          have : j ≥ idx + 1 := hj1
          nlinarith
        omega
      rw [h20]
      have : idx + (j - idx - 1) = j - 1 := by omega
      nlinarith [this]]

theorem insertInternal_spec (d : Bytes) (key : Int) (v : Int)
    (hint : nIsLeaf d = false)
    (hfull : nGetNumKeys d < nMaxCapacity d)
    (hk1 : -(2 ^ 63) ≤ key) (hk2 : key < 2 ^ 63)
    (hv1 : -(2 ^ 63) ≤ v) (hv2 : v < 2 ^ 63) :
    (insertInternal d key v).1 = true ∧
    nIsLeaf (insertInternal d key v).2 = false ∧
    nGetNumKeys (insertInternal d key v).2 = nGetNumKeys d + 1 ∧
    (∀ j, j < sortSearch (nGetNumKeys d) (fun i => decide (nGetKey d i ≥ key)) →
      nGetKey (insertInternal d key v).2 j = nGetKey d j ∧
      nGetValuePageID (insertInternal d key v).2 j = nGetValuePageID d j) ∧
    (nGetKey (insertInternal d key v).2
        (sortSearch (nGetNumKeys d) (fun i => decide (nGetKey d i ≥ key))) = key ∧
      nGetValuePageID (insertInternal d key v).2
        (sortSearch (nGetNumKeys d) (fun i => decide (nGetKey d i ≥ key))) = v) ∧
    (∀ j, sortSearch (nGetNumKeys d) (fun i => decide (nGetKey d i ≥ key)) < j →
      j ≤ nGetNumKeys d →
      nGetKey (insertInternal d key v).2 j = nGetKey d (j - 1) ∧
      nGetValuePageID (insertInternal d key v).2 j = nGetValuePageID d (j - 1)) := by
  have hcap : nMaxCapacity d = 254 := nMaxCapacity_internal d hint
  have hn254 : nGetNumKeys d < 254 := by omega
  have hidxle : sortSearch (nGetNumKeys d) (fun i => decide (nGetKey d i ≥ key))
      ≤ nGetNumKeys d := sortSearch_le _ _
  unfold insertInternal copyWithin NodeHeaderSize
  rw [if_neg (by omega)]
  dsimp only
  set n := nGetNumKeys d with hndef
  set idx := sortSearch n (fun i => decide (nGetKey d i ≥ key)) with hidxdef
  set d1 := copyFrom d (24 + idx * 16 + 16) d (24 + idx * 16) ((n - idx) * 16) with hd1def
  set d2 := nSetKey d1 idx key with hd2def
  set d3 := nSetValuePageID d2 idx v with hd3def
  have hLd1 : nIsLeaf d1 = false := by
    rw [hd1def, nIsLeaf_eq_of_agree _ d
      (fun j hj => copyFrom_apply_outside d d _ _ _ j (by omega))]
    exact hint
  have hKd1 : nKeyOffset d1 idx = 24 + idx * 16 := nKeyOffset_of_internal d1 hLd1 idx
  have hLd2 : nIsLeaf d2 = false := by
    rw [hd2def, nIsLeaf_eq_of_agree _ d1
      (fun j hj => nSetKey_apply_outside d1 idx key j (by rw [hKd1]; omega))]
    exact hLd1
  have hVd2 : nValueOffset d2 idx = 24 + idx * 16 + 8 := by
    unfold nValueOffset
    rw [nKeyOffset_of_internal d2 hLd2 idx]
  have hLd3 : nIsLeaf d3 = false := by
    rw [hd3def, nIsLeaf_eq_of_agree _ d2
      (fun j hj => nSetValuePageID_apply_outside d2 idx v j (by rw [hVd2]; omega))]
    exact hLd2
  have hLB : nIsLeaf (nSetNumKeys d3 (n + 1)) = false := by
    rw [nIsLeaf_eq_of_agree _ d3
      (fun j hj => nSetNumKeys_apply_outside d3 (n + 1) j (by omega))]
    exact hLd3
  have hbody : ∀ i, 24 ≤ i → i < 24 + idx * 16 → nSetNumKeys d3 (n + 1) i = d i := by
    intro i hi1 hi2
    rw [nSetNumKeys_apply_outside d3 (n + 1) i (by omega),
      hd3def, nSetValuePageID_apply_outside d2 idx v i (by rw [hVd2]; omega),
      hd2def, nSetKey_apply_outside d1 idx key i (by rw [hKd1]; omega),
      hd1def, copyFrom_apply_outside d d _ _ _ i (by omega)]
  have hbodyHigh : ∀ i, 24 + idx * 16 + 16 ≤ i → i < 24 + (n + 1) * 16 →
      nSetNumKeys d3 (n + 1) i = d (i - 16) := by
    intro i hi1 hi2
    rw [nSetNumKeys_apply_outside d3 (n + 1) i (by omega),
      hd3def, nSetValuePageID_apply_outside d2 idx v i (by rw [hVd2]; omega),
      hd2def, nSetKey_apply_outside d1 idx key i (by rw [hKd1]; omega), hd1def]
    show copyFrom d (24 + idx * 16 + 16) d (24 + idx * 16) ((n - idx) * 16) i = d (i - 16)
    unfold copyFrom
    rw [if_pos (by omega)]
    congr 1
    omega
  refine ⟨rfl, hLB, nGetNumKeys_set d3 (n + 1) (by omega), ?_, ?_, ?_⟩
  · intro j hj
    constructor
    · unfold nGetKey
      rw [nKeyOffset_of_internal _ hLB j, nKeyOffset_of_internal d hint j]
      apply readI64_agree
      intro i hi1 hi2
      exact hbody i (by omega) (by omega)
    · unfold nGetValuePageID nValueOffset
      rw [nKeyOffset_of_internal _ hLB j, nKeyOffset_of_internal d hint j]
      apply readI64_agree
      intro i hi1 hi2
      exact hbody i (by omega) (by omega)
  · constructor
    · unfold nGetKey
      rw [nKeyOffset_of_internal _ hLB idx]
      have hstep : readI64 (nSetNumKeys d3 (n + 1)) (24 + idx * 16)
          = readI64 d2 (24 + idx * 16) := by
        apply readI64_agree
        intro i hi1 hi2
        rw [nSetNumKeys_apply_outside d3 (n + 1) i (by omega),
          hd3def, nSetValuePageID_apply_outside d2 idx v i (by rw [hVd2]; omega)]
      rw [hstep, hd2def]
      unfold nSetKey
      rw [hKd1]
      exact readI64_writeI64 d1 (24 + idx * 16) key hk1 hk2
    · unfold nGetValuePageID nValueOffset
      rw [nKeyOffset_of_internal _ hLB idx]
      have hstep : readI64 (nSetNumKeys d3 (n + 1)) (24 + idx * 16 + 8)
          = readI64 d3 (24 + idx * 16 + 8) := by
        apply readI64_agree
        intro i hi1 hi2
        rw [nSetNumKeys_apply_outside d3 (n + 1) i (by omega)]
      rw [hstep, hd3def]
      unfold nSetValuePageID
      rw [hVd2]
      exact readI64_writeI64 d2 (24 + idx * 16 + 8) v hv1 hv2
  · intro j hj1 hj2
    have hchain : ∀ (off w : Nat), 24 + idx * 16 + 16 ≤ off → off + w ≤ 24 + (n + 1) * 16 →
        readBE (nSetNumKeys d3 (n + 1)) off w = readBE d (off - 16) w := by
      intro off w hoff hw
      have : ∀ k, k < w → nSetNumKeys d3 (n + 1) (off + k) = d (off - 16 + k) := by
        intro k hk
        rw [hbodyHigh (off + k) (by omega) (by omega)]
        congr 1
        omega
      induction w with
      | zero => rfl
      | succ w ihw =>
        show readBE _ off w * 256 + readByte _ (off + w)
            = readBE d (off - 16) w * 256 + readByte d (off - 16 + w)
        rw [ihw (by omega) (fun k hk => this k (by omega))]
        unfold readByte
        rw [this w (by omega)]
    constructor
    · unfold nGetKey
      rw [nKeyOffset_of_internal _ hLB j, nKeyOffset_of_internal d hint (j - 1)]
      unfold readI64
      rw [hchain (24 + j * 16) 8 (by omega) (by omega)]
      rw [show 24 + j * 16 - 16 = 24 + (j - 1) * 16 by omega]
    · unfold nGetValuePageID nValueOffset
      rw [nKeyOffset_of_internal _ hLB j, nKeyOffset_of_internal d hint (j - 1)]
      unfold readI64
      rw [hchain (24 + j * 16 + 8) 8 (by omega) (by omega)]
      rw [show 24 + j * 16 + 8 - 16 = 24 + (j - 1) * 16 + 8 by omega]

theorem sortSearch_zero (f : Nat → Bool) : sortSearch 0 f = 0 :=
  Nat.le_zero.mp (sortSearch_le 0 f)

theorem sortSearch_one_of_false (f : Nat → Bool) (h : f 0 = false) : sortSearch 1 f = 1 := by
  obtain ⟨c1, c2, c3⟩ := sortSearch_spec 1 f (by
    intro a b hab hb hfa
    have ha : a = b := by omega
    rwa [ha] at hfa)
  rcases Nat.lt_or_ge (sortSearch 1 f) 1 with hlt | hge
  · have h0 := c3 0 (by omega) (by omega)
    rw [h] at h0
    exact absurd h0 (by simp)
  · omega

theorem minKeySentinel_le (d : Bytes) (off : Nat) : MinKeySentinel ≤ readI64 d off := by
  have := readI64_range d off
  unfold MinKeySentinel
  omega

theorem newRoot_node_spec (oldRootID key childPid : Int)
    (ho1 : -(2 ^ 63) ≤ oldRootID) (ho2 : oldRootID < 2 ^ 63)
    (hc1 : -(2 ^ 63) ≤ childPid) (hc2 : childPid < 2 ^ 63)
    (hk : MinKeySentinel < key) (hk2 : key < 2 ^ 63) :
    nIsLeaf (insertInternal (insertInternal (nInit zeroBytes NodeTypeInternal)
        MinKeySentinel oldRootID).2 key childPid).2 = false ∧
    nGetNumKeys (insertInternal (insertInternal (nInit zeroBytes NodeTypeInternal)
        MinKeySentinel oldRootID).2 key childPid).2 = 2 ∧
    nGetKey (insertInternal (insertInternal (nInit zeroBytes NodeTypeInternal)
        MinKeySentinel oldRootID).2 key childPid).2 0 = MinKeySentinel ∧
    nGetValuePageID (insertInternal (insertInternal (nInit zeroBytes NodeTypeInternal)
        MinKeySentinel oldRootID).2 key childPid).2 0 = oldRootID ∧
    nGetKey (insertInternal (insertInternal (nInit zeroBytes NodeTypeInternal)
        MinKeySentinel oldRootID).2 key childPid).2 1 = key ∧
    nGetValuePageID (insertInternal (insertInternal (nInit zeroBytes NodeTypeInternal)
        MinKeySentinel oldRootID).2 key childPid).2 1 = childPid := by
  have hmin1 : -(2 ^ 63) ≤ MinKeySentinel := by unfold MinKeySentinel; omega
  have hmin2 : MinKeySentinel < 2 ^ 63 := by unfold MinKeySentinel; norm_num
  set d0 := nInit zeroBytes NodeTypeInternal with hd0def
  have hL0 : nIsLeaf d0 = false := nInit_internal_not_leaf zeroBytes
  have hN0 : nGetNumKeys d0 = 0 := nInit_numKeys zeroBytes NodeTypeInternal
  obtain ⟨s1a, s1b, s1c, s1d, s1e, s1f⟩ := insertInternal_spec d0 MinKeySentinel oldRootID
    hL0 (by rw [hN0, nMaxCapacity_internal d0 hL0]; omega) hmin1 hmin2 ho1 ho2
  set D1 := (insertInternal d0 MinKeySentinel oldRootID).2 with hD1def
  rw [hN0, sortSearch_zero] at s1e
  have hLD1 : nIsLeaf D1 = false := s1b
  have hND1 : nGetNumKeys D1 = 1 := by rw [s1c, hN0]
  have hkey0 : nGetKey D1 0 = MinKeySentinel := s1e.1
  have hval0 : nGetValuePageID D1 0 = oldRootID := s1e.2
  obtain ⟨s2a, s2b, s2c, s2d, s2e, s2f⟩ := insertInternal_spec D1 key childPid
    hLD1 (by rw [hND1, nMaxCapacity_internal D1 hLD1]; omega)
    (by unfold MinKeySentinel at hk; omega) hk2 hc1 hc2
  have hidx1 : sortSearch (nGetNumKeys D1) (fun i => decide (nGetKey D1 i ≥ key)) = 1 := by
    rw [hND1]
    apply sortSearch_one_of_false
    show decide (nGetKey D1 0 ≥ key) = false
    rw [hkey0]
    exact decide_eq_false (by omega)
  rw [hidx1] at s2d s2e
  refine ⟨s2b, by rw [s2c, hND1], ?_, ?_, s2e.1, s2e.2⟩
  · rw [(s2d 0 (by omega)).1, hkey0]
  · rw [(s2d 0 (by omega)).2, hval0]

theorem leafFindFrom_found (d : Bytes) (key : Int) :
    ∀ (rem i : Nat), (∃ t, t < rem ∧ nGetKey d (i + t) = key) →
      ∃ s, i ≤ s ∧ s < i + rem ∧ nGetKey d s = key ∧
        (∀ t, i ≤ t → t < s → nGetKey d t ≠ key) ∧
        leafFindFrom d key i rem = some (nGetValueRID d s) := by
  intro rem
  induction rem with
  | zero =>
    intro i h
    obtain ⟨t, ht, _⟩ := h
    omega
  | succ rem ih =>
    intro i h
    unfold leafFindFrom
    by_cases h0 : nGetKey d i = key
    · rw [if_pos h0]
      exact ⟨i, le_refl i, by omega, h0, fun t ht1 ht2 => by omega, rfl⟩
    · rw [if_neg h0]
      obtain ⟨t, ht, heq⟩ := h
      have ht0 : t ≠ 0 := by
        intro h00
        rw [h00, Nat.add_zero] at heq
        exact h0 heq
      obtain ⟨s, hs1, hs2, hs3, hs4, hs5⟩ := ih (i + 1)
        ⟨t - 1, by omega, by rw [show i + 1 + (t - 1) = i + t by omega]; exact heq⟩
      refine ⟨s, by omega, by omega, hs3, ?_, hs5⟩
      intro u hu1 hu2
      by_cases hui : u = i
      · rw [hui]; exact h0
      · exact hs4 u (by omega) hu2

theorem leafFindFrom_none (d : Bytes) (key : Int) :
    ∀ (rem i : Nat), (∀ t, t < rem → nGetKey d (i + t) ≠ key) →
      leafFindFrom d key i rem = none := by
  intro rem
  induction rem with
  | zero => intro i _; rfl
  | succ rem ih =>
    intro i h
    unfold leafFindFrom
    rw [if_neg (by
      have := h 0 (by omega)
      rwa [Nat.add_zero] at this)]
    apply ih
    intro t ht
    rw [show i + 1 + t = i + (t + 1) by omega]
    exact h (t + 1) (by omega)

theorem childScan_found (d : Bytes) (key : Int) :
    ∀ (cnt : Nat), (∃ i, i < cnt ∧ nGetKey d i ≤ key) →
      ∃ g, g < cnt ∧ nGetKey d g ≤ key ∧
        (∀ t, g < t → t < cnt → key < nGetKey d t) ∧
        childScan d key cnt = nGetValuePageID d g := by
  intro cnt
  induction cnt with
  | zero =>
    intro h
    obtain ⟨i, hi, _⟩ := h
    omega
  | succ cnt ih =>
    intro h
    unfold childScan
    by_cases htop : key ≥ nGetKey d cnt
    · rw [if_pos htop]
      exact ⟨cnt, by omega, htop, fun t ht1 ht2 => by omega, rfl⟩
    · rw [if_neg htop]
      push_neg at htop
      obtain ⟨i, hi, hikey⟩ := h
      have hicnt : i ≠ cnt := by
        intro he
        rw [he] at hikey
        omega
      obtain ⟨g, hg1, hg2, hg3, hg4⟩ := ih ⟨i, by omega, hikey⟩
      refine ⟨g, by omega, hg2, ?_, hg4⟩
      intro t ht1 ht2
      by_cases htc : t = cnt
      · rw [htc]; exact htop
      · exact hg3 t ht1 (by omega)

theorem childScan_none (d : Bytes) (key : Int) :
    ∀ (cnt : Nat), (∀ i, i < cnt → key < nGetKey d i) →
      childScan d key cnt = -1 := by
  intro cnt
  induction cnt with
  | zero => intro _; rfl
  | succ cnt ih =>
    intro h
    unfold childScan
    rw [if_neg (by
      have := h cnt (by omega)
      omega)]
    exact ih (fun i hi => h i (by omega))

theorem btSearch_leaf_step (st : Store) (key : Int) (pid : Int) (fuel : Nat)
    (hleaf : nIsLeaf (st.pages pid) = true) :
    btSearch st key pid (fuel + 1)
      = match leafFindFrom (st.pages pid) key 0 (nGetNumKeys (st.pages pid)) with
        | some rid => SearchResult.found rid
        | none => SearchResult.notFound := by
  unfold btSearch
  rw [if_pos hleaf]

theorem btSearch_internal_step (st : Store) (key : Int) (pid : Int) (fuel : Nat)
    (hint : nIsLeaf (st.pages pid) = false)
    (hc : searchChild (st.pages pid) key ≠ -1) :
    btSearch st key pid (fuel + 1)
      = btSearch st key (searchChild (st.pages pid) key) fuel := by
  conv_lhs => unfold btSearch
  rw [if_neg (by rw [hint]; simp), if_neg hc]

/-- C5: for every key, `BTreeIndex.Search` descends from the root as follows:
at an internal node (with a non-empty key array and real child pointers) it
follows the child at the greatest index `i` with `keys[i] ≤ key`, falling back
to child 0 when no key satisfies this; at a leaf it returns the stored RID of
the first exact match when some leaf key equals the search key, and
`ErrNotFound` otherwise. -/
theorem C5_search_descent (st : Store) (key : Int) (pid : Int) (fuel : Nat) :
    (nIsLeaf (st.pages pid) = true →
      ((∃ t, t < nGetNumKeys (st.pages pid) ∧ nGetKey (st.pages pid) t = key) →
        ∃ s, s < nGetNumKeys (st.pages pid) ∧ nGetKey (st.pages pid) s = key ∧
          (∀ t, t < s → nGetKey (st.pages pid) t ≠ key) ∧
          btSearch st key pid (fuel + 1)
            = SearchResult.found (nGetValueRID (st.pages pid) s)) ∧
      ((∀ t, t < nGetNumKeys (st.pages pid) → nGetKey (st.pages pid) t ≠ key) →
        btSearch st key pid (fuel + 1) = SearchResult.notFound)) ∧
    (nIsLeaf (st.pages pid) = false →
      (∀ i, i < nGetNumKeys (st.pages pid) → nGetValuePageID (st.pages pid) i ≠ -1) →
      ((∃ i, i < nGetNumKeys (st.pages pid) ∧ nGetKey (st.pages pid) i ≤ key) →
        ∃ g, g < nGetNumKeys (st.pages pid) ∧ nGetKey (st.pages pid) g ≤ key ∧
          (∀ t, g < t → t < nGetNumKeys (st.pages pid) →
            key < nGetKey (st.pages pid) t) ∧
          btSearch st key pid (fuel + 1)
            = btSearch st key (nGetValuePageID (st.pages pid) g) fuel) ∧
      (0 < nGetNumKeys (st.pages pid) →
        (∀ i, i < nGetNumKeys (st.pages pid) → key < nGetKey (st.pages pid) i) →
        btSearch st key pid (fuel + 1)
          = btSearch st key (nGetValuePageID (st.pages pid) 0) fuel)) := by
  constructor
  · intro hleaf
    constructor
    · intro hex
      obtain ⟨s, hs0, hs1, hs2, hs3, hs4⟩ := leafFindFrom_found (st.pages pid) key
        (nGetNumKeys (st.pages pid)) 0
        (by obtain ⟨t, ht, h⟩ := hex; exact ⟨t, ht, by simpa using h⟩)
      refine ⟨s, by omega, hs2, fun t ht => hs3 t (by omega) ht, ?_⟩
      rw [btSearch_leaf_step st key pid fuel hleaf, hs4]
    · intro hnone
      rw [btSearch_leaf_step st key pid fuel hleaf,
        leafFindFrom_none (st.pages pid) key _ 0
          (fun t ht => by simpa using hnone t ht)]
  · intro hint hvals
    constructor
    · intro hex
      obtain ⟨g, hg1, hg2, hg3, hg4⟩ := childScan_found (st.pages pid) key _ hex
      have hcg : searchChild (st.pages pid) key = nGetValuePageID (st.pages pid) g := by
        unfold searchChild
        rw [hg4, if_neg (by
          intro hand
          exact hvals g hg1 hand.1)]
      refine ⟨g, hg1, hg2, hg3, ?_⟩
      rw [btSearch_internal_step st key pid fuel hint
        (by rw [hcg]; exact hvals g hg1), hcg]
    · intro hpos hnone
      have hscan := childScan_none (st.pages pid) key _ hnone
      have hcg : searchChild (st.pages pid) key = nGetValuePageID (st.pages pid) 0 := by
        unfold searchChild
        rw [hscan, if_pos ⟨rfl, hpos⟩]
      rw [btSearch_internal_step st key pid fuel hint
        (by rw [hcg]; exact hvals 0 (by omega)), hcg]

/-- Witness for C5 at a concrete one-key leaf: searching for the stored key 5
returns its RID, and searching for the absent key 7 reports not-found. -/
theorem C5_search_descent_witness :
    btSearch c5Store 5 0 1 = SearchResult.found ⟨3, 4⟩ ∧
    btSearch c5Store 7 0 1 = SearchResult.notFound := by
  constructor
  · obtain ⟨s, hs1, hs2, hs3, hs4⟩ :=
      ((C5_search_descent c5Store 5 0 0).1 (by decide)).1 ⟨0, by decide, by decide⟩
    have hn : nGetNumKeys (c5Store.pages 0) = 1 := by decide
    rw [hn] at hs1
    have hs0 : s = 0 := by omega
    rw [hs0] at hs4
    rw [hs4]
    decide
  · exact ((C5_search_descent c5Store 7 0 0).1 (by decide)).2 (by decide)

/-- C3: when the leaf that split was the root, `insertIntoParent` allocates a
new internal root (the next page id) holding exactly two entries —
`(MinKeySentinel, old root id)` and `(separator, new child id)` in that
order — leaves every other page untouched, and returns the new page as the
new `rootPageID`; afterwards `Search` from the new root succeeds on every key
still present in either leaf (stated for leaves that respect the separator:
every key of the old root is below it, every key of the new sibling at or
above it). -/
theorem C3_root_split (st : Store) (L R sep : Int)
    (hL0 : 0 ≤ L) (hLlt : L < st.nextId) (hL2 : L < 2 ^ 63)
    (hR0 : 0 ≤ R) (hRlt : R < st.nextId) (hR2 : R < 2 ^ 63)
    (hsep1 : MinKeySentinel < sep) (hsep2 : sep < 2 ^ 63)
    (hleafL : nIsLeaf (st.pages L) = true)
    (hleafR : nIsLeaf (st.pages R) = true)
    (hsepL : ∀ t, t < nGetNumKeys (st.pages L) → nGetKey (st.pages L) t < sep)
    (hsepR : ∀ t, t < nGetNumKeys (st.pages R) → sep ≤ nGetKey (st.pages R) t) :
    (insertIntoParentRoot st L sep R).2 = st.nextId ∧
    (∀ q, q ≠ st.nextId → (insertIntoParentRoot st L sep R).1.pages q = st.pages q) ∧
    (nIsLeaf ((insertIntoParentRoot st L sep R).1.pages st.nextId) = false ∧
      nGetNumKeys ((insertIntoParentRoot st L sep R).1.pages st.nextId) = 2 ∧
      nGetKey ((insertIntoParentRoot st L sep R).1.pages st.nextId) 0 = MinKeySentinel ∧
      nGetValuePageID ((insertIntoParentRoot st L sep R).1.pages st.nextId) 0 = L ∧
      nGetKey ((insertIntoParentRoot st L sep R).1.pages st.nextId) 1 = sep ∧
      nGetValuePageID ((insertIntoParentRoot st L sep R).1.pages st.nextId) 1 = R) ∧
    (∀ key, -(2 ^ 63) ≤ key → key < 2 ^ 63 →
      ((∃ t, t < nGetNumKeys (st.pages L) ∧ nGetKey (st.pages L) t = key) ∨
        (∃ t, t < nGetNumKeys (st.pages R) ∧ nGetKey (st.pages R) t = key)) →
      ∃ r, btSearch (insertIntoParentRoot st L sep R).1 key st.nextId 2
        = SearchResult.found r) := by
  have hrootPage : (insertIntoParentRoot st L sep R).1.pages st.nextId
      = (insertInternal (insertInternal (nInit zeroBytes NodeTypeInternal)
          MinKeySentinel L).2 sep R).2 := by
    dsimp only [insertIntoParentRoot, Store.update, Store.allocPage]
    rw [if_pos rfl]
  have hframe : ∀ q, q ≠ st.nextId →
      (insertIntoParentRoot st L sep R).1.pages q = st.pages q := by
    intro q hq
    dsimp only [insertIntoParentRoot, Store.update, Store.allocPage]
    rw [if_neg hq, if_neg hq]
  obtain ⟨nf1, nf2, nf3, nf4, nf5, nf6⟩ := newRoot_node_spec L sep R
    (le_trans (by norm_num) hL0) hL2 (le_trans (by norm_num) hR0) hR2 hsep1 hsep2
  set rootD := (insertInternal (insertInternal (nInit zeroBytes NodeTypeInternal)
      MinKeySentinel L).2 sep R).2 with hrootDdef
  refine ⟨rfl, hframe, ⟨by rw [hrootPage]; exact nf1, by rw [hrootPage]; exact nf2,
    by rw [hrootPage]; exact nf3, by rw [hrootPage]; exact nf4,
    by rw [hrootPage]; exact nf5, by rw [hrootPage]; exact nf6⟩, ?_⟩
  intro key hk1 hk2 hpres
  have hminle : MinKeySentinel ≤ key := by unfold MinKeySentinel; omega
  have hstep2 : childScan rootD key 2
      = if key ≥ nGetKey rootD 1 then nGetValuePageID rootD 1
        else childScan rootD key 1 := rfl
  have hstep1 : childScan rootD key 1
      = if key ≥ nGetKey rootD 0 then nGetValuePageID rootD 0
        else childScan rootD key 0 := rfl
  have hsc : searchChild rootD key = if sep ≤ key then R else L := by
    unfold searchChild
    rw [nf2, hstep2]
    by_cases hks : sep ≤ key
    · rw [if_pos (show key ≥ nGetKey rootD 1 by rw [nf5]; omega), nf6,
        if_neg (show ¬(R = -1 ∧ 0 < 2) by omega), if_pos hks]
    · rw [if_neg (show ¬ key ≥ nGetKey rootD 1 by rw [nf5]; omega), hstep1,
        if_pos (show key ≥ nGetKey rootD 0 by rw [nf3]; omega), nf4,
        if_neg (show ¬(L = -1 ∧ 0 < 2) by omega), if_neg hks]
  have hint2 : nIsLeaf ((insertIntoParentRoot st L sep R).1.pages st.nextId) = false := by
    rw [hrootPage]; exact nf1
  have hcne : searchChild ((insertIntoParentRoot st L sep R).1.pages st.nextId) key
      ≠ -1 := by
    rw [hrootPage, hsc]
    by_cases hks : sep ≤ key
    · rw [if_pos hks]; omega
    · rw [if_neg hks]; omega
  have hdesc : btSearch (insertIntoParentRoot st L sep R).1 key st.nextId 2
      = btSearch (insertIntoParentRoot st L sep R).1 key (if sep ≤ key then R else L) 1 := by
    rw [btSearch_internal_step (insertIntoParentRoot st L sep R).1 key st.nextId 1
      hint2 hcne, hrootPage, hsc]
  rcases hpres with hl | hr
  · have hklt : key < sep := by
      obtain ⟨t, ht, he⟩ := hl
      have := hsepL t ht
      omega
    have hpagesL : (insertIntoParentRoot st L sep R).1.pages L = st.pages L :=
      hframe L (by omega)
    obtain ⟨s, hsa, hsb, hsc2, hsd, hs5⟩ := leafFindFrom_found (st.pages L) key
      (nGetNumKeys (st.pages L)) 0
      (by obtain ⟨t, ht, he⟩ := hl; exact ⟨t, ht, by simpa using he⟩)
    refine ⟨nGetValueRID (st.pages L) s, ?_⟩
    rw [hdesc, if_neg (show ¬ sep ≤ key by omega),
      btSearch_leaf_step (insertIntoParentRoot st L sep R).1 key L 0
        (by rw [hpagesL]; exact hleafL),
      hpagesL, hs5]
  · have hkge : sep ≤ key := by
      obtain ⟨t, ht, he⟩ := hr
      have := hsepR t ht
      omega
    have hpagesR : (insertIntoParentRoot st L sep R).1.pages R = st.pages R :=
      hframe R (by omega)
    obtain ⟨s, hsa, hsb, hsc2, hsd, hs5⟩ := leafFindFrom_found (st.pages R) key
      (nGetNumKeys (st.pages R)) 0
      (by obtain ⟨t, ht, he⟩ := hr; exact ⟨t, ht, by simpa using he⟩)
    refine ⟨nGetValueRID (st.pages R) s, ?_⟩
    rw [hdesc, if_pos hkge,
      btSearch_leaf_step (insertIntoParentRoot st L sep R).1 key R 0
        (by rw [hpagesR]; exact hleafR),
      hpagesR, hs5]

/-- Witness for C3 at a concrete store: two one-key leaves (pages 0 and 1,
keys 2 and 9, separator 9); growing a new root yields page 2 with the two
claimed entries, and searching either stored key through the new root
succeeds. -/
theorem C3_root_split_witness :
    (insertIntoParentRoot c3Store 0 9 1).2 = 2 ∧
    nGetNumKeys ((insertIntoParentRoot c3Store 0 9 1).1.pages 2) = 2 ∧
    nGetKey ((insertIntoParentRoot c3Store 0 9 1).1.pages 2) 1 = 9 ∧
    (∃ r, btSearch (insertIntoParentRoot c3Store 0 9 1).1 2 2 2 = SearchResult.found r) ∧
    (∃ r, btSearch (insertIntoParentRoot c3Store 0 9 1).1 9 2 2 = SearchResult.found r) := by
  obtain ⟨h1, h2, h3, h4⟩ := C3_root_split c3Store 0 1 9 (by decide) (by decide)
    (by decide) (by decide) (by decide) (by decide) (by decide) (by decide)
    (by decide) (by decide) (by decide) (by decide)
  exact ⟨h1, h3.2.1, h3.2.2.2.2.1,
    h4 2 (by decide) (by decide) (Or.inl ⟨0, by decide, by decide⟩),
    h4 9 (by decide) (by decide) (Or.inr ⟨0, by decide, by decide⟩)⟩

theorem map_range_splice (g g' : Nat → Int) (n I : Nat) (key : Int) (hI : I ≤ n)
    (hlow : ∀ j, j < I → g' j = g j)
    (hat : g' I = key)
    (hhigh : ∀ j, I < j → j ≤ n → g' j = g (j - 1)) :
    (List.range (n + 1)).map g'
      = (List.range I).map g ++ key :: (List.range (n - I)).map (fun j => g (I + j)) := by
  have h1 : n + 1 = I + (n - I + 1) := by omega
  rw [h1, List.range_add, List.map_append, List.map_map]
  congr 1
  · exact List.map_congr_left (fun a ha => hlow a (List.mem_range.mp ha))
  · have h2 : n - I + 1 = 1 + (n - I) := by omega
    rw [h2, List.range_add, List.map_append, List.map_map]
    have hr1 : List.range 1 = [0] := by decide
    rw [hr1]
    simp only [List.map_cons, List.map_nil, Function.comp]
    rw [Nat.add_zero, hat, List.singleton_append]
    congr 1
    apply List.map_congr_left
    intro a ha
    have haI : a < n - I := List.mem_range.mp ha
    show g' (I + (1 + a)) = g (I + a)
    rw [hhigh (I + (1 + a)) (by omega) (by omega)]
    congr 1
    omega

theorem map_range_add_chunk (g : Nat → Int) (a b : Nat) :
    (List.range (a + b)).map g
      = (List.range a).map g ++ (List.range b).map (fun j => g (a + j)) := by
  rw [List.range_add, List.map_append, List.map_map]
  rfl

theorem map_range_split_shift (g : Nat → Int) (I a b : Nat) (hI : I ≤ a) :
    (List.range (a + b - I)).map (fun j => g (I + j))
      = (List.range (a - I)).map (fun j => g (I + j))
        ++ (List.range b).map (fun j => g (a + j)) := by
  rw [show a + b - I = (a - I) + b by omega,
    map_range_add_chunk (fun j => g (I + j)) (a - I) b]
  congr 1
  apply List.map_congr_left
  intro t ht
  show g (I + (a - I + t)) = g (a + t)
  congr 1
  omega

theorem splice_perm (g : Nat → Int) (n I : Nat) (key : Int) (hI : I ≤ n) :
    ((List.range I).map g ++ key :: (List.range (n - I)).map (fun j => g (I + j))).Perm
      (key :: (List.range n).map g) := by
  have h1 : n = I + (n - I) := by omega
  have hsplit : (List.range n).map g
      = (List.range I).map g ++ (List.range (n - I)).map (fun j => g (I + j)) := by
    conv_lhs => rw [h1]
    exact map_range_add_chunk g I (n - I)
  rw [hsplit]
  exact List.perm_middle

theorem splice_sorted (g : Nat → Int) (n I : Nat) (key : Int) (hI : I ≤ n)
    (hmono : ∀ a b, a < b → b < n → g a < g b)
    (hlo : ∀ j, j < I → g j < key)
    (hhi : ∀ j, I ≤ j → j < n → key < g j) :
    ((List.range I).map g ++ key :: (List.range (n - I)).map (fun j => g (I + j))).Pairwise
      (fun a b => a < b) := by
  rw [List.pairwise_append]
  refine ⟨?_, ?_, ?_⟩
  · rw [List.pairwise_map]
    exact (List.pairwise_lt_range I).imp_of_mem
      (fun ha hb hab => hmono _ _ hab (by have := List.mem_range.mp hb; omega))
  · rw [List.pairwise_cons]
    constructor
    · intro b hb
      rw [List.mem_map] at hb
      obtain ⟨j, hj, rfl⟩ := hb
      exact hhi (I + j) (by omega) (by have := List.mem_range.mp hj; omega)
    · rw [List.pairwise_map]
      exact (List.pairwise_lt_range (n - I)).imp_of_mem
        (fun ha hb hab => hmono _ _ (by omega)
          (by have := List.mem_range.mp hb; omega))
  · intro a ha b hb
    rw [List.mem_map] at ha
    obtain ⟨j, hj, rfl⟩ := ha
    have hjI : j < I := List.mem_range.mp hj
    rcases List.mem_cons.mp hb with hb1 | hb2
    · rw [hb1]
      exact hlo j hjI
    · rw [List.mem_map] at hb2
      obtain ⟨k, hk, rfl⟩ := hb2
      have hkI : k < n - I := List.mem_range.mp hk
      exact hmono j (I + k) (by omega) (by omega)

theorem insertLeaf_nodeKeys (d0 : Bytes) (key : Int) (rid : RID) (m : Nat)
    (hleaf : nIsLeaf d0 = true) (hm : nGetNumKeys d0 = m) (hmlt : m < 203)
    (hk1 : -(2 ^ 63) ≤ key) (hk2 : key < 2 ^ 63)
    (hmono : ∀ a b, a ≤ b → b < m → nGetKey d0 a ≥ key → nGetKey d0 b ≥ key) :
    ∃ I, I ≤ m ∧
      (∀ k, k < I → nGetKey d0 k < key) ∧
      (∀ k, I ≤ k → k < m → nGetKey d0 k ≥ key) ∧
      nGetNumKeys (insertLeaf d0 key rid).2 = m + 1 ∧
      nodeKeys (insertLeaf d0 key rid).2
        = (List.range I).map (nGetKey d0) ++ key ::
          (List.range (m - I)).map (fun j => nGetKey d0 (I + j)) := by
  obtain ⟨s1, s2, s3, s4, s5, s6⟩ := insertLeaf_spec d0 key rid hleaf
    (by rw [nMaxCapacity_leaf d0 hleaf]; omega) hk1 hk2
  rw [hm] at s3 s4 s5 s6
  obtain ⟨hle, hlowF, hhighF⟩ := sortSearch_spec m (fun i => decide (nGetKey d0 i ≥ key))
    (by
      intro a b hab hb hfa
      simp only [decide_eq_true_eq] at hfa ⊢
      exact hmono a b hab hb hfa)
  refine ⟨sortSearch m (fun i => decide (nGetKey d0 i ≥ key)), hle, ?_, ?_, by rw [s3], ?_⟩
  · intro k hk
    have := hlowF k hk
    simp only [decide_eq_false_iff_not] at this
    omega
  · intro k hka hkb
    have := hhighF k hka hkb
    simp only [decide_eq_true_eq] at this
    exact this
  · unfold nodeKeys
    rw [s3]
    exact map_range_splice (nGetKey d0) (nGetKey (insertLeaf d0 key rid).2) m
      (sortSearch m (fun i => decide (nGetKey d0 i ≥ key))) key hle s4 s5 s6

/-- C1 counterexample: the code's `MaxCapacity` for a freshly initialized
leaf node is `(4096 − 24) / 20 = 203`, not the 254 the spec states; 254 is
the capacity of an internal node (pair size 16) only. -/
theorem C1_counterexample :
    nMaxCapacity (nInit zeroBytes NodeTypeLeaf) = 203 ∧
    nMaxCapacity (nInit zeroBytes NodeTypeInternal) = 254 ∧
    nMaxCapacity (nInit zeroBytes NodeTypeLeaf) ≠ 254 := by decide

set_option maxHeartbeats 2000000

/-- C1 (corrected): a leaf's capacity is `(4096 − 24) / 20 = 203` entries
(the spec's 254 holds only for internal nodes); a leaf holding 203 strictly
increasing keys rejects a further `InsertLeaf` of a fresh key, and the
`Insert` split path (`SplitLeaf` then `InsertLeaf` into the proper half)
yields two leaves that together hold all 204 keys — the 203 old ones plus
the new one — in ascending order with none lost. -/
theorem C1_leaf_capacity_split (d : Bytes) (newPid key : Int) (rid : RID)
    (hleaf : nIsLeaf d = true)
    (hn : nGetNumKeys d = 203)
    (hsorted : ∀ a b, a < b → b < 203 → nGetKey d a < nGetKey d b)
    (hk1 : -(2 ^ 63) ≤ key) (hk2 : key < 2 ^ 63)
    (hne : ∀ t, t < 203 → nGetKey d t ≠ key) :
    nMaxCapacity d = 203 ∧
    insertLeaf d key rid = (false, d) ∧
    nGetNumKeys (insertSplitPath d newPid key rid).1
      + nGetNumKeys (insertSplitPath d newPid key rid).2.1 = 204 ∧
    (nodeKeys (insertSplitPath d newPid key rid).1
      ++ nodeKeys (insertSplitPath d newPid key rid).2.1).Perm (key :: nodeKeys d) ∧
    (nodeKeys (insertSplitPath d newPid key rid).1
      ++ nodeKeys (insertSplitPath d newPid key rid).2.1).Pairwise
      (fun a b => a < b) := by
  have hcap : nMaxCapacity d = 203 := nMaxCapacity_leaf d hleaf
  have hfull : insertLeaf d key rid = (false, d) := insertLeaf_full d key rid (by omega)
  have h101 : nGetNumKeys d / 2 = 101 := by omega
  have hLleaf : nIsLeaf (splitLeaf d zeroBytes newPid).1 = true :=
    splitLeaf_left_isLeaf d zeroBytes newPid hleaf
  have hRleaf : nIsLeaf (splitLeaf d zeroBytes newPid).2.1 = true :=
    splitLeaf_right_isLeaf d zeroBytes newPid
  have hLnum : nGetNumKeys (splitLeaf d zeroBytes newPid).1 = 101 := by
    rw [splitLeaf_left_numKeys]
    omega
  have hRnum : nGetNumKeys (splitLeaf d zeroBytes newPid).2.1 = 102 := by
    rw [splitLeaf_right_numKeys]
    omega
  have hLkey : ∀ j, nGetKey (splitLeaf d zeroBytes newPid).1 j = nGetKey d j :=
    fun j => splitLeaf_left_key d zeroBytes newPid hleaf j
  have hRkey : ∀ j, j < 102 → nGetKey (splitLeaf d zeroBytes newPid).2.1 j
      = nGetKey d (101 + j) := by
    intro j hj
    rw [splitLeaf_right_key d zeroBytes newPid hleaf j (by omega), h101]
  have hsepEq : (splitLeaf d zeroBytes newPid).2.2 = nGetKey d 101 := by
    rw [splitLeaf_sep]
    have h0 := hRkey 0 (by omega)
    rw [Nat.add_zero] at h0
    exact h0
  have hKL : nodeKeys (splitLeaf d zeroBytes newPid).1
      = (List.range 101).map (nGetKey d) := by
    unfold nodeKeys
    rw [hLnum]
    exact List.map_congr_left (fun a ha => hLkey a)
  have hKR : nodeKeys (splitLeaf d zeroBytes newPid).2.1
      = (List.range 102).map (fun j => nGetKey d (101 + j)) := by
    unfold nodeKeys
    rw [hRnum]
    exact List.map_congr_left (fun a ha => hRkey a (List.mem_range.mp ha))
  have hnodeD : nodeKeys d = (List.range 203).map (nGetKey d) := by
    unfold nodeKeys
    rw [hn]
  by_cases hks : key ≥ (splitLeaf d zeroBytes newPid).2.2
  · have hkey101 : nGetKey d 101 < key := by
      have hne101 := hne 101 (by omega)
      rw [hsepEq] at hks
      omega
    have hpath : insertSplitPath d newPid key rid
        = ((splitLeaf d zeroBytes newPid).1,
          (insertLeaf (splitLeaf d zeroBytes newPid).2.1 key rid).2,
          (splitLeaf d zeroBytes newPid).2.2) := by
      unfold insertSplitPath
      rw [if_pos hks]
    obtain ⟨I, hIle, hIlo, hIhi, hInum, hIkeys⟩ := insertLeaf_nodeKeys
      (splitLeaf d zeroBytes newPid).2.1 key rid 102 hRleaf hRnum (by omega) hk1 hk2
      (by
        intro a b hab hb hga
        rw [hRkey a (by omega)] at hga
        rw [hRkey b hb]
        rcases Nat.eq_or_lt_of_le hab with he | hlt
        · rw [← he]; exact hga
        · have := hsorted (101 + a) (101 + b) (by omega) (by omega)
          omega)
    have e1 : (List.range I).map (nGetKey (splitLeaf d zeroBytes newPid).2.1)
        = (List.range I).map (fun j => nGetKey d (101 + j)) :=
      List.map_congr_left
        (fun a ha => hRkey a (by have := List.mem_range.mp ha; omega))
    have e2 : (List.range (102 - I)).map
          (fun j => nGetKey (splitLeaf d zeroBytes newPid).2.1 (I + j))
        = (List.range (102 - I)).map (fun j => nGetKey d (101 + I + j)) := by
      apply List.map_congr_left
      intro a ha
      have haa := List.mem_range.mp ha
      show nGetKey (splitLeaf d zeroBytes newPid).2.1 (I + a) = nGetKey d (101 + I + a)
      rw [hRkey (I + a) (by omega), show 101 + (I + a) = 101 + I + a by omega]
    have hIkeys2 : nodeKeys (insertLeaf (splitLeaf d zeroBytes newPid).2.1 key rid).2
        = (List.range I).map (fun j => nGetKey d (101 + j)) ++ key ::
          (List.range (102 - I)).map (fun j => nGetKey d (101 + I + j)) := by
      rw [hIkeys, e1, e2]
    have hcomb : nodeKeys (insertSplitPath d newPid key rid).1
        ++ nodeKeys (insertSplitPath d newPid key rid).2.1
        = (List.range (101 + I)).map (nGetKey d) ++ key ::
          (List.range (203 - (101 + I))).map (fun j => nGetKey d (101 + I + j)) := by
      rw [hpath]
      dsimp only
      rw [hKL, hIkeys2, map_range_add_chunk (nGetKey d) 101 I,
        show (203 : Nat) - (101 + I) = 102 - I by omega, List.append_assoc]
    have hlo : ∀ j, j < 101 + I → nGetKey d j < key := by
      intro j hj
      by_cases hj101 : j < 101
      · have := hsorted j 101 hj101 (by omega)
        omega
      · have hk' : j - 101 < I := by omega
        have hx := hIlo (j - 101) hk'
        rw [hRkey (j - 101) (by omega)] at hx
        rw [show 101 + (j - 101) = j by omega] at hx
        exact hx
    have hhi : ∀ j, 101 + I ≤ j → j < 203 → key < nGetKey d j := by
      intro j hj1 hj2
      have hx := hIhi (j - 101) (by omega) (by omega)
      rw [hRkey (j - 101) (by omega)] at hx
      rw [show 101 + (j - 101) = j by omega] at hx
      have := hne j (by omega)
      omega
    refine ⟨hcap, hfull, ?_, ?_, ?_⟩
    · rw [hpath]
      dsimp only
      rw [hLnum, hInum]
    · rw [hcomb, hnodeD]
      exact splice_perm (nGetKey d) 203 (101 + I) key (by omega)
    · rw [hcomb]
      exact splice_sorted (nGetKey d) 203 (101 + I) key (by omega) hsorted hlo hhi
  · have hkey101 : key < nGetKey d 101 := by
      rw [hsepEq] at hks
      omega
    have hpath : insertSplitPath d newPid key rid
        = ((insertLeaf (splitLeaf d zeroBytes newPid).1 key rid).2,
          (splitLeaf d zeroBytes newPid).2.1,
          (splitLeaf d zeroBytes newPid).2.2) := by
      unfold insertSplitPath
      rw [if_neg hks]
    obtain ⟨I, hIle, hIlo, hIhi, hInum, hIkeys⟩ := insertLeaf_nodeKeys
      (splitLeaf d zeroBytes newPid).1 key rid 101 hLleaf hLnum (by omega) hk1 hk2
      (by
        intro a b hab hb hga
        rw [hLkey a] at hga
        rw [hLkey b]
        rcases Nat.eq_or_lt_of_le hab with he | hlt
        · rw [← he]; exact hga
        · have := hsorted a b hlt (by omega)
          omega)
    have e1 : (List.range I).map (nGetKey (splitLeaf d zeroBytes newPid).1)
        = (List.range I).map (nGetKey d) :=
      List.map_congr_left (fun a ha => hLkey a)
    have e2 : (List.range (101 - I)).map
          (fun j => nGetKey (splitLeaf d zeroBytes newPid).1 (I + j))
        = (List.range (101 - I)).map (fun j => nGetKey d (I + j)) := by
      apply List.map_congr_left
      intro a ha
      show nGetKey (splitLeaf d zeroBytes newPid).1 (I + a) = nGetKey d (I + a)
      exact hLkey (I + a)
    have hIkeys2 : nodeKeys (insertLeaf (splitLeaf d zeroBytes newPid).1 key rid).2
        = (List.range I).map (nGetKey d) ++ key ::
          (List.range (101 - I)).map (fun j => nGetKey d (I + j)) := by
      rw [hIkeys, e1, e2]
    have hcomb : nodeKeys (insertSplitPath d newPid key rid).1
        ++ nodeKeys (insertSplitPath d newPid key rid).2.1
        = (List.range I).map (nGetKey d) ++ key ::
          (List.range (203 - I)).map (fun j => nGetKey d (I + j)) := by
      rw [hpath]
      dsimp only
      rw [hIkeys2, hKR,
        show (203 : Nat) - I = 101 + 102 - I by omega,
        map_range_split_shift (nGetKey d) I 101 102 (by omega),
        List.append_assoc, List.cons_append]
    have hlo : ∀ j, j < I → nGetKey d j < key := by
      intro j hj
      have hx := hIlo j hj
      rw [hLkey j] at hx
      exact hx
    have hhi : ∀ j, I ≤ j → j < 203 → key < nGetKey d j := by
      intro j hj1 hj2
      by_cases hj101 : j < 101
      · have hx := hIhi j hj1 hj101
        rw [hLkey j] at hx
        have := hne j (by omega)
        omega
      · rcases Nat.eq_or_lt_of_le (show 101 ≤ j by omega) with he | hlt
        · rw [← he]
          exact hkey101
        · have := hsorted 101 j hlt (by omega)
          omega
    refine ⟨hcap, hfull, ?_, ?_, ?_⟩
    · rw [hpath]
      dsimp only
      rw [hInum, hRnum]
    · rw [hcomb, hnodeD]
      exact splice_perm (nGetKey d) 203 I key (by omega)
    · rw [hcomb]
      exact splice_sorted (nGetKey d) 203 I key (by omega) hsorted hlo hhi

set_option maxRecDepth 100000

theorem c1Leaf_keys : ∀ q, q < 203 → nGetKey c1Leaf q = (q : Int) := by decide

/-- Witness for C1 at a concrete full leaf (keys 0..202, inserted key 1000):
the leaf rejects the direct insert, and the split path redistributes all 204
keys across the two leaves. -/
theorem C1_leaf_capacity_split_witness :
    nMaxCapacity c1Leaf = 203 ∧
    insertLeaf c1Leaf 1000 ⟨0, 0⟩ = (false, c1Leaf) ∧
    nGetNumKeys (insertSplitPath c1Leaf 7 1000 ⟨0, 0⟩).1
      + nGetNumKeys (insertSplitPath c1Leaf 7 1000 ⟨0, 0⟩).2.1 = 204 := by
  obtain ⟨h1, h2, h3, h4, h5⟩ := C1_leaf_capacity_split c1Leaf 7 1000 ⟨0, 0⟩
    (by decide) (by decide)
    (fun a b hab hb => by
      rw [c1Leaf_keys a (by omega), c1Leaf_keys b hb]
      exact_mod_cast hab)
    (by decide) (by decide) (by decide)
  exact ⟨h1, h2, h3⟩

theorem spGetTuple_some_lt (d : Bytes) (idx : Nat) (x : List Nat)
    (h : spGetTuple d idx = some x) : idx < spGetNumSlots d := by
  unfold spGetTuple at h
  by_cases hc : spGetNumSlots d ≤ idx
  · rw [if_pos hc] at h
    exact absurd h (by simp)
  · omega

theorem spInsertTuple_ok_inv (d : Bytes) (data : List Nat) (slot : Nat) (d1 : Bytes)
    (h : spInsertTuple d data = (InsResult.ok slot, d1)) :
    data.length ≤ 4096 ∧
    16 + spGetNumSlots d * 4 + data.length ≤ spGetFreeSpacePointer d ∧
    slot = spGetNumSlots d ∧ d1 = spInsertWrite d data := by
  unfold spInsertTuple at h
  by_cases hbig : 4096 < data.length
  · rw [if_pos hbig] at h
    rw [Prod.mk.injEq] at h
    exact absurd h.1 (by simp)
  · rw [if_neg hbig] at h
    by_cases hguard : (spGetFreeSpacePointer d : Int) - (12 + (spGetNumSlots d : Int) * 4)
        < 4 + (data.length : Int)
    · rw [if_pos hguard] at h
      rw [Prod.mk.injEq] at h
      exact absurd h.1 (by simp)
    · rw [if_neg hguard] at h
      rw [Prod.mk.injEq] at h
      obtain ⟨h1, h2⟩ := h
      injection h1 with h3
      exact ⟨by omega, by omega, h3.symm, h2.symm⟩

theorem chain_head_mem (st : Store) (p : Int) (ids : List Int) (h : Chain st p ids) :
    p ∈ ids := by
  cases h with
  | last _ _ _ => exact List.mem_cons_self p []
  | cons _ q ids _ _ _ => exact List.mem_cons_self p ids

theorem chain_unique (st : Store) : ∀ (ids1 : List Int) (p : Int) (ids2 : List Int),
    Chain st p ids1 → Chain st p ids2 → ids1 = ids2 := by
  intro ids1
  induction ids1 with
  | nil =>
    intro p ids2 h1
    cases h1
  | cons q rest ih =>
    intro p ids2 h1 h2
    obtain ⟨rfl, hq0, hrest1⟩ := chain_cons_inv st p q rest h1
    cases h2 with
    | last _ hp2 hn2 =>
      rcases hrest1 with ⟨rfl, hn1⟩ | htail1
      · rfl
      · have := chain_head_nonneg st _ rest htail1
        rw [hn2] at this
        exact absurd this (by unfold InvalidPageID; omega)
    | cons _ q2 ids2' hp2 hn2 htail2 =>
      rcases hrest1 with ⟨rfl, hn1⟩ | htail1
      · have := chain_head_nonneg st q2 ids2' htail2
        rw [hn1] at hn2
        rw [← hn2] at this
        exact absurd this (by unfold InvalidPageID; omega)
      · rw [hn2] at htail1
        rw [ih q2 ids2' htail1 htail2]

theorem chain_mem_suffix (st : Store) : ∀ (ids : List Int) (p x : Int),
    Chain st p ids → x ∈ ids → ∃ suf, Chain st x suf ∧ suf.length ≤ ids.length := by
  intro ids
  induction ids with
  | nil =>
    intro p x h
    cases h
  | cons q rest ih =>
    intro p x h hmem
    obtain ⟨rfl, hq0, hrest⟩ := chain_cons_inv st p q rest h
    rcases List.mem_cons.mp hmem with rfl | hmem2
    · exact ⟨x :: rest, h, le_refl _⟩
    · rcases hrest with ⟨rfl, _⟩ | htail
      · cases hmem2
      · obtain ⟨suf, hsuf, hlen⟩ := ih _ x htail hmem2
        exact ⟨suf, hsuf, by simp; omega⟩

theorem chain_nodup (st : Store) : ∀ (ids : List Int) (p : Int),
    Chain st p ids → ids.Nodup := by
  intro ids
  induction ids with
  | nil => intro p h; cases h
  | cons q rest ih =>
    intro p h
    obtain ⟨rfl, hq0, hrest⟩ := chain_cons_inv st p q rest h
    rcases hrest with ⟨rfl, _⟩ | htail
    · simp
    · rw [List.nodup_cons]
      refine ⟨?_, ih _ htail⟩
      intro hmem
      obtain ⟨suf, hsuf, hlen⟩ := chain_mem_suffix st rest _ p htail hmem
      have hequ := chain_unique st (p :: rest) p suf h hsuf
      rw [← hequ] at hlen
      simp at hlen

theorem thInsertTuple_succ_tooLarge_alloc (st : Store) (curr : Int) (data : List Nat)
    (fuel : Nat) (r : InsResult) (d1 : Bytes)
    (h : spInsertTuple (newSlottedPage (st.pages curr)) data = (r, d1))
    (hr : ∀ s, r ≠ InsResult.ok s)
    (hq : spGetNextPageID (newSlottedPage (st.pages curr)) = InvalidPageID)
    (nd2 : Bytes)
    (h2 : spInsertTuple (spSetNextPageID (newSlottedPage zeroBytes) InvalidPageID) data
        = (InsResult.tooLarge, nd2)) :
    thInsertTuple st curr data (fuel + 1) = ThResult.tooLarge := by
  conv_lhs => unfold thInsertTuple
  dsimp only
  rw [h]
  cases r with
  | ok s => exact absurd rfl (hr s)
  | noSpace => rw [if_pos hq, h2]
  | tooLarge => rw [if_pos hq, h2]

theorem storeUpdate_pages_self (s : Store) (pid : Int) (d : Bytes) :
    (s.update pid d).pages pid = d := by
  show (if pid = pid then _ else _) = _
  rw [if_pos rfl]

theorem storeUpdate_pages_ne (s : Store) (pid : Int) (d : Bytes) (q : Int) (h : q ≠ pid) :
    (s.update pid d).pages q = s.pages q := by
  show (if q = pid then _ else _) = _
  rw [if_neg h]

theorem storeAlloc_pages_ne (s : Store) (q : Int) (h : q ≠ s.nextId) :
    s.allocPage.2.pages q = s.pages q := by
  show (if q = s.nextId then _ else _) = _
  rw [if_neg h]

theorem thInsert_effect (data : List Nat) (hnz : data ≠ []) :
    ∀ (fuel : Nat) (st : Store) (curr : Int) (ids : List Int) (rid : RID) (st' : Store),
      Chain st curr ids → (∀ p ∈ ids, p < st.nextId) →
      0 ≤ st.nextId → st.nextId < 2 ^ 63 →
      thInsertTuple st curr data fuel = ThResult.ok rid st' →
      spGetTuple (newSlottedPage (st'.pages rid.pageID)) rid.slotID
          = some (data.map (fun b => b % 256)) ∧
      rid.slotID < spGetNumSlots (newSlottedPage (st'.pages rid.pageID)) ∧
      ∃ ids', Chain st' curr ids' ∧ rid.pageID ∈ ids' ∧
        (∀ p, p ∉ ids → p ≠ st.nextId →
          spGetNextPageID (st'.pages p) = spGetNextPageID (st.pages p)) := by
  have hlen0 : data.length ≠ 0 := by
    cases data with
    | nil => exact absurd rfl hnz
    | cons a l => simp
  intro fuel
  induction fuel with
  | zero =>
    intro st curr ids rid st' hch hb hn0 hn1 h
    exact ThResult.noConfusion (show ThResult.noFuel = ThResult.ok rid st' from h)
  | succ fuel ih =>
    intro st curr ids rid st' hch hb hn0 hn1 h
    have hcurr0 : 0 ≤ curr := chain_head_nonneg st curr ids hch
    have hcurrmem : curr ∈ ids := chain_head_mem st curr ids hch
    have hcurrlt : curr < st.nextId := hb curr hcurrmem
    rcases hres : spInsertTuple (newSlottedPage (st.pages curr)) data with ⟨r, d1⟩
    by_cases hok : ∃ s, r = InsResult.ok s
    · obtain ⟨slot, rfl⟩ := hok
      rw [thInsertTuple_succ_ok st curr data fuel slot d1 hres] at h
      injection h with h1 h2
      obtain ⟨hlen4096, hroom, hslot, hd1⟩ := spInsertTuple_ok_inv _ _ _ _ hres
      subst hd1
      have hpid : rid.pageID = curr := by rw [← h1]
      have hsid : rid.slotID = slot := by rw [← h1]
      have hpage : st'.pages curr
          = spInsertWrite (newSlottedPage (st.pages curr)) data := by
        rw [← h2]
        exact storeUpdate_pages_self st curr _
      refine ⟨?_, ?_, ids, ?_, ?_, ?_⟩
      · rw [hpid, hsid, hpage, newSlottedPage_getTuple, hslot]
        exact spGetTuple_insertWrite_self _ data hlen4096 hroom hlen0
      · rw [hpid, hsid, hpage, newSlottedPage_numSlots,
          spInsertWrite_numSlots _ data hroom, hslot]
        omega
      · apply chain_congr st _ curr ids _ hch
        intro p
        rw [← h2]
        by_cases hp : p = curr
        · rw [hp, storeUpdate_pages_self, spInsertWrite_next _ data hroom,
            newSlottedPage_next]
        · rw [storeUpdate_pages_ne _ _ _ _ hp]
      · rw [hpid]
        exact hcurrmem
      · intro p hpids hpnid
        have hpc : p ≠ curr := fun he => hpids (he ▸ hcurrmem)
        rw [← h2, storeUpdate_pages_ne _ _ _ _ hpc]
    · have hr : ∀ s, r ≠ InsResult.ok s := fun s hs => hok ⟨s, hs⟩
      by_cases hq : spGetNextPageID (newSlottedPage (st.pages curr)) = InvalidPageID
      · rcases hres2 : spInsertTuple (spSetNextPageID (newSlottedPage zeroBytes)
            InvalidPageID) data with ⟨r2, nd2⟩
        cases r2 with
        | ok slot2 =>
          rw [thInsertTuple_succ_err_alloc st curr data fuel r d1 hres hr hq slot2
            nd2 hres2] at h
          injection h with h1 h2
          obtain ⟨hlen4096, hroom2, hslot2, hnd2⟩ := spInsertTuple_ok_inv _ _ _ _ hres2
          subst hnd2
          have hne1 : curr ≠ st.nextId := by omega
          have hpid : rid.pageID = st.nextId := by rw [← h1]
          have hsid : rid.slotID = slot2 := by rw [← h1]
          have hpagesNew : st'.pages st.nextId
              = spInsertWrite (spSetNextPageID (newSlottedPage zeroBytes)
                  InvalidPageID) data := by
            rw [← h2]
            exact storeUpdate_pages_self _ _ _
          have hpagesCurr : st'.pages curr
              = spSetNextPageID (newSlottedPage (st.pages curr)) st.nextId := by
            rw [← h2, storeUpdate_pages_ne _ _ _ _ hne1,
              storeUpdate_pages_ne _ _ _ _ hne1, storeUpdate_pages_self]
          refine ⟨?_, ?_, [curr, st.nextId], ?_, ?_, ?_⟩
          · rw [hpid, hsid, hpagesNew, newSlottedPage_getTuple, hslot2]
            exact spGetTuple_insertWrite_self _ data hlen4096 hroom2 hlen0
          · rw [hpid, hsid, hpagesNew, newSlottedPage_numSlots,
              spInsertWrite_numSlots _ data hroom2, hslot2]
            omega
          · apply Chain.cons curr st.nextId [st.nextId] hcurr0
            · rw [hpagesCurr]
              exact spGetNextPageID_set _ _ (by omega) hn1
            · apply Chain.last st.nextId hn0
              rw [hpagesNew, spInsertWrite_next _ data hroom2]
              exact spGetNextPageID_set _ _ (by unfold InvalidPageID; norm_num)
                (by unfold InvalidPageID; norm_num)
          · rw [hpid]
            simp
          · intro p hpids hpnid
            have hpc : p ≠ curr := fun he => hpids (he ▸ hcurrmem)
            rw [← h2, storeUpdate_pages_ne _ _ _ _ hpnid,
              storeUpdate_pages_ne _ _ _ _ hpnid,
              storeUpdate_pages_ne _ _ _ _ hpc,
              storeAlloc_pages_ne (st.update curr (newSlottedPage (st.pages curr))) p
                (show p ≠ st.nextId from hpnid),
              storeUpdate_pages_ne _ _ _ _ hpc]
        | noSpace =>
          rw [thInsertTuple_succ_noSpace_alloc st curr data fuel r d1 hres hr hq
            nd2 hres2] at h
          exact ThResult.noConfusion h
        | tooLarge =>
          rw [thInsertTuple_succ_tooLarge_alloc st curr data fuel r d1 hres hr hq
            nd2 hres2] at h
          exact ThResult.noConfusion h
      · rw [thInsertTuple_succ_err_walk st curr data fuel r d1 hres hr hq] at h
        cases hch with
        | last _ hp hn =>
          exact absurd (by rw [newSlottedPage_next]; exact hn) hq
        | cons _ q rest hp hn htail =>
          have hq0 : 0 ≤ q := chain_head_nonneg st q rest htail
          have hqv : spGetNextPageID (newSlottedPage (st.pages curr)) = q := by
            rw [newSlottedPage_next]
            exact hn
          rw [hqv] at h
          have hnd : (curr :: rest).Nodup :=
            chain_nodup st _ curr (Chain.cons curr q rest hp hn htail)
          have hcnr : curr ∉ rest := (List.nodup_cons.mp hnd).1
          obtain ⟨hr1, hr2, ids2, hch2, hmem2, hframe2⟩ := ih
            (st.update curr (newSlottedPage (st.pages curr))) q rest rid st'
            (chain_update_view st curr q rest htail)
            (fun p hp2 => hb p (List.mem_cons_of_mem curr hp2)) hn0 hn1 h
          refine ⟨hr1, hr2, curr :: ids2, ?_, List.mem_cons_of_mem curr hmem2, ?_⟩
          · apply Chain.cons curr q ids2 hcurr0 ?_ hch2
            have hcf := hframe2 curr hcnr (show curr ≠ st.nextId by omega)
            rw [hcf, storeUpdate_pages_self, newSlottedPage_next]
            exact hn
          · intro p hpids hpnid
            have hpc : p ≠ curr :=
              fun he => hpids (by rw [he]; exact List.mem_cons_self _ _)
            have hpr : p ∉ rest := fun hm => hpids (List.mem_cons_of_mem _ hm)
            rw [hframe2 p hpr hpnid, storeUpdate_pages_ne _ _ _ _ hpc]

theorem pageEmit_empty (st : Store) (p : Int) (s0 : Nat)
    (h : spGetNumSlots (newSlottedPage (st.pages p)) ≤ s0) :
    pageEmitFrom st p s0 = [] := by
  unfold pageEmitFrom
  rw [show spGetNumSlots (newSlottedPage (st.pages p)) - s0 = 0 by omega]
  rfl

theorem pageEmit_cons_some (st : Store) (p : Int) (s0 : Nat) (data0 : List Nat)
    (hlt : s0 < spGetNumSlots (newSlottedPage (st.pages p)))
    (hget : spGetTuple (newSlottedPage (st.pages p)) s0 = some data0) :
    pageEmitFrom st p s0
      = (data0, (⟨p, s0⟩ : RID)) :: pageEmitFrom st p (s0 + 1) := by
  unfold pageEmitFrom
  rw [show spGetNumSlots (newSlottedPage (st.pages p)) - s0
      = (spGetNumSlots (newSlottedPage (st.pages p)) - (s0 + 1)) + 1 by omega,
    List.range'_succ s0 _ 1]
  rw [List.filterMap_cons]
  rw [hget, Option.map_some']

theorem pageEmit_cons_none (st : Store) (p : Int) (s0 : Nat)
    (hlt : s0 < spGetNumSlots (newSlottedPage (st.pages p)))
    (hget : spGetTuple (newSlottedPage (st.pages p)) s0 = none) :
    pageEmitFrom st p s0 = pageEmitFrom st p (s0 + 1) := by
  unfold pageEmitFrom
  rw [show spGetNumSlots (newSlottedPage (st.pages p)) - s0
      = (spGetNumSlots (newSlottedPage (st.pages p)) - (s0 + 1)) + 1 by omega,
    List.range'_succ s0 _ 1]
  rw [List.filterMap_cons]
  rw [hget]
  rfl

theorem pageEmit_count_ne (st : Store) (p : Int) (s0 : Nat) (data : List Nat) (rid : RID)
    (h : rid.pageID ≠ p) :
    (pageEmitFrom st p s0).count (data, rid) = 0 := by
  rw [List.count_eq_zero]
  intro hmem
  unfold pageEmitFrom at hmem
  rw [List.mem_filterMap] at hmem
  obtain ⟨s, hs, hfs⟩ := hmem
  rcases hget : spGetTuple (newSlottedPage (st.pages p)) s with _ | dat
  · rw [hget] at hfs
    exact absurd hfs (by simp)
  · rw [hget, Option.map_some'] at hfs
    injection hfs with hfs1
    rw [Prod.mk.injEq] at hfs1
    exact h (by rw [← hfs1.2])

theorem pageEmit_count_from (st : Store) (p : Int) (data : List Nat) (s : Nat) :
    ∀ (n s0 : Nat), spGetNumSlots (newSlottedPage (st.pages p)) - s0 = n →
      (pageEmitFrom st p s0).count (data, (⟨p, s⟩ : RID))
        = if s0 ≤ s ∧ spGetTuple (newSlottedPage (st.pages p)) s = some data
          then 1 else 0 := by
  intro n
  induction n with
  | zero =>
    intro s0 hn
    rw [pageEmit_empty st p s0 (by omega)]
    rw [if_neg (show ¬ (s0 ≤ s ∧ spGetTuple (newSlottedPage (st.pages p)) s = some data) by
      intro hc
      obtain ⟨hc1, hc2⟩ := hc
      have := spGetTuple_some_lt _ s data hc2
      omega)]
    rfl
  | succ n ihn =>
    intro s0 hn
    have hlt : s0 < spGetNumSlots (newSlottedPage (st.pages p)) := by omega
    rcases hget : spGetTuple (newSlottedPage (st.pages p)) s0 with _ | dat0
    · rw [pageEmit_cons_none st p s0 hlt hget, ihn (s0 + 1) (by omega)]
      by_cases hc : s0 + 1 ≤ s ∧ spGetTuple (newSlottedPage (st.pages p)) s = some data
      · obtain ⟨hc1, hc2⟩ := hc
        rw [if_pos ⟨hc1, hc2⟩, if_pos ⟨by omega, hc2⟩]
      · rw [if_neg hc, if_neg (show ¬ (s0 ≤ s ∧
            spGetTuple (newSlottedPage (st.pages p)) s = some data) by
          intro hc2
          obtain ⟨hc21, hc22⟩ := hc2
          by_cases he : s = s0
          · rw [he, hget] at hc22
            exact Option.noConfusion hc22
          · exact hc ⟨by omega, hc22⟩)]
    · rw [pageEmit_cons_some st p s0 dat0 hlt hget, List.count_cons,
        ihn (s0 + 1) (by omega)]
      by_cases he : s = s0
      · subst he
        rw [if_neg (show ¬ (s + 1 ≤ s ∧
            spGetTuple (newSlottedPage (st.pages p)) s = some data) by
          intro hc
          obtain ⟨h1, _⟩ := hc
          omega)]
        by_cases hdat : dat0 = data
        · rw [if_pos (beq_iff_eq.mpr (show ((dat0, (⟨p, s⟩ : RID)) : List Nat × RID)
              = (data, (⟨p, s⟩ : RID)) by rw [hdat])),
            if_pos ⟨le_refl s, by rw [hget, hdat]⟩]
        · rw [if_neg (show ¬ (((dat0, (⟨p, s⟩ : RID)) : List Nat × RID)
                == (data, (⟨p, s⟩ : RID))) = true by
              intro hbe
              have hx := beq_iff_eq.mp hbe
              rw [Prod.mk.injEq] at hx
              exact hdat hx.1),
            if_neg (show ¬ (s ≤ s ∧
                spGetTuple (newSlottedPage (st.pages p)) s = some data) by
              intro hc
              obtain ⟨_, hc2⟩ := hc
              rw [hget] at hc2
              injection hc2 with hx
              exact hdat hx)]
      · rw [if_neg (show ¬ (((dat0, (⟨p, s0⟩ : RID)) : List Nat × RID)
            == (data, (⟨p, s⟩ : RID))) = true by
          intro hbe
          have hx := beq_iff_eq.mp hbe
          rw [Prod.mk.injEq, RID.mk.injEq] at hx
          exact he hx.2.2.symm)]
        by_cases hc : s0 + 1 ≤ s ∧ spGetTuple (newSlottedPage (st.pages p)) s = some data
        · obtain ⟨hc1, hc2⟩ := hc
          rw [if_pos ⟨hc1, hc2⟩, if_pos ⟨by omega, hc2⟩]
        · rw [if_neg hc, if_neg (show ¬ (s0 ≤ s ∧
              spGetTuple (newSlottedPage (st.pages p)) s = some data) by
            intro hc2
            obtain ⟨h1, h2⟩ := hc2
            exact hc ⟨by omega, h2⟩)]

theorem thScan_decomp :
    ∀ (fuel : Nat) (st : Store) (p : Int) (s0 : Nat) (l : List (List Nat × RID)),
      thScan st p s0 fuel = some l →
      (p = InvalidPageID ∧ l = []) ∨
      (p ≠ InvalidPageID ∧ ∃ f2 l2,
        thScan st (spGetNextPageID (newSlottedPage (st.pages p))) 0 f2 = some l2 ∧
        l = pageEmitFrom st p s0 ++ l2) := by
  intro fuel
  induction fuel with
  | zero =>
    intro st p s0 l h
    exact absurd h (by unfold thScan; simp)
  | succ fuel ih =>
    intro st p s0 l h
    unfold thScan at h
    by_cases hpid : p = InvalidPageID
    · rw [if_pos hpid] at h
      injection h with h1
      exact Or.inl ⟨hpid, h1.symm⟩
    · rw [if_neg hpid] at h
      dsimp only at h
      refine Or.inr ⟨hpid, ?_⟩
      by_cases hslot : s0 < spGetNumSlots (newSlottedPage (st.pages p))
      · rw [if_pos hslot] at h
        rcases hget : spGetTuple (newSlottedPage (st.pages p)) s0 with _ | data0
        · rw [hget] at h
          rcases ih st p (s0 + 1) l h with ⟨hbad, _⟩ | ⟨_, f2, l2, hscan2, hl⟩
          · exact absurd hbad hpid
          · exact ⟨f2, l2, hscan2, by
              rw [hl, pageEmit_cons_none st p s0 hslot hget]⟩
        · rw [hget] at h
          dsimp only at h
          rcases hrec : thScan st p (s0 + 1) fuel with _ | rest
          · rw [hrec] at h
            exact absurd h (by simp)
          · rw [hrec, Option.map_some'] at h
            injection h with h1
            rcases ih st p (s0 + 1) rest hrec with ⟨hbad, _⟩ | ⟨_, f2, l2, hscan2, hl⟩
            · exact absurd hbad hpid
            · refine ⟨f2, l2, hscan2, ?_⟩
              rw [← h1, hl, pageEmit_cons_some st p s0 data0 hslot hget]
              rfl
      · rw [if_neg hslot] at h
        exact ⟨fuel, l, h, by
          rw [pageEmit_empty st p s0 (by omega), List.nil_append]⟩

theorem scan_count_chain (data : List Nat) (rid : RID) :
    ∀ (ids : List Int) (st : Store) (p : Int), Chain st p ids → ids.Nodup →
      ∀ (fuel : Nat) (l : List (List Nat × RID)), thScan st p 0 fuel = some l →
      l.count (data, rid)
        = if rid.pageID ∈ ids then (pageEmitFrom st rid.pageID 0).count (data, rid)
          else 0 := by
  intro ids
  induction ids with
  | nil =>
    intro st p hch
    cases hch
  | cons q rest ih =>
    intro st p hch hnd fuel l hscan
    obtain ⟨rfl, hq0, hrest⟩ := chain_cons_inv st p q rest hch
    rcases thScan_decomp fuel st p 0 l hscan with ⟨hbad, _⟩ | ⟨_, f2, l2, hscan2, hl⟩
    · rw [hbad] at hq0
      exact absurd hq0 (by unfold InvalidPageID; omega)
    · subst hl
      rw [List.count_append]
      rcases hrest with ⟨rfl, hnext⟩ | htail
      · have hnextv : spGetNextPageID (newSlottedPage (st.pages p)) = InvalidPageID := by
          rw [newSlottedPage_next]
          exact hnext
        rw [hnextv] at hscan2
        have hl2 : l2 = [] := by
          cases f2 with
          | zero => exact absurd hscan2 (by unfold thScan; simp)
          | succ f3 =>
            unfold thScan at hscan2
            rw [if_pos rfl] at hscan2
            injection hscan2 with h1
            exact h1.symm
        subst hl2
        by_cases hpq : rid.pageID = p
        · rw [if_pos (by rw [hpq]; exact List.mem_cons_self p [])]
          rw [hpq]
          rfl
        · rw [if_neg (by
            intro hc
            rcases List.mem_cons.mp hc with h1 | h2
            · exact hpq h1
            · cases h2)]
          rw [pageEmit_count_ne st p 0 data rid hpq]
          simp
      · have hnextv : spGetNextPageID (newSlottedPage (st.pages p))
            = spGetNextPageID (st.pages p) := newSlottedPage_next _
        rw [hnextv] at hscan2
        have hcount2 := ih st (spGetNextPageID (st.pages p)) htail
          (List.nodup_cons.mp hnd).2 f2 l2 hscan2
        by_cases hpq : rid.pageID = p
        · have hnotin : rid.pageID ∉ rest := by
            rw [hpq]
            exact (List.nodup_cons.mp hnd).1
          rw [hcount2, if_neg hnotin, if_pos (by rw [hpq]; exact List.mem_cons_self p rest),
            hpq]
          omega
        · rw [pageEmit_count_ne st p 0 data rid hpq, hcount2]
          by_cases hmem2 : rid.pageID ∈ rest
          · rw [if_pos hmem2, if_pos (List.mem_cons_of_mem p hmem2)]
            omega
          · rw [if_neg hmem2, if_neg (by
              intro hc
              rcases List.mem_cons.mp hc with h1 | h2
              · exact hpq h1
              · exact hmem2 h2)]


theorem pageEmit_count_live (st : Store) (rid : RID) (data : List Nat)
    (hget : spGetTuple (newSlottedPage (st.pages rid.pageID)) rid.slotID = some data) :
    (pageEmitFrom st rid.pageID 0).count (data, rid) = 1 := by
  obtain ⟨rp, rs⟩ := rid
  dsimp only at hget ⊢
  rw [pageEmit_count_from st rp data rs
    (spGetNumSlots (newSlottedPage (st.pages rp))) 0 rfl]
  rw [if_pos ⟨Nat.zero_le rs, hget⟩]



/-- C6 counterexample: inserting the empty byte sequence into a fresh heap
returns an RID, yet `GetTuple` on that RID reports not-found and a full scan
never emits it — a zero-length tuple is indistinguishable from a tombstone. -/
theorem C6_counterexample :
    ∃ st2, thInsertTuple (thNew emptyStore).1 (thNew emptyStore).2 ([] : List Nat) 1
        = ThResult.ok ⟨0, 0⟩ st2 ∧
      thGetTuple st2 ⟨0, 0⟩ = none ∧
      thScan st2 0 0 3 = some [] := by
  refine ⟨_, rfl, rfl, rfl⟩

/-- C6 (corrected): for nonempty byte sequences, insert/get/scan/delete behave
as claimed: if `TableHeap.InsertTuple data` over a well-formed page chain
returns `rid`, then `GetTuple rid` returns `data`, every completed iterator
scan emits `(data, rid)` exactly once, and after `DeleteTuple rid` the lookup
reports not-found and a completed scan emits it zero times.  (For empty
`data` the claim fails: see the counterexample.) -/
theorem C6_roundtrip_scan_delete (st : Store) (first : Int) (ids : List Int)
    (data : List Nat) (fuel : Nat) (rid : RID) (st2 : Store)
    (hnz : data ≠ [])
    (hbytes : ∀ b ∈ data, b < 256)
    (hchain : Chain st first ids)
    (hbound : ∀ p ∈ ids, p < st.nextId)
    (hnid0 : 0 ≤ st.nextId) (hnid1 : st.nextId < 2 ^ 63)
    (hins : thInsertTuple st first data fuel = ThResult.ok rid st2) :
    thGetTuple st2 rid = some data ∧
    (∀ (fuel2 : Nat) (l : List (List Nat × RID)),
      thScan st2 first 0 fuel2 = some l → l.count (data, rid) = 1) ∧
    thGetTuple (thDeleteTuple st2 rid) rid = none ∧
    (∀ (fuel2 : Nat) (l : List (List Nat × RID)),
      thScan (thDeleteTuple st2 rid) first 0 fuel2 = some l →
        l.count (data, rid) = 0) := by
  have hmap : data.map (fun b => b % 256) = data := by
    conv_rhs => rw [← List.map_id data]
    exact List.map_congr_left (fun b hb => Nat.mod_eq_of_lt (hbytes b hb))
  obtain ⟨hget, hlive, ids2, hch2, hmem2, hframe2⟩ :=
    thInsert_effect data hnz fuel st first ids rid st2 hchain hbound hnid0 hnid1 hins
  rw [hmap] at hget
  have hdelpage : (thDeleteTuple st2 rid).pages rid.pageID
      = (spDeleteTuple (newSlottedPage (st2.pages rid.pageID)) rid.slotID).2 :=
    storeUpdate_pages_self st2 rid.pageID _
  have hdel2 : (spDeleteTuple (newSlottedPage (st2.pages rid.pageID)) rid.slotID).2
      = spSetSlot (newSlottedPage (st2.pages rid.pageID)) rid.slotID
          (spGetSlot (newSlottedPage (st2.pages rid.pageID)) rid.slotID).1 0 := by
    rw [spDeleteTuple_ok _ _ hlive]
  have hdelget : spGetTuple (newSlottedPage ((thDeleteTuple st2 rid).pages rid.pageID))
      rid.slotID = none := by
    rw [hdelpage, hdel2, newSlottedPage_getTuple]
    exact spGetTuple_deleted _ _ hlive
  refine ⟨?_, ?_, ?_, ?_⟩
  · show spGetTuple (newSlottedPage (st2.pages rid.pageID)) rid.slotID = some data
    exact hget
  · intro fuel2 l hscan
    rw [scan_count_chain data rid ids2 st2 first hch2
      (chain_nodup st2 ids2 first hch2) fuel2 l hscan, if_pos hmem2]
    exact pageEmit_count_live st2 rid data hget
  · show spGetTuple (newSlottedPage ((thDeleteTuple st2 rid).pages rid.pageID))
        rid.slotID = none
    exact hdelget
  · intro fuel2 l hscan
    rw [List.count_eq_zero]
    intro hmem
    have hlg := thScan_emit_live fuel2 (thDeleteTuple st2 rid) first 0 l hscan
      data rid hmem
    rw [hdelget] at hlg
    exact Option.noConfusion hlg

/-- Witness for C6 at a concrete heap: inserting the two bytes `[7, 8]` into a
fresh table heap yields RID (0, 0); the tuple reads back, a full scan emits it
exactly once, and after deletion the lookup fails and a full scan emits it
zero times. -/
theorem C6_roundtrip_scan_delete_witness :
    thGetTuple c6St2 ⟨0, 0⟩ = some [7, 8] ∧
    ((thScan c6St2 0 0 3).getD []).count ([7, 8], (⟨0, 0⟩ : RID)) = 1 ∧
    thGetTuple (thDeleteTuple c6St2 ⟨0, 0⟩) ⟨0, 0⟩ = none ∧
    ((thScan (thDeleteTuple c6St2 ⟨0, 0⟩) 0 0 3).getD []).count
      ([7, 8], (⟨0, 0⟩ : RID)) = 0 := by
  obtain ⟨h1, h2, h3, h4⟩ := C6_roundtrip_scan_delete c6St 0 [0] [7, 8] 1 ⟨0, 0⟩ c6St2
    (by decide) (by decide) (Chain.last 0 (by decide) (by decide)) (by decide)
    (by decide) (by decide) rfl
  refine ⟨h1, ?_, h3, ?_⟩
  · exact h2 3 [([7, 8], (⟨0, 0⟩ : RID))] rfl
  · exact h4 3 [] rfl
